import Mathlib

/-!
# Streaming debug IP driver: descriptor tracker, ring allocator and framing engine

A shallow embedding of `streaming/src/intel_st_debug_if_st_dbg_ip_driver.c`, of the
macros of `streaming/inc/intel_st_debug_if_st_dbg_ip_driver.h` and of the send and receive
loops of `streaming/src/intel_st_debug_if_sockets.c`.

Conventions of the embedding.

* The file-scope variables of the driver are the fields of `Driver`, under their C names.
* Machine integers are natural numbers; every store into a C object of width `w` is
  written with an explicit `% 2 ^ w`.  `unsigned short` is 16 bits, `uint32_t` 32 bits,
  `size_t` and `uint64_t` 64 bits (LP64).  Plain `char` is the signed 8-bit type of the
  x86-64 Linux ABI; an integer conversion that does not fit wraps.
* A register read takes the value the device returns as an argument of the function; every
  register access and every call into the ring allocator is recorded, in program order, in
  the `trace` of the result.
* Undefined behaviour (an array access outside its bounds, a signed overflow) and
  non-termination are `none`.
-/

namespace StDbg

/-! ## Constants of `intel_st_debug_if_st_dbg_ip_driver.h` -/

def MAX_H2T_DESCRIPTOR_DEPTH : Nat := 128
def MAX_MGMT_DESCRIPTOR_DEPTH : Nat := 128
def ST_DBG_IP_BUFF_ALIGN_POW_2 : Nat := 3

def ST_DBG_IP_H2T_AVAILABLE_SLOTS : Nat := 0x100
def ST_DBG_IP_H2T_HOW_LONG : Nat := 0x108
def ST_DBG_IP_H2T_CONNECTION_ID : Nat := 0x110
def ST_DBG_IP_T2H_HOW_LONG : Nat := 0x208
def ST_DBG_IP_T2H_CONNECTION_ID : Nat := 0x210
def ST_DBG_IP_MGMT_AVAILABLE_SLOTS : Nat := 0x300
def ST_DBG_IP_MGMT_HOW_LONG : Nat := 0x308
def ST_DBG_IP_MGMT_CHANNEL_ID_PUSH : Nat := 0x314
def ST_DBG_IP_MGMT_RSP_HOW_LONG : Nat := 0x408
def ST_DBG_IP_MGMT_RSP_CHANNEL_ID_ADVANCE : Nat := 0x414

def ST_DBG_IP_LAST_DESCRIPTOR_MASK : Nat := 0x80000000
def ST_DBG_IP_HOW_LONG_MASK : Nat := 0x7FFFFFFF

def SUPPORTED_TYPE_SIGNATURE : Nat := 0x5244444D
def SUPPORTED_VERSION : Nat := 1
def INIT_ERROR_CODE_INCOMPATIBLE_IP : Int := -2
def ST_DBG_IF_BASE : Nat := 0x0000
def JOP_MEM_SIZE_2K : Nat := 2048
def H2T_MEM_BASE_2K : Nat := 0x800
def T2H_MEM_BASE_4K : Nat := 0x1000
def MGMT_MEM_BASE_4K : Nat := T2H_MEM_BASE_4K + H2T_MEM_BASE_2K
def ST_DBG_IP_CONFIG_TYPE : Nat := 0x0
def ST_DBG_IP_CONFIG_RESET_AND_LOOPBACK : Nat := 0x20
def ST_DBG_IP_CONFIG_H2T_T2H_RESET_FIELD : Nat := 0x1
def ST_DBG_IP_CONFIG_H2T_T2H_MEM : Nat := 0x24
def ST_DBG_IP_CONFIG_H2T_T2H_DESC_DEPTH : Nat := 0x2C

/-- The macro `ALIGN_TO(n)` on a `size_t`: `((n) >> 3) << 3`. -/
def ALIGN_TO (n : Nat) : Nat :=
  ((n >>> ST_DBG_IP_BUFF_ALIGN_POW_2) <<< ST_DBG_IP_BUFF_ALIGN_POW_2) % 2 ^ 64

/-- The macro `GET_ALIGNED_SZ(n)` on a `size_t`: `ALIGN_TO((n) + (1 << 3) - 1)`, the sum and the
difference taken in 64-bit unsigned arithmetic. -/
def GET_ALIGNED_SZ (n : Nat) : Nat :=
  ALIGN_TO ((((n + (1 <<< ST_DBG_IP_BUFF_ALIGN_POW_2)) % 2 ^ 64) + 2 ^ 64 - 1) % 2 ^ 64)

/-! ## Call trace -/

/-- The two channels that own a descriptor chain and a circular buffer. -/
inductive Chan where
  | h2t
  | mgmt
deriving DecidableEq, Repr

/-- One observable call made by a driver function: a register access through the platform
layer, or a call into the ring allocator. -/
inductive Call where
  | fpga_read_32 (offset : Nat)
  | fpga_read_64 (offset : Nat)
  | fpga_write_32 (offset value : Nat)
  | fpga_write_64 (offset value : Nat)
  | cbuff_free (buf : Chan) (sz : Nat)
  | cbuff_alloc (buf : Chan) (sz : Nat)
deriving DecidableEq, Repr

/-- Recogniser of the allocator's `free` calls in a trace. -/
def Call.isFree : Call → Bool
  | .cbuff_free _ _ => true
  | _ => false

/-! ## Ring allocator -/

/-- Modelled from the spec: the type `CIRCLE_BUFF` of `intel_st_debug_if_st_dbg_ip_allocator.h`,
which is not among the sources.  The spec gives it as
`{base: u32, capacity: usize, space_available: usize}` plus an internal write cursor. -/
structure CIRCLE_BUFF where
  base : Nat
  capacity : Nat
  space_available : Nat
  write_cursor : Nat
deriving DecidableEq, Repr

/-- Modelled from the spec: `cbuff_init` of the allocator module, which is not among the
sources.  A buffer is created empty: all of its capacity is available and the write cursor
is at the start of the region. -/
def cbuff_init (base capacity : Nat) : CIRCLE_BUFF :=
  { base := base, capacity := capacity, space_available := capacity, write_cursor := 0 }

/-- Modelled from the spec: `cbuff_alloc` of the allocator module, which is not among the
sources.  "Round `len` up to the 8-byte alignment unit; succeed only if
`space_available ≥ rounded_len`; on success, decrement `space_available` and return the
allocation's starting offset (monotonically advancing write cursor, wrapping modulo
capacity)"; the starting offset is counted from the region base, as in the spec's scenario
(base `0x1000`, first allocation at `0x1000`). -/
def cbuff_alloc (cb : CIRCLE_BUFF) (len : Nat) : CIRCLE_BUFF × Option Nat :=
  let rounded_len := GET_ALIGNED_SZ len
  if cb.space_available ≥ rounded_len then
    ({ cb with
        space_available := cb.space_available - rounded_len
        write_cursor := (cb.write_cursor + rounded_len) % cb.capacity },
      some (cb.base + cb.write_cursor))
  else
    (cb, none)

/-- Modelled from the spec: `cbuff_free` of the allocator module, which is not among the
sources.  "Increment `space_available` by `len` (not re-validated for alignment)". -/
def cbuff_free (cb : CIRCLE_BUFF) (len : Nat) : CIRCLE_BUFF :=
  { cb with space_available := cb.space_available + len }

/-! ## Driver state -/

/-- The structure `ST_DBG_IP_DESIGN_INFO`: base address and size of the four regions. -/
structure ST_DBG_IP_DESIGN_INFO where
  ST_DBG_IP_CSR_BASE_ADDR : Nat
  H2T_MEM_BASE_ADDR : Nat
  H2T_MEM_SZ : Nat
  T2H_MEM_BASE_ADDR : Nat
  T2H_MEM_SZ : Nat
  MGMT_MEM_BASE_ADDR : Nat
  MGMT_MEM_SZ : Nat
  MGMT_RSP_MEM_BASE_ADDR : Nat
  MGMT_RSP_MEM_SZ : Nat
deriving DecidableEq, Repr

/-- The file-scope state of `intel_st_debug_if_st_dbg_ip_driver.c`.  The two descriptor
chains are arrays of 128 `unsigned short`; only the indices below 128 of the functions
`g_h2t_descriptor_chain` and `g_mgmt_descriptor_chain` stand for array elements. -/
structure Driver where
  g_std_dbg_ip_info : ST_DBG_IP_DESIGN_INFO
  g_mmio_handle : Int
  g_h2t_descriptor_slots_available : Nat
  g_mgmt_descriptor_slots_available : Nat
  g_h2t_descriptor_chain : Nat → Nat
  g_mgmt_descriptor_chain : Nat → Nat
  g_h2t_descriptor_write_idx : Nat
  g_h2t_descriptor_read_idx : Nat
  g_mgmt_descriptor_write_idx : Nat
  g_mgmt_descriptor_read_idx : Nat
  g_t2h_sop : Nat
  g_mgmt_rsp_sop : Nat
  g_h2t_rx_cbuff : CIRCLE_BUFF
  g_mgmt_rx_cbuff : CIRCLE_BUFF
  has_init_once : Bool

/-- Every variable of the driver holds a value of its C type: the slot counts, the indices
and the chain entries are `unsigned short`, the two SOP flags are `unsigned char`. -/
def Driver.inRange (s : Driver) : Prop :=
  s.g_h2t_descriptor_slots_available < 2 ^ 16 ∧
  s.g_mgmt_descriptor_slots_available < 2 ^ 16 ∧
  s.g_h2t_descriptor_write_idx < 2 ^ 16 ∧
  s.g_h2t_descriptor_read_idx < 2 ^ 16 ∧
  s.g_mgmt_descriptor_write_idx < 2 ^ 16 ∧
  s.g_mgmt_descriptor_read_idx < 2 ^ 16 ∧
  s.g_t2h_sop < 2 ^ 8 ∧
  s.g_mgmt_rsp_sop < 2 ^ 8 ∧
  (∀ i, i < 128 → s.g_h2t_descriptor_chain i < 2 ^ 16) ∧
  (∀ i, i < 128 → s.g_mgmt_descriptor_chain i < 2 ^ 16)

instance (s : Driver) : Decidable s.inRange := by
  unfold Driver.inRange
  exact inferInstance

/-- The state of the translation unit at program start (static initialisers of the C file;
objects without an initialiser are zero).  The argument is the value of
`FPGA_MMIO_INTERFACE_INVALID_HANDLE`, a constant of the platform layer. -/
def Driver.start (invalid_handle : Int) : Driver :=
  { g_std_dbg_ip_info := ⟨0, 0, 0, 0, 0, 0, 0, 0, 0⟩
    g_mmio_handle := invalid_handle
    g_h2t_descriptor_slots_available := 0
    g_mgmt_descriptor_slots_available := 0
    g_h2t_descriptor_chain := fun _ => 0
    g_mgmt_descriptor_chain := fun _ => 0
    g_h2t_descriptor_write_idx := 0
    g_h2t_descriptor_read_idx := 0
    g_mgmt_descriptor_write_idx := 0
    g_mgmt_descriptor_read_idx := 0
    g_t2h_sop := 1
    g_mgmt_rsp_sop := 1
    g_h2t_rx_cbuff := ⟨0, 0, 0, 0⟩
    g_mgmt_rx_cbuff := ⟨0, 0, 0, 0⟩
    has_init_once := false }

/-! ## `get_h2t_buffer` -/

/-- The value of `char i` in the comparison `i < freed_descriptor_slots`: `i` is promoted to
`int` and converted to `uint32_t`. -/
def char_as_u32 (i : Int) : Nat := (i % 2 ^ 32).toNat

/-- The step `++i` on a signed 8-bit `char`: the increment of 127 wraps to -128.  (With an
unsigned 8-bit `char` the loop below runs the same iterations whenever
`freed_descriptor_slots ≤ 128`.) -/
def char_incr (i : Int) : Int := if i = 127 then -128 else i + 1

/-- The loop
`for (i = 0; i < freed_descriptor_slots; ++i) bytes_freed += chain[(read_idx + i) % 128]`
of `get_h2t_buffer` and `get_mgmt_buffer`, from the loop state `(i, bytes_freed)`.  The index
is computed in `int`, where `%` truncates towards zero; a negative index is an access outside
the array.  The first argument bounds the number of iterations (the counter takes at most 256
values before the comparison fails). -/
def bytes_freed_loop (chain : Nat → Nat) (read_idx freed : Nat) : Nat → Int → Nat → Option Nat
  | 0, _, _ => none
  | fuel + 1, i, bytes_freed =>
    if char_as_u32 i < freed then
      let idx : Int := Int.tmod ((read_idx : Int) + i) (MAX_H2T_DESCRIPTOR_DEPTH : Int)
      if 0 ≤ idx then
        bytes_freed_loop chain read_idx freed fuel (char_incr i)
          ((bytes_freed + chain idx.toNat) % 2 ^ 64)
      else
        none
    else
      some bytes_freed

/-- The local `freed_descriptor_slots` of `get_h2t_buffer`: the 32-bit register value minus the
cached count, in `uint32_t` arithmetic. -/
def freed_descriptor_slots (hw cached : Nat) : Nat :=
  (hw % 2 ^ 32 + 2 ^ 32 - cached % 2 ^ 32) % 2 ^ 32

/-- State and trace after a block of statements. -/
structure Step where
  state : Driver
  trace : List Call

/-- Result of `get_h2t_buffer` / `get_mgmt_buffer`. -/
structure BufferResult where
  state : Driver
  ret : Nat
  trace : List Call

/-- Lines 199-216 of `get_h2t_buffer`: read the slot counter (`hw` is the value read) and
reclaim the descriptors the hardware has finished with. -/
def h2t_reclaim (s : Driver) (hw : Nat) : Option Step :=
  let freed := freed_descriptor_slots hw s.g_h2t_descriptor_slots_available
  if freed > 0 then
    match bytes_freed_loop s.g_h2t_descriptor_chain s.g_h2t_descriptor_read_idx freed 256 0 0 with
    | none => none
    | some bytes_freed =>
      some
        { state :=
            { s with
              g_h2t_descriptor_slots_available :=
                (s.g_h2t_descriptor_slots_available + freed) % 2 ^ 16
              g_h2t_descriptor_read_idx :=
                (((s.g_h2t_descriptor_read_idx + freed) % 2 ^ 32) %
                  MAX_H2T_DESCRIPTOR_DEPTH) % 2 ^ 16
              g_h2t_rx_cbuff := cbuff_free s.g_h2t_rx_cbuff bytes_freed }
          trace := [.fpga_read_32 ST_DBG_IP_H2T_AVAILABLE_SLOTS, .cbuff_free .h2t bytes_freed] }
  else
    some { state := s, trace := [.fpga_read_32 ST_DBG_IP_H2T_AVAILABLE_SLOTS] }

/-- Lines 218-231 of `get_h2t_buffer`: reserve a descriptor slot and `GET_ALIGNED_SZ(sz)` bytes.
The value returned is a `uint32_t`; the allocator's "no space" is the value 0. -/
def h2t_reserve (s : Driver) (sz : Nat) : BufferResult :=
  if s.g_h2t_descriptor_slots_available > 0 then
    let aligned_sz := GET_ALIGNED_SZ sz
    if s.g_h2t_rx_cbuff.space_available ≥ aligned_sz then
      let r := cbuff_alloc s.g_h2t_rx_cbuff aligned_sz
      { state :=
          { s with
            g_h2t_descriptor_chain :=
              Function.update s.g_h2t_descriptor_chain
                (s.g_h2t_descriptor_write_idx % MAX_H2T_DESCRIPTOR_DEPTH) (aligned_sz % 2 ^ 16)
            g_h2t_descriptor_write_idx := (s.g_h2t_descriptor_write_idx + 1) % 2 ^ 16
            g_h2t_rx_cbuff := r.1 }
        ret := (r.2.getD 0) % 2 ^ 32
        trace := [.cbuff_alloc .h2t aligned_sz] }
    else
      { state := s, ret := 0, trace := [] }
  else
    { state := s, ret := 0, trace := [] }

/-- The function `get_h2t_buffer(sz)`, where `hw` is the value read from
`ST_DBG_IP_H2T_AVAILABLE_SLOTS`. -/
def get_h2t_buffer (s : Driver) (hw sz : Nat) : Option BufferResult :=
  match h2t_reclaim s hw with
  | none => none
  | some r =>
    let b := h2t_reserve r.state sz
    some { state := b.state, ret := b.ret, trace := r.trace ++ b.trace }

/-! ## Packet headers -/

/-- The structure `H2T_PACKET_HEADER`, used for H2T and T2H transfers.  Its declaration
(`intel_st_debug_if_packet.h`) is not among the sources; the fields are the ones the driver
reads and writes, with the widths of the casts in `get_t2h_data`: `DATA_LEN_BYTES` is an
`unsigned short`, `CONN_ID` an `unsigned char`, `CHANNEL` a `uint16_t`. -/
structure H2T_PACKET_HEADER where
  DATA_LEN_BYTES : Nat
  SOP_EOP : Nat
  CONN_ID : Nat
  CHANNEL : Nat
deriving DecidableEq, Repr

/-- The structure `MGMT_PACKET_HEADER`, used for MGMT and MGMT-RSP transfers; it has no
connection id. -/
structure MGMT_PACKET_HEADER where
  DATA_LEN_BYTES : Nat
  SOP_EOP : Nat
  CHANNEL : Nat
deriving DecidableEq, Repr

/-- The declarations of `intel_st_debug_if_packet.h` that the driver uses and that are not
among the sources: the SOP and EOP masks of the `SOP_EOP` field, and the width in bits of the
`CHANNEL` field of `MGMT_PACKET_HEADER`.  The `SOP_EOP` field is taken wide enough for its
masks. -/
structure PacketDecl where
  H2T_PACKET_HEADER_MASK_SOP : Nat
  H2T_PACKET_HEADER_MASK_EOP : Nat
  MGMT_PACKET_HEADER_MASK_EOP : Nat
  MGMT_CHANNEL_BITS : Nat
deriving DecidableEq, Repr

/-- The masks are usable as flags: each is nonzero and SOP and EOP share no bit. -/
def PacketDecl.wf (m : PacketDecl) : Prop :=
  m.H2T_PACKET_HEADER_MASK_SOP ≠ 0 ∧
  m.H2T_PACKET_HEADER_MASK_EOP ≠ 0 ∧
  m.MGMT_PACKET_HEADER_MASK_EOP ≠ 0 ∧
  m.H2T_PACKET_HEADER_MASK_SOP &&& m.H2T_PACKET_HEADER_MASK_EOP = 0

instance (m : PacketDecl) : Decidable m.wf := by
  unfold PacketDecl.wf
  exact inferInstance

/-- The fields of an H2T header hold values of their C types. -/
def H2T_PACKET_HEADER.inRange (h : H2T_PACKET_HEADER) : Prop :=
  h.DATA_LEN_BYTES < 2 ^ 16 ∧ h.CONN_ID < 2 ^ 8 ∧ h.CHANNEL < 2 ^ 16

instance (h : H2T_PACKET_HEADER) : Decidable h.inRange := by
  unfold H2T_PACKET_HEADER.inRange
  exact inferInstance

/-- The fields of a MGMT header hold values of their C types (`CHANNEL` at most 32 bits). -/
def MGMT_PACKET_HEADER.inRange (h : MGMT_PACKET_HEADER) : Prop :=
  h.DATA_LEN_BYTES < 2 ^ 16 ∧ h.CHANNEL < 2 ^ 32

instance (h : MGMT_PACKET_HEADER) : Decidable h.inRange := by
  unfold MGMT_PACKET_HEADER.inRange
  exact inferInstance

/-- The header carries the start-of-packet flag. -/
def H2T_PACKET_HEADER.sop (m : PacketDecl) (h : H2T_PACKET_HEADER) : Prop :=
  h.SOP_EOP &&& m.H2T_PACKET_HEADER_MASK_SOP ≠ 0

/-- The header carries the end-of-packet flag. -/
def H2T_PACKET_HEADER.eop (m : PacketDecl) (h : H2T_PACKET_HEADER) : Prop :=
  h.SOP_EOP &&& m.H2T_PACKET_HEADER_MASK_EOP ≠ 0

instance (m : PacketDecl) (h : H2T_PACKET_HEADER) : Decidable (h.sop m) := by
  unfold H2T_PACKET_HEADER.sop
  exact inferInstance

instance (m : PacketDecl) (h : H2T_PACKET_HEADER) : Decidable (h.eop m) := by
  unfold H2T_PACKET_HEADER.eop
  exact inferInstance

/-! ## Outbound push -/

/-- Result of `push_h2t_data` / `push_mgmt_data`. -/
structure PushResult where
  state : Driver
  ret : Int
  trace : List Call

/-- The how-long/where word of a push: `last_howlong | ((uint64_t) payload << 32)`, where
`last_howlong` is `DATA_LEN_BYTES & ST_DBG_IP_HOW_LONG_MASK`, with
`ST_DBG_IP_LAST_DESCRIPTOR_MASK` ORed in when `eop` (the test of the header's EOP mask) holds. -/
def howlong_where_word (data_len_bytes : Nat) (eop : Bool) (payload : Nat) : Nat :=
  let last_howlong := data_len_bytes &&& ST_DBG_IP_HOW_LONG_MASK
  let last_howlong :=
    if eop then last_howlong ||| ST_DBG_IP_LAST_DESCRIPTOR_MASK else last_howlong
  (last_howlong ||| ((payload % 2 ^ 32) <<< 32)) % 2 ^ 64

/-- The function `push_h2t_data(header, payload)`. -/
def push_h2t_data (m : PacketDecl) (s : Driver) (header : H2T_PACKET_HEADER) (payload : Nat) :
    PushResult :=
  let howlong_where :=
    howlong_where_word header.DATA_LEN_BYTES
      (decide (header.SOP_EOP &&& m.H2T_PACKET_HEADER_MASK_EOP ≠ 0)) payload
  let connid_channelpush := (header.CONN_ID ||| (header.CHANNEL <<< 32)) % 2 ^ 64
  { state :=
      { s with
        g_h2t_descriptor_slots_available :=
          (s.g_h2t_descriptor_slots_available + 2 ^ 16 - 1) % 2 ^ 16 }
    ret := 0
    trace :=
      [.fpga_write_64 ST_DBG_IP_H2T_HOW_LONG howlong_where,
       .fpga_write_64 ST_DBG_IP_H2T_CONNECTION_ID connid_channelpush] }

/-- The function `push_mgmt_data(header, payload)`. -/
def push_mgmt_data (m : PacketDecl) (s : Driver) (header : MGMT_PACKET_HEADER) (payload : Nat) :
    PushResult :=
  let howlong_where :=
    howlong_where_word header.DATA_LEN_BYTES
      (decide (header.SOP_EOP &&& m.MGMT_PACKET_HEADER_MASK_EOP ≠ 0)) payload
  { state :=
      { s with
        g_mgmt_descriptor_slots_available :=
          (s.g_mgmt_descriptor_slots_available + 2 ^ 16 - 1) % 2 ^ 16 }
    ret := 0
    trace :=
      [.fpga_write_64 ST_DBG_IP_MGMT_HOW_LONG howlong_where,
       .fpga_write_32 ST_DBG_IP_MGMT_CHANNEL_ID_PUSH (header.CHANNEL % 2 ^ 32)] }

/-! ## Inbound pull -/

/-- Result of `get_t2h_data`: the driver state, the caller's header and `*payload` after the
call, the return value and the trace. -/
structure T2HResult where
  state : Driver
  header : H2T_PACKET_HEADER
  payload : Nat
  ret : Int
  trace : List Call

/-- Result of `get_mgmt_rsp_data`. -/
structure MgmtRspResult where
  state : Driver
  header : MGMT_PACKET_HEADER
  payload : Nat
  ret : Int
  trace : List Call

/-- The value stored in `DATA_LEN_BYTES` by a pull:
`(unsigned short) (last_howlong & ST_DBG_IP_HOW_LONG_MASK)` with
`last_howlong = (uint32_t) howlong_where`. -/
def pulled_len (howlong_where : Nat) : Nat :=
  (((howlong_where % 2 ^ 64) % 2 ^ 32) &&& ST_DBG_IP_HOW_LONG_MASK) % 2 ^ 16

/-- The test `last_howlong & ST_DBG_IP_LAST_DESCRIPTOR_MASK` of a pull. -/
def pulled_last (howlong_where : Nat) : Bool :=
  decide ((((howlong_where % 2 ^ 64) % 2 ^ 32) &&& ST_DBG_IP_LAST_DESCRIPTOR_MASK) ≠ 0)

/-- The `SOP_EOP` field written by a pull: cleared, then SOP ORed in when the direction's flag
is nonzero, then EOP ORed in when the last-descriptor bit is set. -/
def pulled_sop_eop (m : PacketDecl) (flag : Nat) (last : Bool) : Nat :=
  let sop_eop := 0
  let sop_eop := if flag ≠ 0 then sop_eop ||| m.H2T_PACKET_HEADER_MASK_SOP else sop_eop
  if last then sop_eop ||| m.H2T_PACKET_HEADER_MASK_EOP else sop_eop

/-- The function `get_t2h_data(header, payload)`: `header` and `payload` are the contents of the caller's
objects before the call, `howlong_where` is the value read from `ST_DBG_IP_T2H_HOW_LONG` and
`connid_channelid` the value a read of `ST_DBG_IP_T2H_CONNECTION_ID` returns. -/
def get_t2h_data (m : PacketDecl) (s : Driver) (header : H2T_PACKET_HEADER) (payload : Nat)
    (howlong_where connid_channelid : Nat) : T2HResult :=
  let where_addr := ((howlong_where % 2 ^ 64) >>> 32) % 2 ^ 32
  let header := { header with DATA_LEN_BYTES := pulled_len howlong_where }
  if header.DATA_LEN_BYTES = 0 then
    { state := s, header := header, payload := payload, ret := 0,
      trace := [.fpga_read_64 ST_DBG_IP_T2H_HOW_LONG] }
  else
    let last := pulled_last howlong_where
    let connid_channelid := connid_channelid % 2 ^ 64
    { state := { s with g_t2h_sop := if last then 1 else 0 }
      header :=
        { header with
          SOP_EOP := pulled_sop_eop m s.g_t2h_sop last
          CONN_ID := connid_channelid % 2 ^ 8
          CHANNEL := (connid_channelid >>> 32) % 2 ^ 16 }
      payload := (where_addr + s.g_std_dbg_ip_info.T2H_MEM_BASE_ADDR) % 2 ^ 32
      ret := 0
      trace :=
        [.fpga_read_64 ST_DBG_IP_T2H_HOW_LONG, .fpga_read_64 ST_DBG_IP_T2H_CONNECTION_ID] }

/-- The function `get_mgmt_rsp_data(header, payload)`: `howlong_where` is the value read from
`ST_DBG_IP_MGMT_RSP_HOW_LONG` and `channel_id` the value a read of
`ST_DBG_IP_MGMT_RSP_CHANNEL_ID_ADVANCE` returns. -/
def get_mgmt_rsp_data (m : PacketDecl) (s : Driver) (header : MGMT_PACKET_HEADER) (payload : Nat)
    (howlong_where channel_id : Nat) : MgmtRspResult :=
  let where_addr := ((howlong_where % 2 ^ 64) >>> 32) % 2 ^ 32
  let header := { header with DATA_LEN_BYTES := pulled_len howlong_where }
  if header.DATA_LEN_BYTES = 0 then
    { state := s, header := header, payload := payload, ret := 0,
      trace := [.fpga_read_64 ST_DBG_IP_MGMT_RSP_HOW_LONG] }
  else
    let last := pulled_last howlong_where
    { state := { s with g_mgmt_rsp_sop := if last then 1 else 0 }
      header :=
        { header with
          SOP_EOP := pulled_sop_eop m s.g_mgmt_rsp_sop last
          CHANNEL := (channel_id % 2 ^ 32) % 2 ^ m.MGMT_CHANNEL_BITS }
      payload := (where_addr + s.g_std_dbg_ip_info.MGMT_RSP_MEM_BASE_ADDR) % 2 ^ 32
      ret := 0
      trace :=
        [.fpga_read_64 ST_DBG_IP_MGMT_RSP_HOW_LONG,
         .fpga_read_32 ST_DBG_IP_MGMT_RSP_CHANNEL_ID_ADVANCE] }

/-! ## Initialisation -/

/-- The structure `intel_stream_debug_if_driver_context`. -/
structure intel_stream_debug_if_driver_context where
  mmio_handle : Int
  std_dbg_ip_info : ST_DBG_IP_DESIGN_INFO
deriving DecidableEq, Repr

/-- Result of `check_version_and_type`: the return value, `*version` after the call and the
trace. -/
structure VersionCheck where
  ret : Int
  version : Nat
  trace : List Call
deriving DecidableEq, Repr

/-- The function `check_version_and_type(version)`, where `type_version` is the value read from
`ST_DBG_IP_CONFIG_TYPE`. -/
def check_version_and_type (type_version : Nat) : VersionCheck :=
  let type_version := type_version % 2 ^ 64
  let type := type_version % 2 ^ 32
  let version := (type_version >>> 32) % 2 ^ 32
  { ret := if type ≠ SUPPORTED_TYPE_SIGNATURE ∨ version > SUPPORTED_VERSION then -1 else 0
    version := version
    trace := [.fpga_read_64 ST_DBG_IP_CONFIG_TYPE] }

/-- The function `init_st_dbg_ip_info_given_sizes(h2t_t2h_mem_size, mgmt_mem_size)`, built with
`ENABLE_MGMT != 0` (the other branch of the conditional does not compile): the value it
leaves in `g_std_dbg_ip_info`.  The sizes are `size_t`, the base addresses `uint32_t`. -/
def init_st_dbg_ip_info_given_sizes (h2t_t2h_mem_size mgmt_mem_size : Nat) :
    ST_DBG_IP_DESIGN_INFO :=
  let H2T_MEM_SZ := h2t_t2h_mem_size % 2 ^ 32
  let MGMT_MEM_SZ := mgmt_mem_size % 2 ^ 32
  let MGMT_MEM_BASE_ADDR :=
    if H2T_MEM_SZ > JOP_MEM_SIZE_2K then ((3 * H2T_MEM_SZ) % 2 ^ 64) % 2 ^ 32
    else MGMT_MEM_BASE_4K
  { ST_DBG_IP_CSR_BASE_ADDR := ST_DBG_IF_BASE
    H2T_MEM_SZ := H2T_MEM_SZ
    MGMT_MEM_SZ := MGMT_MEM_SZ
    H2T_MEM_BASE_ADDR :=
      if H2T_MEM_SZ > JOP_MEM_SIZE_2K then H2T_MEM_SZ % 2 ^ 32 else H2T_MEM_BASE_2K
    T2H_MEM_BASE_ADDR :=
      if H2T_MEM_SZ > JOP_MEM_SIZE_2K then ((2 * H2T_MEM_SZ) % 2 ^ 64) % 2 ^ 32
      else T2H_MEM_BASE_4K
    T2H_MEM_SZ := H2T_MEM_SZ
    MGMT_MEM_BASE_ADDR := MGMT_MEM_BASE_ADDR
    MGMT_RSP_MEM_BASE_ADDR := ((MGMT_MEM_BASE_ADDR + MGMT_MEM_SZ) % 2 ^ 64) % 2 ^ 32
    MGMT_RSP_MEM_SZ := MGMT_MEM_SZ }

/-- The function `init_st_dbg_ip_info()`, where `mem_depth` is the value read from
`ST_DBG_IP_CONFIG_H2T_T2H_MEM`. -/
def init_st_dbg_ip_info (mem_depth : Nat) : ST_DBG_IP_DESIGN_INFO :=
  let mem_depth := mem_depth % 2 ^ 64
  init_st_dbg_ip_info_given_sizes ((mem_depth &&& 0xFFFFFFFF) % 2 ^ 32) ((mem_depth >>> 32) % 2 ^ 32)

/-- The function `init_descriptor()`, where `desc_depth` is the value read from
`ST_DBG_IP_CONFIG_H2T_T2H_DESC_DEPTH`.  The chains themselves are not cleared. -/
def init_descriptor (s : Driver) (desc_depth : Nat) : Driver :=
  let desc_depth := desc_depth % 2 ^ 64
  { s with
    g_h2t_descriptor_slots_available := (desc_depth &&& 0xFFFFFFFF) % 2 ^ 16
    g_mgmt_descriptor_slots_available := (desc_depth >>> 32) % 2 ^ 16
    g_h2t_descriptor_write_idx := 0
    g_h2t_descriptor_read_idx := 0
    g_mgmt_descriptor_write_idx := 0
    g_mgmt_descriptor_read_idx := 0 }

/-- Result of `init_driver`. -/
structure InitResult where
  state : Driver
  context : intel_stream_debug_if_driver_context
  ret : Int
  trace : List Call

/-- The function `init_driver(context, user_input_h2t_t2h_mem_size, mmio_handle)`, where
`type_version`, `mem_depth` and `desc_depth` are the values the reads of
`ST_DBG_IP_CONFIG_TYPE`, `ST_DBG_IP_CONFIG_H2T_T2H_MEM` and
`ST_DBG_IP_CONFIG_H2T_T2H_DESC_DEPTH` return. -/
def init_driver (s : Driver) (context : intel_stream_debug_if_driver_context)
    (user_input_h2t_t2h_mem_size : Nat) (mmio_handle : Int)
    (type_version mem_depth desc_depth : Nat) : InitResult :=
  let s := { s with g_mmio_handle := mmio_handle }
  let context := { context with mmio_handle := mmio_handle }
  let c := check_version_and_type type_version
  if c.ret ≠ 0 then
    { state := s, context := context, ret := INIT_ERROR_CODE_INCOMPATIBLE_IP, trace := c.trace }
  else
    let s1 : Driver × List Call :=
      if c.version > 0 then
        ({ s with has_init_once := true, g_std_dbg_ip_info := init_st_dbg_ip_info mem_depth },
          [.fpga_read_64 ST_DBG_IP_CONFIG_H2T_T2H_MEM])
      else
        ({ s with
            g_std_dbg_ip_info :=
              init_st_dbg_ip_info_given_sizes (user_input_h2t_t2h_mem_size % 2 ^ 32) 0 },
          [])
    let context := { context with std_dbg_ip_info := s1.1.g_std_dbg_ip_info }
    let s2 := init_descriptor s1.1 desc_depth
    let info := s2.g_std_dbg_ip_info
    { state :=
        { s2 with
          g_t2h_sop := 1
          g_mgmt_rsp_sop := 1
          g_h2t_rx_cbuff := cbuff_init info.H2T_MEM_BASE_ADDR info.H2T_MEM_SZ
          g_mgmt_rx_cbuff := cbuff_init info.MGMT_MEM_BASE_ADDR info.MGMT_MEM_SZ }
      context := context
      ret := 0
      trace :=
        c.trace ++ s1.2 ++
          [.fpga_read_64 ST_DBG_IP_CONFIG_H2T_T2H_DESC_DEPTH,
           .fpga_write_32 ST_DBG_IP_CONFIG_RESET_AND_LOOPBACK ST_DBG_IP_CONFIG_H2T_T2H_RESET_FIELD] }

/-! ## Descriptor queue contents and concrete driver states -/

/-- Sum of the `n` chain entries at the positions `(read_idx + i) % 128` for `i = 0 .. n-1`:
the sizes of the `n` oldest entries of the queue. -/
def chain_sum (chain : Nat → Nat) (read_idx n : Nat) : Nat :=
  ((List.range n).map (fun i => chain ((read_idx + i) % MAX_H2T_DESCRIPTOR_DEPTH))).sum

/-- The value of the loop counter `char i` after `i` increments from 0, for `i ≤ 128`: the
increment of 127 wraps to -128. -/
def char_of (i : Nat) : Int := if i = 128 then -128 else (i : Int)

/-- A driver whose cached H2T slot count is the largest `unsigned short`. -/
def state_slots_65535 : Driver :=
  { Driver.start 0 with g_h2t_descriptor_slots_available := 65535 }

/-- An instance of the header declarations: SOP is bit 1 and EOP bit 0 of `SOP_EOP`, and the
MGMT `CHANNEL` field is 32 bits wide. -/
def example_decl : PacketDecl :=
  { H2T_PACKET_HEADER_MASK_SOP := 2
    H2T_PACKET_HEADER_MASK_EOP := 1
    MGMT_PACKET_HEADER_MASK_EOP := 1
    MGMT_CHANNEL_BITS := 32 }

/-- A caller's context before `init_driver`. -/
def blank_context : intel_stream_debug_if_driver_context :=
  { mmio_handle := 0, std_dbg_ip_info := ⟨0, 0, 0, 0, 0, 0, 0, 0, 0⟩ }

/-- The driver after `init_driver` on a version-0 device with the given user-supplied H2T/T2H
memory size and a descriptor-depth register reading 128 for the H2T and for the MGMT channel. -/
def fresh_driver (h2t_t2h_mem_size : Nat) : Driver :=
  (init_driver (Driver.start 0) blank_context h2t_t2h_mem_size 1
    SUPPORTED_TYPE_SIGNATURE 0 (128 + 128 * 2 ^ 32)).state

/-- The driver of the spec's scenario (memory size 4096) after `get_h2t_buffer(100)` has
succeeded and the 100-byte transfer has been pushed; the hardware has completed nothing. -/
def scenario_100_pushed : Driver :=
  let b := h2t_reserve (fresh_driver 4096) 100
  (push_h2t_data example_decl b.state ⟨100, 3, 0, 0⟩ b.ret).state

/-- A driver initialised with an H2T memory size of `0xFFFFFFF8` after one 8-byte transfer has
been reserved and pushed. -/
def large_window_8_pushed : Driver :=
  let b := h2t_reserve (fresh_driver 0xFFFFFFF8) 8
  (push_h2t_data example_decl b.state ⟨8, 3, 0, 0⟩ b.ret).state

/-- The number of descriptor-queue entries from `read_idx` up to, not including, `write_idx`,
modulo the depth 128. -/
def h2t_queue_len (s : Driver) : Nat :=
  (s.g_h2t_descriptor_write_idx % MAX_H2T_DESCRIPTOR_DEPTH + MAX_H2T_DESCRIPTOR_DEPTH -
    s.g_h2t_descriptor_read_idx % MAX_H2T_DESCRIPTOR_DEPTH) % MAX_H2T_DESCRIPTOR_DEPTH

/-- The sum of the chain entries from `read_idx` up to, not including, `write_idx`, modulo 128. -/
def h2t_queue_bytes (s : Driver) : Nat :=
  chain_sum s.g_h2t_descriptor_chain s.g_h2t_descriptor_read_idx (h2t_queue_len s)

/-- The bytes of the H2T circular buffer that are reserved and not yet reclaimed: capacity minus
`space_available`. -/
def h2t_bytes_outstanding (s : Driver) : Nat :=
  s.g_h2t_rx_cbuff.capacity - s.g_h2t_rx_cbuff.space_available

/-- A driver initialised with an H2T memory size of 128 KiB after `get_h2t_buffer(65530)` has
succeeded and the transfer has been pushed. -/
def large_transfer_pushed : Driver :=
  let b := h2t_reserve (fresh_driver 0x20000) 65530
  (push_h2t_data example_decl b.state ⟨65530, 3, 0, 0⟩ b.ret).state

/-! ## Sequences of pushes and pulls -/

/-- One call of `get_t2h_data`: the contents of the caller's header and payload objects before
the call, and the values the two registers return. -/
structure T2HPoll where
  header : H2T_PACKET_HEADER
  payload : Nat
  howlong_where : Nat
  connid_channelid : Nat
deriving DecidableEq, Repr

/-- A sequence of calls of `get_t2h_data`: the final driver state and the headers returned, in
call order. -/
def t2h_poll_seq (m : PacketDecl) (s : Driver) : List T2HPoll → Driver × List H2T_PACKET_HEADER
  | [] => (s, [])
  | p :: ps =>
    let r := get_t2h_data m s p.header p.payload p.howlong_where p.connid_channelid
    let rest := t2h_poll_seq m r.state ps
    (rest.1, r.header :: rest.2)

/-- The fragments among the returned headers: the polls that reported data
(`DATA_LEN_BYTES != 0`). -/
def fragments (hs : List H2T_PACKET_HEADER) : List H2T_PACKET_HEADER :=
  hs.filter (fun h => decide (h.DATA_LEN_BYTES ≠ 0))

/-- The `k`-th header of the list exists and carries SOP. -/
def sop_at (m : PacketDecl) (l : List H2T_PACKET_HEADER) (k : Nat) : Prop :=
  ∃ h, l[k]? = some h ∧ h.sop m

/-- The `k`-th header of the list exists and carries EOP. -/
def eop_at (m : PacketDecl) (l : List H2T_PACKET_HEADER) (k : Nat) : Prop :=
  ∃ h, l[k]? = some h ∧ h.eop m

/-- A sequence of calls of `push_h2t_data`, each with its header and payload address: the final
driver state and the concatenated trace. -/
def h2t_push_seq (m : PacketDecl) (s : Driver) :
    List (H2T_PACKET_HEADER × Nat) → Driver × List Call
  | [] => (s, [])
  | f :: fs =>
    let r := push_h2t_data m s f.1 f.2
    let rest := h2t_push_seq m r.state fs
    (rest.1, r.trace ++ rest.2)

/-- The how-long word of a call, when the call is a 64-bit write to `ST_DBG_IP_H2T_HOW_LONG`. -/
def Call.h2t_howlong : Call → Option Nat
  | .fpga_write_64 offset value => if offset = ST_DBG_IP_H2T_HOW_LONG then some value else none
  | _ => none

/-- The how-long words written to `ST_DBG_IP_H2T_HOW_LONG` in a trace, in order. -/
def howlong_words (t : List Call) : List Nat := t.filterMap Call.h2t_howlong

/-- The polls of a loopback: the `i`-th how-long word is presented to the `i`-th call of
`get_t2h_data`, whose caller objects and connection-register value are `bufs[i]`. -/
def loopback_polls (words : List Nat) (bufs : List (H2T_PACKET_HEADER × Nat × Nat)) :
    List T2HPoll :=
  List.zipWith
    (fun w b =>
      { header := b.1
        payload := b.2.1
        howlong_where := w
        connid_channelid := b.2.2 })
    words bufs

/-- Three polls of the T2H channel: a 100-byte fragment without the last bit, an empty poll, and
a 32-byte fragment with the last bit. -/
def example_polls : List T2HPoll :=
  [⟨⟨0, 0, 0, 0⟩, 0, 0x64, 0⟩, ⟨⟨0, 0, 0, 0⟩, 0, 0, 0⟩, ⟨⟨0, 0, 0, 0⟩, 0, 0x80000020, 0⟩]

/-- A 132-byte message pushed as two fragments: 100 bytes at `0x1000` with SOP, then 32 bytes at
`0x1068` with EOP. -/
def example_frags : List (H2T_PACKET_HEADER × Nat) :=
  [(⟨100, 2, 5, 9⟩, 0x1000), (⟨32, 1, 5, 9⟩, 0x1068)]

/-- Caller objects and connection-register values for two pulls. -/
def example_bufs : List (H2T_PACKET_HEADER × Nat × Nat) :=
  [(⟨0, 0, 0, 0⟩, 0, 0x900000005), (⟨0, 0, 0, 0⟩, 0, 0x900000005)]

/-! ## Configuration register: loopback and driver parameters -/

def ST_DBG_IP_CONFIG_H2T_T2H_LOOPBACK_FIELD : Nat := 0x2
def ST_DBG_IP_CONFIG_ENABLE_INT_FIELD : Nat := 0x4
def ST_DBG_IP_CONFIG_MGMT_AND_RSP_RESET_FIELD : Nat := 0x10
def ST_DBG_IP_CONFIG_MGMT_AND_RSP_LOOPBACK_FIELD : Nat := 0x20
def ST_DBG_IP_CONFIG_MGMT_MGMT_RSP_DESC_DEPTH : Nat := 0x30

/-- The C operator `~` on an `int` constant, as the 32-bit pattern it has once converted to
`uint32_t` for the bitwise operation with the register value. -/
def bitnot32 (x : Nat) : Nat := (2 ^ 32 - 1) ^^^ (x % 2 ^ 32)

/-- The function `set_loopback_mode(val)`, where `rd` is the value read from
`ST_DBG_IP_CONFIG_RESET_AND_LOOPBACK`: the trace of its two register accesses. -/
def set_loopback_mode (val : Int) (rd : Nat) : List Call :=
  let rd := rd % 2 ^ 32
  if val = 1 then
    [.fpga_read_32 ST_DBG_IP_CONFIG_RESET_AND_LOOPBACK,
     .fpga_write_32 ST_DBG_IP_CONFIG_RESET_AND_LOOPBACK
       ((rd ||| ST_DBG_IP_CONFIG_H2T_T2H_LOOPBACK_FIELD |||
          ST_DBG_IP_CONFIG_H2T_T2H_RESET_FIELD |||
          ST_DBG_IP_CONFIG_MGMT_AND_RSP_RESET_FIELD |||
          ST_DBG_IP_CONFIG_MGMT_AND_RSP_LOOPBACK_FIELD) % 2 ^ 32)]
  else
    [.fpga_read_32 ST_DBG_IP_CONFIG_RESET_AND_LOOPBACK,
     .fpga_write_32 ST_DBG_IP_CONFIG_RESET_AND_LOOPBACK
       (((rd &&& bitnot32 ST_DBG_IP_CONFIG_H2T_T2H_LOOPBACK_FIELD) |||
          ST_DBG_IP_CONFIG_H2T_T2H_RESET_FIELD |||
          bitnot32 ST_DBG_IP_CONFIG_MGMT_AND_RSP_RESET_FIELD |||
          ST_DBG_IP_CONFIG_MGMT_AND_RSP_LOOPBACK_FIELD) % 2 ^ 32)]

/-- Return value and trace of a driver function that has no other effect. -/
structure ReadResult where
  ret : Int
  trace : List Call
deriving DecidableEq, Repr

/-- The function `get_loopback_mode()`, where `rd` is the value read from
`ST_DBG_IP_CONFIG_RESET_AND_LOOPBACK`. -/
def get_loopback_mode (rd : Nat) : ReadResult :=
  let rd := rd % 2 ^ 32
  { ret := if (rd &&& ST_DBG_IP_CONFIG_H2T_T2H_LOOPBACK_FIELD) > 0 then 1 else 0
    trace := [.fpga_read_32 ST_DBG_IP_CONFIG_RESET_AND_LOOPBACK] }

/-- The function `get_mgmt_support()`, where `rd` is the value read from
`ST_DBG_IP_CONFIG_MGMT_MGMT_RSP_DESC_DEPTH`. -/
def get_mgmt_support (rd : Nat) : ReadResult :=
  let rd := rd % 2 ^ 32
  { ret := if rd > 0 then 1 else 0
    trace := [.fpga_read_32 ST_DBG_IP_CONFIG_MGMT_MGMT_RSP_DESC_DEPTH] }

/-- The test `strncmp(a, b, n) == 0` on C strings given as the lists of their characters before
the terminating NUL: the first `n` characters agree, the terminator included when a string is
shorter than `n`. -/
def strncmp_eq (a b : List Char) (n : Nat) : Bool := decide (a.take n = b.take n)

/-- The parameter names of `intel_st_debug_if_constants.h`, which is not among the sources:
`HW_LOOPBACK_PARAM`, `MGMT_SUPPORT_PARAM` and their lengths. -/
structure ParamNames where
  HW_LOOPBACK_PARAM : List Char
  HW_LOOPBACK_PARAM_LEN : Nat
  MGMT_SUPPORT_PARAM : List Char
  MGMT_SUPPORT_PARAM_LEN : Nat
deriving DecidableEq, Repr

/-- The function `set_driver_param(param, val)`, where `rd` is the value a read of
`ST_DBG_IP_CONFIG_RESET_AND_LOOPBACK` returns. -/
def set_driver_param (c : ParamNames) (param val : List Char) (rd : Nat) : ReadResult :=
  if strncmp_eq param c.HW_LOOPBACK_PARAM c.HW_LOOPBACK_PARAM_LEN then
    if strncmp_eq val ['1'] 1 then
      { ret := 0, trace := set_loopback_mode 1 rd }
    else
      { ret := 0, trace := set_loopback_mode 0 rd }
  else
    { ret := 0, trace := [] }

/-- Result of `get_driver_param`: the string returned (`none` for `NULL`) and the trace. -/
structure ParamResult where
  ret : Option (List Char)
  trace : List Call
deriving DecidableEq, Repr

/-- The function `get_driver_param(param)`, where `rd` is the value that the register read of
the selected branch returns. -/
def get_driver_param (c : ParamNames) (param : List Char) (rd : Nat) : ParamResult :=
  if strncmp_eq param c.HW_LOOPBACK_PARAM c.HW_LOOPBACK_PARAM_LEN then
    let r := get_loopback_mode rd
    { ret := if r.ret = 0 then some ['0'] else some ['1'], trace := r.trace }
  else if strncmp_eq param c.MGMT_SUPPORT_PARAM c.MGMT_SUPPORT_PARAM_LEN then
    let r := get_mgmt_support rd
    { ret := if r.ret = 1 then some ['1'] else some ['0'], trace := r.trace }
  else
    { ret := none, trace := [] }

/-- The value last written by a 32-bit write to the register at `offset` in a trace: what a
register that reads back the value last written returns afterwards. -/
def last_write_32 (offset : Nat) : List Call → Option Nat
  | [] => none
  | .fpga_write_32 o v :: t =>
    match last_write_32 offset t with
    | some w => some w
    | none => if o = offset then some v else none
  | _ :: t => last_write_32 offset t

/-- An instance of the parameter names. -/
def example_names : ParamNames :=
  { HW_LOOPBACK_PARAM := "HW_LOOPBACK".toList
    HW_LOOPBACK_PARAM_LEN := 11
    MGMT_SUPPORT_PARAM := "MGMT_SUPPORT".toList
    MGMT_SUPPORT_PARAM_LEN := 12 }

/-! ## Region layout: byte ranges -/

/-- The byte ranges `[b1, b1 + s1)` and `[b2, b2 + s2)` have an address in common. -/
def ranges_overlap (b1 s1 b2 s2 : Nat) : Prop := max b1 b2 < min (b1 + s1) (b2 + s2)

instance (b1 s1 b2 s2 : Nat) : Decidable (ranges_overlap b1 s1 b2 s2) := by
  unfold ranges_overlap; infer_instance

/-- The four byte ranges of a layout are pairwise disjoint. -/
def ST_DBG_IP_DESIGN_INFO.regions_disjoint (d : ST_DBG_IP_DESIGN_INFO) : Prop :=
  ¬ ranges_overlap d.H2T_MEM_BASE_ADDR d.H2T_MEM_SZ d.T2H_MEM_BASE_ADDR d.T2H_MEM_SZ ∧
  ¬ ranges_overlap d.H2T_MEM_BASE_ADDR d.H2T_MEM_SZ d.MGMT_MEM_BASE_ADDR d.MGMT_MEM_SZ ∧
  ¬ ranges_overlap d.H2T_MEM_BASE_ADDR d.H2T_MEM_SZ d.MGMT_RSP_MEM_BASE_ADDR d.MGMT_RSP_MEM_SZ ∧
  ¬ ranges_overlap d.T2H_MEM_BASE_ADDR d.T2H_MEM_SZ d.MGMT_MEM_BASE_ADDR d.MGMT_MEM_SZ ∧
  ¬ ranges_overlap d.T2H_MEM_BASE_ADDR d.T2H_MEM_SZ d.MGMT_RSP_MEM_BASE_ADDR d.MGMT_RSP_MEM_SZ ∧
  ¬ ranges_overlap d.MGMT_MEM_BASE_ADDR d.MGMT_MEM_SZ d.MGMT_RSP_MEM_BASE_ADDR d.MGMT_RSP_MEM_SZ

instance (d : ST_DBG_IP_DESIGN_INFO) : Decidable d.regions_disjoint := by
  unfold ST_DBG_IP_DESIGN_INFO.regions_disjoint; infer_instance

/-! ## Memory bridge -/

/-- A 64-bit access made by `memcpy64_fpga2host` or `memcpy64_host2fpga`: the `int32_t` value of
`fpga_buff` handed to `fpga_read_64` or `fpga_write_64` as the offset, and the value written. -/
inductive Access64 where
  | fpga_read_64 (fpga_buff : Int)
  | fpga_write_64 (fpga_buff : Int) (value : Nat)
deriving DecidableEq, Repr

/-- The statement `fpga_buff += 8` on an `int32_t`: `none` when the sum overflows, which is
undefined. -/
def int32_add_8 (fpga_buff : Int) : Option Int :=
  if fpga_buff + 8 ≤ 2 ^ 31 - 1 then some (fpga_buff + 8) else none

/-- Result of `memcpy64_fpga2host`: the words stored through `host_buff`, in order from
`host_buff[0]`, and the accesses made. -/
structure Fpga2Host where
  host_buff : List Nat
  trace : List Access64
deriving DecidableEq, Repr

/-- The loop of `memcpy64_fpga2host` with `n` iterations left, at iteration `i`; `vals k` is the
value the read of iteration `k` returns. -/
def memcpy64_fpga2host_loop (vals : Nat → Nat) : Nat → Nat → Int → Option Fpga2Host
  | 0, _, _ => some { host_buff := [], trace := [] }
  | n + 1, i, fpga_buff =>
    match int32_add_8 fpga_buff with
    | none => none
    | some next =>
      match memcpy64_fpga2host_loop vals n (i + 1) next with
      | none => none
      | some r =>
        some { host_buff := vals i % 2 ^ 64 :: r.host_buff
               trace := .fpga_read_64 fpga_buff :: r.trace }

/-- The function `memcpy64_fpga2host(fpga_buff, host_buff, len)`. -/
def memcpy64_fpga2host (fpga_buff : Int) (vals : Nat → Nat) (len : Nat) : Option Fpga2Host :=
  let transfers := ((len % 2 ^ 64 + 7) % 2 ^ 64) / 8
  memcpy64_fpga2host_loop vals transfers 0 fpga_buff

/-- The loop of `memcpy64_host2fpga` with `n` iterations left, at iteration `i`; `host_buff k`
is the word `host_buff[k]`. -/
def memcpy64_host2fpga_loop (host_buff : Nat → Nat) : Nat → Nat → Int → Option (List Access64)
  | 0, _, _ => some []
  | n + 1, i, fpga_buff =>
    match int32_add_8 fpga_buff with
    | none => none
    | some next =>
      match memcpy64_host2fpga_loop host_buff n (i + 1) next with
      | none => none
      | some t => some (.fpga_write_64 fpga_buff (host_buff i % 2 ^ 64) :: t)

/-- The function `memcpy64_host2fpga(host_buff, fpga_buff, len)`: the accesses made. -/
def memcpy64_host2fpga (host_buff : Nat → Nat) (fpga_buff : Int) (len : Nat) :
    Option (List Access64) :=
  let transfers := ((len % 2 ^ 64 + 7) % 2 ^ 64) / 8
  memcpy64_host2fpga_loop host_buff transfers 0 fpga_buff

/-! ## Sockets -/

/-- The return codes `OK` and `FAILURE` of `RETURN_CODE`, declared in
`intel_st_debug_if_common.h`, which is not among the sources. -/
inductive RETURN_CODE where
  | OK
  | FAILURE
deriving DecidableEq, Repr

/-- The conversion of a `size_t` to `ssize_t` (64-bit two's complement). -/
def to_ssize_t (n : Nat) : Int :=
  if n % 2 ^ 64 < 2 ^ 63 then (n % 2 ^ 64 : Nat) else (n % 2 ^ 64 : Nat) - 2 ^ 64

/-- The conversion of an `ssize_t` to `size_t`. -/
def to_size_t (x : Int) : Nat := (x % 2 ^ 64).toNat

/-- Result of `socket_recv_accumulate`: the return code, `*bytes_recvd`, the contents of the
caller's buffer by byte offset from the `buff` argument, and for every `recv` call the offset from
the `buff` argument of the pointer handed to it and the count requested. -/
structure RecvResult where
  ret : RETURN_CODE
  bytes_recvd : Int
  buff : Nat → Nat
  calls : List (Nat × Nat)

/-- The effect of a `recv` that returns `curr > 0` on the buffer: the next `curr` bytes of the
stream, from stream position `pos`, are stored from byte offset `off`. -/
def recv_store (stream : Nat → Nat) (pos off curr : Nat) (buff : Nat → Nat) : Nat → Nat :=
  fun i => if off ≤ i ∧ i < off + curr then stream (pos + (i - off)) else buff i

/-- The loop of `socket_recv_accumulate`.  The socket is a byte stream `stream` read from
position `pos` and the list of the values that the successive `recv` calls return; `none` when
that list ends before the loop does. -/
def socket_recv_accumulate_loop (stream : Nat → Nat) (len : Nat) :
    List Int → Nat → Nat → Nat → (Nat → Nat) → Option RecvResult
  | [], _, _, bytes_remaining, buff =>
    if bytes_remaining > 0 then none
    else some { ret := .OK, bytes_recvd := to_ssize_t len, buff := buff, calls := [] }
  | curr_bytes_recvd :: rest, pos, off, bytes_remaining, buff =>
    if bytes_remaining > 0 then
      if curr_bytes_recvd ≤ 0 then
        some { ret := .FAILURE, bytes_recvd := curr_bytes_recvd, buff := buff
               calls := [(off, bytes_remaining)] }
      else
        match socket_recv_accumulate_loop stream len rest
            (pos + curr_bytes_recvd.toNat) (off + curr_bytes_recvd.toNat)
            ((bytes_remaining + 2 ^ 64 - to_size_t curr_bytes_recvd) % 2 ^ 64)
            (recv_store stream pos off curr_bytes_recvd.toNat buff) with
        | none => none
        | some r => some { r with calls := (off, bytes_remaining) :: r.calls }
    else some { ret := .OK, bytes_recvd := to_ssize_t len, buff := buff, calls := [] }

/-- The function `socket_recv_accumulate(sock_fd, buff, len, flags, bytes_recvd)` with
`bytes_recvd` not `NULL`, on a socket whose stream is `stream` and whose successive `recv` calls
return `outcomes`; `buff` is the buffer before the call. -/
def socket_recv_accumulate (stream : Nat → Nat) (outcomes : List Int) (buff : Nat → Nat)
    (len : Nat) : Option RecvResult :=
  socket_recv_accumulate_loop stream (len % 2 ^ 64) outcomes 0 0 (len % 2 ^ 64) buff

/-- The requests that `recv` sees when the deliveries have the sizes `ds`, from byte offset `off`
of a transfer of `len` bytes: each asks for the bytes still missing, directly after those
already received. -/
def expected_requests (len : Nat) : List Nat → Nat → List (Nat × Nat)
  | [], _ => []
  | d :: ds, off => (off, len - off) :: expected_requests len ds (off + d)

/-- Result of `socket_send_all`: the return code, `*bytes_sent`, for every `send` call the
offset from the `buff` argument of the pointer handed to it and the count offered, and the bytes
the socket accepted, in order. -/
structure SendResult where
  ret : RETURN_CODE
  bytes_sent : Int
  calls : List (Nat × Nat)
  accepted : List Nat
deriving DecidableEq, Repr

/-- The loop of `socket_send_all`.  The list holds the values that the successive `send` calls
return; a `send` that returns `curr > 0` has accepted the first `curr` bytes offered to it.
The result is `none` when the list ends before the loop does. -/
def socket_send_all_loop (buff : Nat → Nat) (len : Nat) : List Int → Nat → Option SendResult
  | [], bytes_remaining =>
    if bytes_remaining > 0 then none
    else some { ret := .OK, bytes_sent := to_ssize_t len, calls := [], accepted := [] }
  | curr_bytes_sent :: rest, bytes_remaining =>
    if bytes_remaining > 0 then
      let off := (len + 2 ^ 64 - bytes_remaining) % 2 ^ 64
      if curr_bytes_sent ≤ 0 then
        some { ret := .FAILURE, bytes_sent := curr_bytes_sent
               calls := [(off, bytes_remaining)], accepted := [] }
      else
        match socket_send_all_loop buff len rest
            ((bytes_remaining + 2 ^ 64 - to_size_t curr_bytes_sent) % 2 ^ 64) with
        | none => none
        | some r =>
          some { r with
                 calls := (off, bytes_remaining) :: r.calls
                 accepted :=
                   (List.range curr_bytes_sent.toNat).map (fun j => buff (off + j)) ++
                     r.accepted }
    else some { ret := .OK, bytes_sent := to_ssize_t len, calls := [], accepted := [] }

/-- The function `socket_send_all(fd, buff, len, flags, bytes_sent)` with `bytes_sent` not
`NULL`, on a socket whose successive `send` calls return `outcomes`; `buff i` is the byte
`buff[i]`. -/
def socket_send_all (buff : Nat → Nat) (outcomes : List Int) (len : Nat) : Option SendResult :=
  socket_send_all_loop buff (len % 2 ^ 64) outcomes (len % 2 ^ 64)

/-- The test `memchr(buff, 0, n) != NULL` on the `n` bytes from byte offset `off`. -/
def memchr_zero (buff : Nat → Nat) (off n : Nat) : Bool :=
  (List.range n).any (fun j => buff (off + j) == 0)

/-- The loop of `socket_recv_until_null_reached`, on the socket model of
`socket_recv_accumulate_loop`. -/
def socket_recv_until_null_reached_loop (stream : Nat → Nat) (max_len : Nat) :
    List Int → Nat → Nat → Nat → (Nat → Nat) → Option RecvResult
  | [], _, _, bytes_remaining, buff =>
    if bytes_remaining > 0 then none
    else some { ret := .FAILURE, bytes_recvd := to_ssize_t max_len, buff := buff, calls := [] }
  | curr_bytes_recvd :: rest, pos, off, bytes_remaining, buff =>
    if bytes_remaining > 0 then
      if curr_bytes_recvd ≤ 0 then
        some { ret := .FAILURE, bytes_recvd := curr_bytes_recvd, buff := buff
               calls := [(off, bytes_remaining)] }
      else
        let received := recv_store stream pos off curr_bytes_recvd.toNat buff
        let bytes_remaining' := (bytes_remaining + 2 ^ 64 - to_size_t curr_bytes_recvd) % 2 ^ 64
        if memchr_zero received off (to_size_t curr_bytes_recvd) then
          some { ret := .OK
                 bytes_recvd := to_ssize_t ((max_len + 2 ^ 64 - bytes_remaining') % 2 ^ 64)
                 buff := received
                 calls := [(off, bytes_remaining)] }
        else
          match socket_recv_until_null_reached_loop stream max_len rest
              (pos + curr_bytes_recvd.toNat) (off + curr_bytes_recvd.toNat)
              bytes_remaining' received with
          | none => none
          | some r => some { r with calls := (off, bytes_remaining) :: r.calls }
    else some { ret := .FAILURE, bytes_recvd := to_ssize_t max_len, buff := buff, calls := [] }

/-- The function `socket_recv_until_null_reached(sock_fd, buff, max_len, flags, bytes_recvd)`
with `bytes_recvd` not `NULL`. -/
def socket_recv_until_null_reached (stream : Nat → Nat) (outcomes : List Int)
    (buff : Nat → Nat) (max_len : Nat) : Option RecvResult :=
  socket_recv_until_null_reached_loop stream (max_len % 2 ^ 64) outcomes 0 0
    (max_len % 2 ^ 64) buff

/-- The word `((uint64_t*) bytes)[i]` of a byte buffer on a little-endian host. -/
def host_word (bytes : Nat → Nat) (i : Nat) : Nat :=
  ((List.range 8).map (fun j => (bytes (8 * i + j) % 256) * 256 ^ j)).sum

/-- The conversion of a `uint64_t` to `int32_t` (the low 32 bits, two's complement). -/
def to_int32_t (n : Nat) : Int :=
  if n % 2 ^ 32 < 2 ^ 31 then (n % 2 ^ 32 : Nat) else (n % 2 ^ 32 : Nat) - 2 ^ 32

/-- Result of `socket_recv_accumulate_h2t_or_mgmt_data`: the return code, `*bytes_recvd`, the
contents of `g_socket_recv_buff`, the `recv` calls and the accesses to device memory. -/
structure RecvToDevice where
  ret : RETURN_CODE
  bytes_recvd : Int
  g_socket_recv_buff : Nat → Nat
  calls : List (Nat × Nat)
  device : List Access64

/-- The function `socket_recv_accumulate_h2t_or_mgmt_data(sock_fd, buff, len, flags,
bytes_recvd)`; `g_socket_recv_buff` is the scratch buffer before the call.  The result is `none`
when `socket_recv_accumulate` or `memcpy64_host2fpga` has none. -/
def socket_recv_accumulate_h2t_or_mgmt_data (stream : Nat → Nat) (outcomes : List Int)
    (g_socket_recv_buff : Nat → Nat) (buff len : Nat) : Option RecvToDevice :=
  match socket_recv_accumulate stream outcomes g_socket_recv_buff len with
  | none => none
  | some rc =>
    if rc.ret ≠ .FAILURE then
      match memcpy64_host2fpga (host_word rc.buff) (to_int32_t buff) len with
      | none => none
      | some device =>
        some { ret := .OK, bytes_recvd := rc.bytes_recvd, g_socket_recv_buff := rc.buff
               calls := rc.calls, device := device }
    else
      some { ret := .OK, bytes_recvd := rc.bytes_recvd, g_socket_recv_buff := rc.buff
             calls := rc.calls, device := [] }

/-! ## Reset, and the MGMT buffer -/

/-- The function `assert_h2t_t2h_reset()`: one register write; it assigns no file-scope
variable. -/
def assert_h2t_t2h_reset (s : Driver) : Step :=
  { state := s
    trace :=
      [.fpga_write_32 ST_DBG_IP_CONFIG_RESET_AND_LOOPBACK ST_DBG_IP_CONFIG_H2T_T2H_RESET_FIELD] }

/-- The function `set_loopback_mode(val)` as a step of the driver: it reads and writes the
register and assigns no file-scope variable. -/
def set_loopback_mode_step (s : Driver) (val : Int) (rd : Nat) : Step :=
  { state := s, trace := set_loopback_mode val rd }

/-- Lines 257-274 of `get_mgmt_buffer`: read the slot counter (`hw` is the value read) and
reclaim the descriptors the hardware has finished with.  The loop is `bytes_freed_loop`, whose
modulus `MAX_H2T_DESCRIPTOR_DEPTH` has the value of `MAX_MGMT_DESCRIPTOR_DEPTH`. -/
def mgmt_reclaim (s : Driver) (hw : Nat) : Option Step :=
  let freed := freed_descriptor_slots hw s.g_mgmt_descriptor_slots_available
  if freed > 0 then
    match bytes_freed_loop s.g_mgmt_descriptor_chain s.g_mgmt_descriptor_read_idx freed 256 0 0
      with
    | none => none
    | some bytes_freed =>
      some
        { state :=
            { s with
              g_mgmt_descriptor_slots_available :=
                (s.g_mgmt_descriptor_slots_available + freed) % 2 ^ 16
              g_mgmt_descriptor_read_idx :=
                (((s.g_mgmt_descriptor_read_idx + freed) % 2 ^ 32) %
                  MAX_MGMT_DESCRIPTOR_DEPTH) % 2 ^ 16
              g_mgmt_rx_cbuff := cbuff_free s.g_mgmt_rx_cbuff bytes_freed }
          trace := [.fpga_read_32 ST_DBG_IP_MGMT_AVAILABLE_SLOTS, .cbuff_free .mgmt bytes_freed] }
  else
    some { state := s, trace := [.fpga_read_32 ST_DBG_IP_MGMT_AVAILABLE_SLOTS] }

/-- Lines 276-289 of `get_mgmt_buffer`: reserve a descriptor slot and `GET_ALIGNED_SZ(sz)`
bytes. -/
def mgmt_reserve (s : Driver) (sz : Nat) : BufferResult :=
  if s.g_mgmt_descriptor_slots_available > 0 then
    let aligned_sz := GET_ALIGNED_SZ sz
    if s.g_mgmt_rx_cbuff.space_available ≥ aligned_sz then
      let r := cbuff_alloc s.g_mgmt_rx_cbuff aligned_sz
      { state :=
          { s with
            g_mgmt_descriptor_chain :=
              Function.update s.g_mgmt_descriptor_chain
                (s.g_mgmt_descriptor_write_idx % MAX_MGMT_DESCRIPTOR_DEPTH) (aligned_sz % 2 ^ 16)
            g_mgmt_descriptor_write_idx := (s.g_mgmt_descriptor_write_idx + 1) % 2 ^ 16
            g_mgmt_rx_cbuff := r.1 }
        ret := (r.2.getD 0) % 2 ^ 32
        trace := [.cbuff_alloc .mgmt aligned_sz] }
    else
      { state := s, ret := 0, trace := [] }
  else
    { state := s, ret := 0, trace := [] }

/-- The function `get_mgmt_buffer(sz)`, where `hw` is the value read from
`ST_DBG_IP_MGMT_AVAILABLE_SLOTS`. -/
def get_mgmt_buffer (s : Driver) (hw sz : Nat) : Option BufferResult :=
  match mgmt_reclaim s hw with
  | none => none
  | some r =>
    let b := mgmt_reserve r.state sz
    some { state := b.state, ret := b.ret, trace := r.trace ++ b.trace }

/-- The driver of the spec's scenario (memory size 4096) after `get_h2t_buffer(100)` has
reserved its buffer and before the transfer is pushed. -/
def scenario_100_reserved : Driver :=
  (h2t_reserve (fresh_driver 4096) 100).state

/-- The per-channel state of the driver is reset: both circular buffers hold their full capacity
with the write cursor at the start of the region, the four descriptor indices are 0 and both
SOP flags are 1 (awaiting the start of a packet). -/
def Driver.channels_reset (s : Driver) : Prop :=
  s.g_h2t_rx_cbuff.space_available = s.g_h2t_rx_cbuff.capacity ∧
  s.g_h2t_rx_cbuff.write_cursor = 0 ∧
  s.g_mgmt_rx_cbuff.space_available = s.g_mgmt_rx_cbuff.capacity ∧
  s.g_mgmt_rx_cbuff.write_cursor = 0 ∧
  s.g_h2t_descriptor_write_idx = 0 ∧
  s.g_h2t_descriptor_read_idx = 0 ∧
  s.g_mgmt_descriptor_write_idx = 0 ∧
  s.g_mgmt_descriptor_read_idx = 0 ∧
  s.g_t2h_sop = 1 ∧
  s.g_mgmt_rsp_sop = 1

instance (s : Driver) : Decidable s.channels_reset := by
  unfold Driver.channels_reset
  exact inferInstance

/-! ## A run of the H2T channel against the hardware -/

/-- Recogniser of the allocator's `alloc` calls in a trace. -/
def Call.isAlloc : Call → Bool
  | .cbuff_alloc _ _ => true
  | _ => false

/-- The reservation of `get_h2t_buffer` / `get_mgmt_buffer` was made: the call took a chain
position and called the allocator. -/
def BufferResult.reserved (b : BufferResult) : Bool :=
  b.trace.any Call.isAlloc

/-- The chain positions of the `queued` oldest entries from `read_idx`: the entries that are
enqueued and not yet reclaimed. -/
def live_positions (read_idx queued : Nat) : List Nat :=
  (List.range queued).map (fun j => (read_idx + j) % MAX_H2T_DESCRIPTOR_DEPTH)

/-- The driver together with the hardware's side of the H2T descriptor queue.  The hardware has
the descriptor depth `depth` and `in_flight` descriptors pushed and not yet completed, so its
slot counter reads `depth - in_flight`.  For the statement of properties the record also counts
the chain entries enqueued and not yet reclaimed (`queued`) and notes whether a reservation
has stored into the chain position of such an entry (`overwritten`). -/
structure H2TSystem where
  driver : Driver
  depth : Nat
  in_flight : Nat
  queued : Nat
  overwritten : Bool

/-- An event of a run: a transfer, that is `get_h2t_buffer(sz)` followed, when the reservation
was made, by exactly one `push_h2t_data(header, payload)` with the buffer returned; or the
completion by the hardware of `k` of the descriptors in flight (of all of them if fewer are
in flight). -/
inductive H2TEvent where
  | transfer (sz : Nat) (header : H2T_PACKET_HEADER)
  | complete (k : Nat)

/-- One event of a run.  In a transfer the reclaim step of `get_h2t_buffer` takes
`freed_descriptor_slots` entries off the queue, and a reservation stores into the chain
position `write_idx % 128` of the state before the call and adds one entry.  The result is
`none` when `get_h2t_buffer` has no result. -/
def H2TSystem.step (m : PacketDecl) (y : H2TSystem) : H2TEvent → Option H2TSystem
  | .complete k => some { y with in_flight := y.in_flight - k }
  | .transfer sz header =>
    let hw := y.depth - y.in_flight
    match get_h2t_buffer y.driver hw sz with
    | none => none
    | some b =>
      let queued :=
        y.queued - freed_descriptor_slots hw y.driver.g_h2t_descriptor_slots_available
      if b.reserved then
        some
          { driver := (push_h2t_data m b.state header b.ret).state
            depth := y.depth
            in_flight := y.in_flight + 1
            queued := queued + 1
            overwritten :=
              y.overwritten ||
                decide (y.driver.g_h2t_descriptor_write_idx % MAX_H2T_DESCRIPTOR_DEPTH ∈
                  live_positions b.state.g_h2t_descriptor_read_idx queued) }
      else
        some { y with driver := b.state, queued := queued }

/-- A run: the events in order. -/
def H2TSystem.run (m : PacketDecl) : H2TSystem → List H2TEvent → Option H2TSystem
  | y, [] => some y
  | y, e :: es =>
    match y.step m e with
    | none => none
    | some y' => H2TSystem.run m y' es

/-- The system right after `init_driver`: the hardware's depth is the slot count loaded by
`init_descriptor`, nothing is in flight and the queue is empty. -/
def H2TSystem.start (s : Driver) : H2TSystem :=
  { driver := s
    depth := s.g_h2t_descriptor_slots_available
    in_flight := 0
    queued := 0
    overwritten := false }

/-- The relation between driver and hardware that a run maintains: the queue holds at least
the descriptors in flight, cached slots plus queued entries make up the depth, the write
position is `queued` positions after the read position, and no entry has been overwritten. -/
def H2TSystem.consistent (y : H2TSystem) : Prop :=
  y.driver.inRange ∧
  y.depth ≤ MAX_H2T_DESCRIPTOR_DEPTH ∧
  y.in_flight ≤ y.queued ∧
  y.queued + y.driver.g_h2t_descriptor_slots_available = y.depth ∧
  y.driver.g_h2t_descriptor_write_idx % MAX_H2T_DESCRIPTOR_DEPTH =
    (y.driver.g_h2t_descriptor_read_idx + y.queued) % MAX_H2T_DESCRIPTOR_DEPTH ∧
  y.overwritten = false

/-- A run of three transfers, the completion of two of them, and a fourth transfer. -/
def example_run : List H2TEvent :=
  [.transfer 100 ⟨100, 3, 0, 0⟩, .transfer 8 ⟨8, 3, 0, 0⟩, .transfer 4000 ⟨4000, 3, 0, 0⟩,
   .complete 2, .transfer 50 ⟨50, 3, 0, 0⟩]

/-! ## Interrupt enable, channel renaming, device memory -/

/-- The function `enable_interrupts(val)`, where `rd` is the value read from
`ST_DBG_IP_CONFIG_RESET_AND_LOOPBACK`: the trace of its two register accesses. -/
def enable_interrupts (val : Int) (rd : Nat) : List Call :=
  let rd := rd % 2 ^ 32
  if val = 1 then
    [.fpga_read_32 ST_DBG_IP_CONFIG_RESET_AND_LOOPBACK,
     .fpga_write_32 ST_DBG_IP_CONFIG_RESET_AND_LOOPBACK
       ((rd ||| ST_DBG_IP_CONFIG_ENABLE_INT_FIELD) % 2 ^ 32)]
  else
    [.fpga_read_32 ST_DBG_IP_CONFIG_RESET_AND_LOOPBACK,
     .fpga_write_32 ST_DBG_IP_CONFIG_RESET_AND_LOOPBACK
       ((rd &&& bitnot32 ST_DBG_IP_CONFIG_ENABLE_INT_FIELD) % 2 ^ 32)]

/-- The renaming of the driver state that exchanges the H2T and the MGMT channel: slot count,
chain, read and write index and circular buffer. -/
def Driver.swap_channels (s : Driver) : Driver :=
  { s with
    g_h2t_descriptor_slots_available := s.g_mgmt_descriptor_slots_available
    g_mgmt_descriptor_slots_available := s.g_h2t_descriptor_slots_available
    g_h2t_descriptor_chain := s.g_mgmt_descriptor_chain
    g_mgmt_descriptor_chain := s.g_h2t_descriptor_chain
    g_h2t_descriptor_write_idx := s.g_mgmt_descriptor_write_idx
    g_h2t_descriptor_read_idx := s.g_mgmt_descriptor_read_idx
    g_mgmt_descriptor_write_idx := s.g_h2t_descriptor_write_idx
    g_mgmt_descriptor_read_idx := s.g_h2t_descriptor_read_idx
    g_h2t_rx_cbuff := s.g_mgmt_rx_cbuff
    g_mgmt_rx_cbuff := s.g_h2t_rx_cbuff }

/-- The other channel. -/
def Chan.swap : Chan → Chan
  | .h2t => .mgmt
  | .mgmt => .h2t

/-- The renaming of a call that exchanges the H2T and the MGMT channel: the slot-counter
register `0x100` against `0x300`, and the circular buffer an allocator call works on. -/
def Call.swap_channels : Call → Call
  | .fpga_read_32 offset =>
    .fpga_read_32
      (if offset = ST_DBG_IP_H2T_AVAILABLE_SLOTS then ST_DBG_IP_MGMT_AVAILABLE_SLOTS
       else if offset = ST_DBG_IP_MGMT_AVAILABLE_SLOTS then ST_DBG_IP_H2T_AVAILABLE_SLOTS
       else offset)
  | .cbuff_free buf sz => .cbuff_free buf.swap sz
  | .cbuff_alloc buf sz => .cbuff_alloc buf.swap sz
  | c => c

/-- The renaming of a result of `get_h2t_buffer` / `get_mgmt_buffer`: the same return value, the
renamed state and the renamed calls. -/
def BufferResult.swap_channels (b : BufferResult) : BufferResult :=
  { state := b.state.swap_channels, ret := b.ret, trace := b.trace.map Call.swap_channels }

/-- The device address of a 64-bit access. -/
def Access64.address : Access64 → Int
  | .fpga_read_64 fpga_buff => fpga_buff
  | .fpga_write_64 fpga_buff _ => fpga_buff

/-- A device memory in which a 64-bit read of an address returns the value last written to it:
the memory after a sequence of accesses. -/
def device_after (mem : Int → Nat) : List Access64 → Int → Nat
  | [] => mem
  | .fpga_write_64 fpga_buff value :: t => device_after (Function.update mem fpga_buff value) t
  | .fpga_read_64 _ :: t => device_after mem t

/-- The loop of `memcpy64_fpga2host` with `n` iterations left, over a device memory `mem`: the
read of an address returns `mem` at that address. -/
def memcpy64_fpga2host_mem_loop (mem : Int → Nat) : Nat → Int → Option Fpga2Host
  | 0, _ => some { host_buff := [], trace := [] }
  | n + 1, fpga_buff =>
    match int32_add_8 fpga_buff with
    | none => none
    | some next =>
      match memcpy64_fpga2host_mem_loop mem n next with
      | none => none
      | some r =>
        some { host_buff := mem fpga_buff % 2 ^ 64 :: r.host_buff
               trace := .fpga_read_64 fpga_buff :: r.trace }

/-- The function `memcpy64_fpga2host(fpga_buff, host_buff, len)` over a device memory `mem`. -/
def memcpy64_fpga2host_mem (mem : Int → Nat) (fpga_buff : Int) (len : Nat) : Option Fpga2Host :=
  let transfers := ((len % 2 ^ 64 + 7) % 2 ^ 64) / 8
  memcpy64_fpga2host_mem_loop mem transfers fpga_buff

/-- The freshly initialised driver of the scenario with memory size 4096 after 65535 successful
reservations whose descriptors have all been pushed and reclaimed: `g_h2t_descriptor_write_idx`
holds the largest `unsigned short`. -/
def state_write_idx_65535 : Driver :=
  { fresh_driver 4096 with g_h2t_descriptor_write_idx := 65535 }

/-! ## Command line: `parse_integer_arg` -/

/-- The C library function `isdigit` in the "C" locale. -/
def isdigit (c : Char) : Bool := decide (48 ≤ c.toNat ∧ c.toNat ≤ 57)

/-- The C library function `isxdigit` in the "C" locale: `0`-`9`, `A`-`F`, `a`-`f`. -/
def isxdigit (c : Char) : Bool :=
  isdigit c || decide (65 ≤ c.toNat ∧ c.toNat ≤ 70) || decide (97 ≤ c.toNat ∧ c.toNat ≤ 102)

/-- The C library function `isspace` in the "C" locale: space and the controls 9 to 13. -/
def isspace (c : Char) : Bool := decide (c.toNat = 32 ∨ (9 ≤ c.toNat ∧ c.toNat ≤ 13))

/-- The value `strtol` gives a character as a digit: `0`-`9` are 0 to 9, the letters `a`-`z` and
`A`-`Z` are 10 to 35; 36 stands for a character that is a digit in no base. -/
def digit_value (c : Char) : Nat :=
  if 48 ≤ c.toNat ∧ c.toNat ≤ 57 then c.toNat - 48
  else if 97 ≤ c.toNat ∧ c.toNat ≤ 122 then c.toNat - 87
  else if 65 ≤ c.toNat ∧ c.toNat ≤ 90 then c.toNat - 55
  else 36

/-- The digits `strtol` consumes in a base: the value of the longest prefix of characters that
are digits of the base, accumulated from `acc`. -/
def strtol_digits (base : Nat) : List Char → Nat → Nat
  | [], acc => acc
  | c :: t, acc =>
    if digit_value c < base then strtol_digits base t (acc * base + digit_value c) else acc

def LONG_MAX : Int := 2 ^ 63 - 1
def LONG_MIN : Int := -(2 ^ 63)

/-- Result of `strtol`: the value returned and whether `errno` was set to `ERANGE`.  The
function does not change `errno` otherwise. -/
structure StrtolResult where
  value : Int
  sets_ERANGE : Bool
deriving DecidableEq, Repr

/-- The last step of `strtol`: the sign is applied to the magnitude read; a value outside the
range of `long` is replaced by `LONG_MAX` or `LONG_MIN` and `errno` is set to `ERANGE`. -/
def strtol_result (negative : Bool) (magnitude : Nat) : StrtolResult :=
  if negative then
    if -(magnitude : Int) < LONG_MIN then { value := LONG_MIN, sets_ERANGE := true }
    else { value := -(magnitude : Int), sets_ERANGE := false }
  else
    if LONG_MAX < (magnitude : Int) then { value := LONG_MAX, sets_ERANGE := true }
    else { value := (magnitude : Int), sets_ERANGE := false }

/-- The subject sequence of `strtol` with base 0 starts with `0x` or `0X` followed by a
hexadecimal digit. -/
def strtol_has_0x : List Char → Bool
  | c0 :: c1 :: c2 :: _ => c0 = '0' && (c1 = 'x' || c1 = 'X') && isxdigit c2
  | _ => false

/-- The magnitude `strtol` with base 0 reads after white space and sign: hexadecimal after a
`0x` or `0X` prefix that a hexadecimal digit follows, octal after a leading `0`, decimal
otherwise; 0 when there is no digit. -/
def strtol_magnitude (s : List Char) : Nat :=
  if strtol_has_0x s then strtol_digits 16 (s.drop 2) 0
  else if s.head? = some '0' then strtol_digits 8 s 0
  else strtol_digits 10 s 0

/-- The C library function `strtol(nptr, NULL, 0)` (ISO C 7.22.1.4) on the characters of the
string `nptr` before its terminator: leading white space is skipped, then an optional sign,
then the digits in the base the prefix selects. -/
def strtol (nptr : List Char) : StrtolResult :=
  match nptr.dropWhile isspace with
  | [] => { value := 0, sets_ERANGE := false }
  | c :: t =>
    if c = '-' then strtol_result true (strtol_magnitude t)
    else if c = '+' then strtol_result false (strtol_magnitude t)
    else strtol_result false (strtol_magnitude (c :: t))

/-- Result of `parse_integer_arg`: the value returned and whether `errno` is `ERANGE` when it
returns. -/
structure ParseResult where
  ret : Int
  errno_ERANGE : Bool
deriving DecidableEq, Repr

/-- The test `optarg[0] == '0' && (optarg[1] == 'x' || optarg[1] == 'X')` of
`parse_integer_arg`. -/
def starts_with_0x : List Char → Bool
  | c0 :: c1 :: _ => c0 = '0' && (c1 = 'x' || c1 = 'X')
  | _ => false

/-- The flag `is_all_digit` of `parse_integer_arg` after its loop: every character passes
`isxdigit` after a `0x` or `0X` that is skipped, or every character passes `isdigit`. -/
def is_all_digit (optarg : List Char) : Bool :=
  if starts_with_0x optarg then (optarg.drop 2).all isxdigit else optarg.all isdigit

/-- The function `parse_integer_arg(name)` of `main.cpp` on a platform where `size_t` is not
wider than `long` (the first branch of `sizeof(size_t) <= sizeof(long)`).  The argument
`optarg` is the characters of the global string `optarg` before its terminator, and
`errno_ERANGE` says whether `errno` is `ERANGE` at the call: the function reads `errno` after
`strtol` without having cleared it.  The messages printed are left out. -/
def parse_integer_arg (optarg : List Char) (errno_ERANGE : Bool) : ParseResult :=
  if is_all_digit optarg then
    let r := strtol optarg
    let ret := to_ssize_t (to_size_t r.value)
    if errno_ERANGE || r.sets_ERANGE then { ret := 0, errno_ERANGE := true }
    else { ret := ret, errno_ERANGE := false }
  else
    { ret := 0, errno_ERANGE := errno_ERANGE }

/-- Outcome of the `case 'm'` block of `parse_cmd_args`: the value stored into
`h2t_t2h_mem_size` (a `size_t`), the value returned when the block returns (`none` when it
leaves the `switch` and the option loop goes on), and `errno` afterwards. -/
structure CaseMResult where
  h2t_t2h_mem_size : Nat
  ret : Option Int
  errno_ERANGE : Bool
deriving DecidableEq, Repr

/-- The `case 'm'` block of `parse_cmd_args`. -/
def parse_cmd_args_case_m (optarg : List Char) (errno_ERANGE : Bool) : CaseMResult :=
  let r := parse_integer_arg optarg errno_ERANGE
  let h2t_t2h_mem_size := to_size_t r.ret
  if h2t_t2h_mem_size = 0 then
    { h2t_t2h_mem_size := h2t_t2h_mem_size, ret := some (-3), errno_ERANGE := r.errno_ERANGE }
  else
    { h2t_t2h_mem_size := h2t_t2h_mem_size, ret := none, errno_ERANGE := r.errno_ERANGE }

/-- The number a string of digits denotes in a base, by positional notation: the sum of
`digit * base ^ position` with the last character at position 0. -/
def numeral_value (base : Nat) (digits : List Char) : Nat :=
  Nat.ofDigits base (digits.reverse.map digit_value)

/-! # Theorems -/

/-! ## The reclaim step of `get_h2t_buffer` -/

theorem chain_sum_succ (chain : Nat → Nat) (r n : Nat) :
    chain_sum chain r (n + 1) = chain_sum chain r n + chain ((r + n) % 128) := by
  simp [chain_sum, List.range_succ, MAX_H2T_DESCRIPTOR_DEPTH]

theorem chain_sum_le (chain : Nat → Nat) (r n : Nat) (hc : ∀ i, i < 128 → chain i < 2 ^ 16) :
    chain_sum chain r n ≤ 65535 * n := by
  induction n with
  | zero => simp [chain_sum]
  | succ k ih =>
    rw [chain_sum_succ]
    have := hc ((r + k) % 128) (Nat.mod_lt _ (by decide))
    omega

theorem bytes_freed_loop_spec (chain : Nat → Nat) (r freed : Nat)
    (hc : ∀ i, i < 128 → chain i < 2 ^ 16) (hf : freed ≤ 128) :
    ∀ (n i fuel : Nat), i + n = freed → n < fuel →
      bytes_freed_loop chain r freed fuel (char_of i) (chain_sum chain r i) =
        some (chain_sum chain r freed) := by
  intro n
  induction n with
  | zero =>
    intro i fuel hi hfuel
    obtain ⟨f, rfl⟩ : ∃ f, fuel = f + 1 := ⟨fuel - 1, by omega⟩
    have hi' : i = freed := by omega
    subst hi'
    have : ¬ char_as_u32 (char_of i) < i := by
      unfold char_as_u32 char_of
      split <;> omega
    simp [bytes_freed_loop, this]
  | succ k ih =>
    intro i fuel hi hfuel
    obtain ⟨f, rfl⟩ : ∃ f, fuel = f + 1 := ⟨fuel - 1, by omega⟩
    have hlt : i < 128 := by omega
    have hco : char_of i = (i : Int) := by
      unfold char_of
      rw [if_neg (by omega)]
    have hcond : char_as_u32 (char_of i) < freed := by
      rw [hco]
      unfold char_as_u32
      omega
    have hidx : Int.tmod ((r : Int) + (i : Int)) ((MAX_H2T_DESCRIPTOR_DEPTH : Nat) : Int)
        = (((r + i) % 128 : Nat) : Int) := by
      have hcast : (r : Int) + (i : Int) = ((r + i : Nat) : Int) := by push_cast; rfl
      rw [hcast]
      exact (Int.ofNat_tmod _ _).symm
    have hinc : char_incr (char_of i) = char_of (i + 1) := by
      rw [hco]
      unfold char_incr char_of
      split <;> split <;> omega
    have hsum := chain_sum_le chain r i hc
    have hent := hc ((r + i) % 128) (Nat.mod_lt _ (by decide))
    have hacc : (chain_sum chain r i + chain ((r + i) % 128)) % 2 ^ 64
        = chain_sum chain r (i + 1) := by
      rw [chain_sum_succ]
      apply Nat.mod_eq_of_lt
      omega
    rw [bytes_freed_loop, if_pos hcond]
    simp only [hco, hidx]
    rw [if_pos (by omega)]
    simp only [Int.toNat_ofNat]
    rw [← hco, hinc, hacc]
    exact ih (i + 1) f (by omega) (by omega)


theorem h2t_reclaim_eq (s : Driver) (hw : Nat) (hs : s.inRange)
    (h1 : 1 ≤ freed_descriptor_slots hw s.g_h2t_descriptor_slots_available)
    (h128 : freed_descriptor_slots hw s.g_h2t_descriptor_slots_available ≤ 128) :
    h2t_reclaim s hw = some
      { state :=
          { s with
            g_h2t_descriptor_slots_available :=
              (s.g_h2t_descriptor_slots_available +
                freed_descriptor_slots hw s.g_h2t_descriptor_slots_available) % 2 ^ 16
            g_h2t_descriptor_read_idx :=
              (((s.g_h2t_descriptor_read_idx +
                freed_descriptor_slots hw s.g_h2t_descriptor_slots_available) % 2 ^ 32) %
                  MAX_H2T_DESCRIPTOR_DEPTH) % 2 ^ 16
            g_h2t_rx_cbuff := cbuff_free s.g_h2t_rx_cbuff
              (chain_sum s.g_h2t_descriptor_chain s.g_h2t_descriptor_read_idx
                (freed_descriptor_slots hw s.g_h2t_descriptor_slots_available)) }
        trace := [.fpga_read_32 ST_DBG_IP_H2T_AVAILABLE_SLOTS, .cbuff_free .h2t
              (chain_sum s.g_h2t_descriptor_chain s.g_h2t_descriptor_read_idx
                (freed_descriptor_slots hw s.g_h2t_descriptor_slots_available))] } := by
  have hc := hs.2.2.2.2.2.2.2.2.1
  have hloop := bytes_freed_loop_spec s.g_h2t_descriptor_chain s.g_h2t_descriptor_read_idx
    (freed_descriptor_slots hw s.g_h2t_descriptor_slots_available) hc h128
    (freed_descriptor_slots hw s.g_h2t_descriptor_slots_available) 0 256 (by omega) (by omega)
  have h0 : char_of 0 = 0 := by decide
  have hs0 : chain_sum s.g_h2t_descriptor_chain s.g_h2t_descriptor_read_idx 0 = 0 := by
    simp [chain_sum]
  rw [h0, hs0] at hloop
  unfold h2t_reclaim
  simp only [gt_iff_lt]
  rw [if_pos (by omega), hloop]

theorem h2t_reserve_trace_noFree (s : Driver) (sz : Nat) :
    ∀ c ∈ (h2t_reserve s sz).trace, c.isFree = false := by
  intro c hc
  unfold h2t_reserve at hc
  by_cases h1 : s.g_h2t_descriptor_slots_available > 0
  · by_cases h2 : s.g_h2t_rx_cbuff.space_available ≥ GET_ALIGNED_SZ sz
    · simp only [h1, h2, if_true] at hc
      simp at hc
      subst hc
      rfl
    · simp only [h1, h2, if_true, if_false] at hc
      simp at hc
  · simp only [h1, if_false] at hc
    simp at hc

/-- C1 (amended): reclaim step of `get_h2t_buffer`.  For every driver state whose variables are
in the range of their C types and every 32-bit slot-counter value `hw` whose difference
`freed = hw - cached` (as computed by the code) satisfies `1 ≤ freed ≤ 128`: the reclaim step
returns, its trace is the register read followed by exactly one call of the allocator's `free`
with the sum of the chain entries at the positions `(read_idx + i) % 128`, `i < freed`; the
cached slot count becomes `hw % 2 ^ 16` (the count is an `unsigned short`; this is `hw` when
`hw < 2 ^ 16`), `read_idx` becomes
`(read_idx + freed) % 128`, and the reservation step runs afterwards, on that state, without
calling `free`. -/
theorem C1_reclaim_step (s : Driver) (hw sz : Nat) (hs : s.inRange) (hhw : hw < 2 ^ 32)
    (h1 : 1 ≤ freed_descriptor_slots hw s.g_h2t_descriptor_slots_available)
    (h128 : freed_descriptor_slots hw s.g_h2t_descriptor_slots_available ≤ 128) :
    ∃ r : Step, h2t_reclaim s hw = some r ∧
      freed_descriptor_slots hw s.g_h2t_descriptor_slots_available +
        s.g_h2t_descriptor_slots_available = hw ∧
      r.trace = [.fpga_read_32 ST_DBG_IP_H2T_AVAILABLE_SLOTS, .cbuff_free .h2t
        (chain_sum s.g_h2t_descriptor_chain s.g_h2t_descriptor_read_idx
          (freed_descriptor_slots hw s.g_h2t_descriptor_slots_available))] ∧
      r.state.g_h2t_descriptor_slots_available = hw % 2 ^ 16 ∧
      (hw < 2 ^ 16 → r.state.g_h2t_descriptor_slots_available = hw) ∧
      r.state.g_h2t_descriptor_read_idx =
        (s.g_h2t_descriptor_read_idx +
          freed_descriptor_slots hw s.g_h2t_descriptor_slots_available) % 128 ∧
      r.state.g_h2t_rx_cbuff = cbuff_free s.g_h2t_rx_cbuff
        (chain_sum s.g_h2t_descriptor_chain s.g_h2t_descriptor_read_idx
          (freed_descriptor_slots hw s.g_h2t_descriptor_slots_available)) ∧
      get_h2t_buffer s hw sz = some
        { state := (h2t_reserve r.state sz).state
          ret := (h2t_reserve r.state sz).ret
          trace := r.trace ++ (h2t_reserve r.state sz).trace } ∧
      (∀ c ∈ (h2t_reserve r.state sz).trace, c.isFree = false) := by
  have hslots : s.g_h2t_descriptor_slots_available < 2 ^ 16 := hs.1
  have hrec := h2t_reclaim_eq s hw hs h1 h128
  have hfreed : freed_descriptor_slots hw s.g_h2t_descriptor_slots_available
      + s.g_h2t_descriptor_slots_available = hw := by
    unfold freed_descriptor_slots at h1 h128 ⊢
    omega
  have hcount : (s.g_h2t_descriptor_slots_available +
      freed_descriptor_slots hw s.g_h2t_descriptor_slots_available) % 2 ^ 16 = hw % 2 ^ 16 := by
    rw [Nat.add_comm, hfreed]
  refine ⟨_, hrec, hfreed, rfl, hcount, ?_, ?_, rfl, ?_, ?_⟩
  · intro hfit
    exact hcount.trans (Nat.mod_eq_of_lt hfit)
  · show (((s.g_h2t_descriptor_read_idx +
        freed_descriptor_slots hw s.g_h2t_descriptor_slots_available) % 2 ^ 32) %
          MAX_H2T_DESCRIPTOR_DEPTH) % 2 ^ 16 = _
    unfold MAX_H2T_DESCRIPTOR_DEPTH
    omega
  · unfold get_h2t_buffer
    rw [hrec]
  · exact h2t_reserve_trace_noFree _ sz

/-- Witness of `C1_reclaim_step`: in the spec's scenario, after the 100-byte transfer has been
pushed (127 slots cached, 104 bytes reserved) the hardware completes it and the counter reads
128: one slot is reclaimed, `free(104)` is called, the count becomes 128 and `read_idx` 1. -/
theorem C1_reclaim_step_witness :
    (h2t_reclaim scenario_100_pushed 128).map
      (fun r => (r.trace, r.state.g_h2t_descriptor_slots_available,
        r.state.g_h2t_descriptor_read_idx, r.state.g_h2t_rx_cbuff.space_available)) =
      some ([.fpga_read_32 ST_DBG_IP_H2T_AVAILABLE_SLOTS, .cbuff_free .h2t 104], 128, 1, 4096) := by
  obtain ⟨r, h, _, ht, hs, _, hr, hc, _⟩ :=
    C1_reclaim_step scenario_100_pushed 128 8 (by decide) (by decide) (by decide) (by decide)
  rw [h, Option.map_some', ht, hs, hr, hc]
  decide

/-- C1, as stated, fails: with a cached count of 65535 and a slot counter reading 65536 the code
computes `freed = 1`, and the cached count becomes 0, not 65536. -/
theorem C1_counterexample :
    state_slots_65535.inRange ∧
    freed_descriptor_slots 65536 state_slots_65535.g_h2t_descriptor_slots_available = 1 ∧
    (h2t_reclaim state_slots_65535 65536).map
      (fun r => r.state.g_h2t_descriptor_slots_available) = some 0 ∧
    (h2t_reclaim state_slots_65535 65536).map
      (fun r => r.state.g_h2t_descriptor_slots_available) ≠ some 65536 := by
  refine ⟨by decide, by decide, by decide, by decide⟩

/-! ## The reservation step of `get_h2t_buffer` -/

theorem h2t_reserve_fail (s : Driver) (sz : Nat)
    (h : s.g_h2t_descriptor_slots_available = 0 ∨
      s.g_h2t_rx_cbuff.space_available < GET_ALIGNED_SZ sz) :
    h2t_reserve s sz = { state := s, ret := 0, trace := [] } := by
  unfold h2t_reserve
  by_cases h1 : s.g_h2t_descriptor_slots_available > 0
  · have h2 : ¬ s.g_h2t_rx_cbuff.space_available ≥ GET_ALIGNED_SZ sz := by omega
    simp only [h1, h2, if_true, if_false]
  · simp only [h1, if_false]

theorem GET_ALIGNED_SZ_idem (n : Nat) : GET_ALIGNED_SZ (GET_ALIGNED_SZ n) = GET_ALIGNED_SZ n := by
  unfold GET_ALIGNED_SZ ALIGN_TO ST_DBG_IP_BUFF_ALIGN_POW_2
  simp only [Nat.shiftLeft_eq, Nat.shiftRight_eq_div_pow]
  omega

theorem cbuff_alloc_ok (cb : CIRCLE_BUFF) (n : Nat) (h : GET_ALIGNED_SZ n ≤ cb.space_available) :
    cbuff_alloc cb (GET_ALIGNED_SZ n) =
      ({ cb with
          space_available := cb.space_available - GET_ALIGNED_SZ n
          write_cursor := (cb.write_cursor + GET_ALIGNED_SZ n) % cb.capacity },
        some (cb.base + cb.write_cursor)) := by
  unfold cbuff_alloc
  rw [GET_ALIGNED_SZ_idem]
  exact if_pos h

theorem h2t_reserve_ok (s : Driver) (sz : Nat)
    (h1 : 0 < s.g_h2t_descriptor_slots_available)
    (h2 : GET_ALIGNED_SZ sz ≤ s.g_h2t_rx_cbuff.space_available) :
    h2t_reserve s sz =
      { state :=
          { s with
            g_h2t_descriptor_chain :=
              Function.update s.g_h2t_descriptor_chain
                (s.g_h2t_descriptor_write_idx % MAX_H2T_DESCRIPTOR_DEPTH)
                (GET_ALIGNED_SZ sz % 2 ^ 16)
            g_h2t_descriptor_write_idx := (s.g_h2t_descriptor_write_idx + 1) % 2 ^ 16
            g_h2t_rx_cbuff :=
              { s.g_h2t_rx_cbuff with
                space_available := s.g_h2t_rx_cbuff.space_available - GET_ALIGNED_SZ sz
                write_cursor :=
                  (s.g_h2t_rx_cbuff.write_cursor + GET_ALIGNED_SZ sz) %
                    s.g_h2t_rx_cbuff.capacity } }
        ret := (s.g_h2t_rx_cbuff.base + s.g_h2t_rx_cbuff.write_cursor) % 2 ^ 32
        trace := [.cbuff_alloc .h2t (GET_ALIGNED_SZ sz)] } := by
  unfold h2t_reserve
  rw [if_pos h1]
  dsimp only
  rw [if_pos h2, cbuff_alloc_ok _ _ h2]
  rfl

/-- C2: evaluation of `get_h2t_buffer` at the failing input.  On a freshly initialised driver with
a 128 KiB H2T window and 128 free slots, a request of 65530 bytes passes both checks (a slot is
free, and the rounded size 65536 fits), the allocator hands out offset `0x20000` and `write_idx`
goes from 0 to 1, but the chain entry written at position 0 is 0, not the rounded size 65536:
the chain is an array of `unsigned short`. -/
theorem C2_stored_size_truncated :
    GET_ALIGNED_SZ 65530 = 65536 ∧
    (fresh_driver 0x20000).g_h2t_descriptor_write_idx = 0 ∧
    (h2t_reclaim (fresh_driver 0x20000) 128).map
      (fun r => (decide (0 < r.state.g_h2t_descriptor_slots_available),
        decide (GET_ALIGNED_SZ 65530 ≤ r.state.g_h2t_rx_cbuff.space_available))) =
      some (true, true) ∧
    (get_h2t_buffer (fresh_driver 0x20000) 128 65530).map
      (fun b => (b.state.g_h2t_descriptor_chain 0, b.state.g_h2t_descriptor_write_idx, b.ret,
        b.trace)) =
      some (0, 1, 0x20000,
        [.fpga_read_32 ST_DBG_IP_H2T_AVAILABLE_SLOTS, .cbuff_alloc .h2t 65536]) := by
  refine ⟨by decide, by decide, by decide, by decide⟩

/-- C3 (amended): failed reservation.  After the reclaim step has produced the state `r`:
if the cached slot count is 0 or `space_available < GET_ALIGNED_SZ(sz)`, `get_h2t_buffer` returns
0, makes no allocator call and leaves the whole driver state (so `write_idx`, every chain
entry and `space_available`) as it is right after the reclaim step; otherwise it returns the
allocator's offset `(base + write_cursor) % 2 ^ 32`.  Hence, whenever that offset is not 0 (in
particular when `0 < base`, `write_cursor < capacity` and `base + capacity ≤ 2 ^ 32`), the
function returns 0 exactly when the cached slot count is 0 or the space is insufficient. -/
theorem C3_failed_reservation (s : Driver) (hw sz : Nat) (r : Step)
    (hr : h2t_reclaim s hw = some r) :
    ∃ b : BufferResult, get_h2t_buffer s hw sz = some b ∧
      ((r.state.g_h2t_descriptor_slots_available = 0 ∨
          r.state.g_h2t_rx_cbuff.space_available < GET_ALIGNED_SZ sz) →
        b.ret = 0 ∧ b.state = r.state ∧ b.trace = r.trace) ∧
      (¬ (r.state.g_h2t_descriptor_slots_available = 0 ∨
          r.state.g_h2t_rx_cbuff.space_available < GET_ALIGNED_SZ sz) →
        b.ret = (r.state.g_h2t_rx_cbuff.base + r.state.g_h2t_rx_cbuff.write_cursor) % 2 ^ 32) ∧
      ((r.state.g_h2t_rx_cbuff.base + r.state.g_h2t_rx_cbuff.write_cursor) % 2 ^ 32 ≠ 0 →
        (b.ret = 0 ↔
          (r.state.g_h2t_descriptor_slots_available = 0 ∨
            r.state.g_h2t_rx_cbuff.space_available < GET_ALIGNED_SZ sz))) ∧
      (0 < r.state.g_h2t_rx_cbuff.base →
        r.state.g_h2t_rx_cbuff.write_cursor < r.state.g_h2t_rx_cbuff.capacity →
        r.state.g_h2t_rx_cbuff.base + r.state.g_h2t_rx_cbuff.capacity ≤ 2 ^ 32 →
        (b.ret = 0 ↔
          (r.state.g_h2t_descriptor_slots_available = 0 ∨
            r.state.g_h2t_rx_cbuff.space_available < GET_ALIGNED_SZ sz))) := by
  have key : (r.state.g_h2t_rx_cbuff.base + r.state.g_h2t_rx_cbuff.write_cursor) % 2 ^ 32 ≠ 0 →
      ((h2t_reserve r.state sz).ret = 0 ↔
        (r.state.g_h2t_descriptor_slots_available = 0 ∨
          r.state.g_h2t_rx_cbuff.space_available < GET_ALIGNED_SZ sz)) := by
    intro hne
    constructor
    · intro h0
      by_contra hc
      rw [h2t_reserve_ok r.state sz (by omega) (by omega)] at h0
      exact hne h0
    · intro h
      rw [h2t_reserve_fail r.state sz h]
  refine ⟨{ state := (h2t_reserve r.state sz).state
            ret := (h2t_reserve r.state sz).ret
            trace := r.trace ++ (h2t_reserve r.state sz).trace },
    by unfold get_h2t_buffer; rw [hr], ?_, ?_, key, ?_⟩
  · intro h
    simp only [h2t_reserve_fail r.state sz h, List.append_nil, and_self]
  · intro h
    rw [h2t_reserve_ok r.state sz (by omega) (by omega)]
  · intro hbase hcur hcap
    apply key
    omega

/-- Witness of `C3_failed_reservation`, the scenario of the claim: capacity 4096, a request of
100 granted at `0x1000` and pushed (104 bytes reserved), no hardware completion; a request of
4000 then returns 0. -/
theorem C3_failed_reservation_witness :
    (get_h2t_buffer (fresh_driver 4096) 128 100).map (fun b => b.ret) = some 0x1000 ∧
    (get_h2t_buffer (fresh_driver 4096) 128 100).map
      (fun b => (push_h2t_data example_decl b.state ⟨100, 3, 0, 0⟩ b.ret).state) =
      some scenario_100_pushed ∧
    scenario_100_pushed.g_h2t_rx_cbuff.capacity = 4096 ∧
    scenario_100_pushed.g_h2t_rx_cbuff.space_available = 4096 - 104 ∧
    (get_h2t_buffer scenario_100_pushed 127 4000).map (fun b => b.ret) = some 0 := by
  obtain ⟨b, hb, hfail, _, _, _⟩ :=
    C3_failed_reservation scenario_100_pushed 127 4000
      { state := scenario_100_pushed, trace := [.fpga_read_32 ST_DBG_IP_H2T_AVAILABLE_SLOTS] } rfl
  refine ⟨by decide, rfl, by decide, by decide, ?_⟩
  rw [hb]
  exact congrArg some (hfail (Or.inr (by decide))).1

/-- C3, as stated, fails: on a driver initialised with an H2T memory size of `0xFFFFFFF8`, after
one 8-byte transfer (granted at `0xFFFFFFF8` and pushed), a second request of 8 bytes finds 127
free slots and enough space, is granted (the allocator is called and `write_idx` goes from 1 to
2), and the value returned is `(0xFFFFFFF8 + 8) % 2 ^ 32 = 0`. -/
theorem C3_counterexample :
    (get_h2t_buffer (fresh_driver 0xFFFFFFF8) 128 8).map (fun b => b.ret) = some 0xFFFFFFF8 ∧
    (get_h2t_buffer (fresh_driver 0xFFFFFFF8) 128 8).map
      (fun b => (push_h2t_data example_decl b.state ⟨8, 3, 0, 0⟩ b.ret).state) =
      some large_window_8_pushed ∧
    large_window_8_pushed.g_h2t_descriptor_write_idx = 1 ∧
    (h2t_reclaim large_window_8_pushed 127).map
      (fun r => (r.state.g_h2t_descriptor_slots_available,
        decide (r.state.g_h2t_rx_cbuff.space_available < GET_ALIGNED_SZ 8))) =
      some (127, false) ∧
    (get_h2t_buffer large_window_8_pushed 127 8).map
      (fun b => (b.ret, b.state.g_h2t_descriptor_write_idx, b.trace)) =
      some (0, 2, [.fpga_read_32 ST_DBG_IP_H2T_AVAILABLE_SLOTS, .cbuff_alloc .h2t 8]) := by
  refine ⟨by decide, rfl, by decide, by decide, by decide⟩

/-! ## Slot accounting -/

theorem h2t_reclaim_same (s : Driver) :
    h2t_reclaim s s.g_h2t_descriptor_slots_available =
      some { state := s, trace := [.fpga_read_32 ST_DBG_IP_H2T_AVAILABLE_SLOTS] } := by
  unfold h2t_reclaim freed_descriptor_slots
  simp only [gt_iff_lt]
  rw [if_neg (by omega)]

theorem h2t_reserve_slots (s : Driver) (sz : Nat) :
    (h2t_reserve s sz).state.g_h2t_descriptor_slots_available =
      s.g_h2t_descriptor_slots_available := by
  by_cases h : s.g_h2t_descriptor_slots_available = 0 ∨
      s.g_h2t_rx_cbuff.space_available < GET_ALIGNED_SZ sz
  · rw [h2t_reserve_fail s sz h]
  · rw [h2t_reserve_ok s sz (by omega) (by omega)]

/-- C4: slot accounting.  When the slot counter read equals the cached count, `get_h2t_buffer`
returns (success or failure) with the cached H2T slot count unchanged; on a driver whose
variables are in range, `push_h2t_data` called with a cached H2T count > 0 yields the same
state with only the H2T count decremented by one, and `push_mgmt_data` called with a cached MGMT
count > 0 yields the same state with only the MGMT count decremented by one. -/
theorem C4_slot_accounting (m : PacketDecl) (s : Driver) (hw sz payload : Nat)
    (h2t_header : H2T_PACKET_HEADER) (mgmt_header : MGMT_PACKET_HEADER) (hs : s.inRange) :
    (hw = s.g_h2t_descriptor_slots_available →
      ∃ b : BufferResult, get_h2t_buffer s hw sz = some b ∧
        b.state.g_h2t_descriptor_slots_available = s.g_h2t_descriptor_slots_available) ∧
    (0 < s.g_h2t_descriptor_slots_available →
      (push_h2t_data m s h2t_header payload).state =
        { s with g_h2t_descriptor_slots_available := s.g_h2t_descriptor_slots_available - 1 }) ∧
    (0 < s.g_mgmt_descriptor_slots_available →
      (push_mgmt_data m s mgmt_header payload).state =
        { s with g_mgmt_descriptor_slots_available := s.g_mgmt_descriptor_slots_available - 1 }) := by
  have h1 : s.g_h2t_descriptor_slots_available < 2 ^ 16 := hs.1
  have h2 : s.g_mgmt_descriptor_slots_available < 2 ^ 16 := hs.2.1
  refine ⟨?_, ?_, ?_⟩
  · intro hhw
    subst hhw
    refine ⟨_, by unfold get_h2t_buffer; rw [h2t_reclaim_same], ?_⟩
    exact h2t_reserve_slots s sz
  · intro hpos
    have : (s.g_h2t_descriptor_slots_available + 2 ^ 16 - 1) % 2 ^ 16 =
        s.g_h2t_descriptor_slots_available - 1 := by omega
    simp only [push_h2t_data, this]
  · intro hpos
    have : (s.g_mgmt_descriptor_slots_available + 2 ^ 16 - 1) % 2 ^ 16 =
        s.g_mgmt_descriptor_slots_available - 1 := by omega
    simp only [push_mgmt_data, this]

/-- Witness of `C4_slot_accounting`: the freshly initialised driver of the spec's scenario, with
128 free H2T slots and 128 free MGMT slots. -/
theorem C4_slot_accounting_witness :
    (fresh_driver 4096).inRange ∧
    (get_h2t_buffer (fresh_driver 4096) 128 100).map
      (fun b => b.state.g_h2t_descriptor_slots_available) = some 128 ∧
    (push_h2t_data example_decl (fresh_driver 4096) ⟨100, 3, 0, 0⟩
      0x1000).state.g_h2t_descriptor_slots_available = 127 ∧
    (push_mgmt_data example_decl (fresh_driver 4096) ⟨100, 3, 0⟩
      0x3000).state.g_mgmt_descriptor_slots_available = 127 := by
  have h := C4_slot_accounting example_decl (fresh_driver 4096) 128 100 0x1000 ⟨100, 3, 0, 0⟩
    ⟨100, 3, 0⟩ (by decide)
  have h' := C4_slot_accounting example_decl (fresh_driver 4096) 128 100 0x3000 ⟨100, 3, 0, 0⟩
    ⟨100, 3, 0⟩ (by decide)
  obtain ⟨b, hb, hslots⟩ := h.1 (by decide)
  refine ⟨by decide, ?_, ?_, ?_⟩
  · rw [hb]
    exact congrArg some hslots
  · rw [h.2.1 (by decide)]
    decide
  · rw [h'.2.2 (by decide)]
    decide

/-! ## Queue bytes against buffer bytes -/

/-- C5: evaluation at the failing input.  On a freshly initialised driver with a 128 KiB H2T
window, after `get_h2t_buffer(65530)` and the push of the transfer, the queue holds one entry of
size 0 while 65536 bytes of the buffer are reserved.  After the hardware has completed the
transfer (slot counter back at 128), the next call reclaims 0 bytes for it: with 8 bytes then
reserved, the queue sums to 8 and the buffer has 65544 bytes outstanding. -/
theorem C5_queue_bytes_diverge :
    (get_h2t_buffer (fresh_driver 0x20000) 128 65530).map
      (fun b => (h2t_queue_len b.state, h2t_queue_bytes b.state, h2t_bytes_outstanding b.state)) =
      some (1, 0, 65536) ∧
    (get_h2t_buffer (fresh_driver 0x20000) 128 65530).map
      (fun b => (push_h2t_data example_decl b.state ⟨65530, 3, 0, 0⟩ b.ret).state) =
      some large_transfer_pushed ∧
    (h2t_queue_len large_transfer_pushed, h2t_queue_bytes large_transfer_pushed,
      h2t_bytes_outstanding large_transfer_pushed) = (1, 0, 65536) ∧
    (get_h2t_buffer large_transfer_pushed 128 8).map
      (fun b => (b.trace, h2t_queue_len b.state, h2t_queue_bytes b.state,
        h2t_bytes_outstanding b.state)) =
      some ([.fpga_read_32 ST_DBG_IP_H2T_AVAILABLE_SLOTS, .cbuff_free .h2t 0,
        .cbuff_alloc .h2t 8], 1, 8, 65544) := by
  refine ⟨by decide, rfl, by decide, by decide⟩

/-! ## Bit-level facts about the how-long word -/

theorem and_two_pow_ne_zero (x i : Nat) : x &&& 2 ^ i ≠ 0 ↔ x.testBit i = true := by
  rw [Nat.testBit_to_div_mod]
  constructor
  · intro h
    by_contra hc
    apply h
    apply Nat.eq_of_testBit_eq
    intro j
    simp only [Nat.testBit_and, Nat.zero_testBit, Nat.testBit_two_pow]
    by_cases hj : i = j
    · subst hj
      rw [Nat.testBit_to_div_mod]
      simp [hc]
    · simp [hj]
  · intro h hz
    have := congrArg (fun y => y.testBit i) hz
    simp only [Nat.testBit_and, Nat.zero_testBit, Nat.testBit_two_pow_self, Bool.and_true] at this
    rw [Nat.testBit_to_div_mod] at this
    simp_all

theorem pulled_last_eq (w : Nat) : pulled_last w = w.testBit 31 := by
  unfold pulled_last ST_DBG_IP_LAST_DESCRIPTOR_MASK
  have h : (0x80000000 : Nat) = 2 ^ 31 := by norm_num
  rw [h]
  have hmod : (w % 2 ^ 64 % 2 ^ 32).testBit 31 = w.testBit 31 := by
    simp only [Nat.testBit_mod_two_pow]
    simp
  by_cases hb : w.testBit 31 = true
  · rw [hb, decide_eq_true_iff, and_two_pow_ne_zero, hmod]
    exact hb
  · have hb' : w.testBit 31 = false := by simpa using hb
    rw [hb', decide_eq_false_iff_not, and_two_pow_ne_zero, hmod]
    simp [hb']

theorem pulled_len_eq (w : Nat) : pulled_len w = w % 2 ^ 16 := by
  unfold pulled_len ST_DBG_IP_HOW_LONG_MASK
  have h : (0x7FFFFFFF : Nat) = 2 ^ 31 - 1 := by norm_num
  rw [h, Nat.and_pow_two_sub_one_eq_mod]
  omega

theorem howlong_where_word_eq (len payload : Nat) (e : Bool) (hlen : len < 2 ^ 31) :
    howlong_where_word len e payload =
      2 ^ 32 * (payload % 2 ^ 32) + (len + if e then 2 ^ 31 else 0) := by
  unfold howlong_where_word ST_DBG_IP_HOW_LONG_MASK ST_DBG_IP_LAST_DESCRIPTOR_MASK
  have h1 : (0x7FFFFFFF : Nat) = 2 ^ 31 - 1 := by norm_num
  have h2 : (0x80000000 : Nat) = 2 ^ 31 * 1 := by norm_num
  have hmask : len &&& (2 ^ 31 - 1) = len := Nat.and_pow_two_sub_one_of_lt_two_pow hlen
  have hor : len ||| 2 ^ 31 * 1 = 2 ^ 31 * 1 + len := by
    rw [Nat.or_comm]
    exact (Nat.mul_add_lt_is_or hlen 1).symm
  simp only [h1, hmask]
  rw [h2, Nat.shiftLeft_eq, Nat.mul_comm (payload % 2 ^ 32) (2 ^ 32)]
  cases e
  · simp only [Bool.false_eq_true, if_false]
    rw [Nat.or_comm, ← Nat.mul_add_lt_is_or (by omega)]
    omega
  · simp only [if_true, hor]
    rw [Nat.or_comm, ← Nat.mul_add_lt_is_or (by omega)]
    omega

theorem pulled_len_word (len payload : Nat) (e : Bool) (hlen : len < 2 ^ 16) :
    pulled_len (howlong_where_word len e payload) = len := by
  rw [pulled_len_eq, howlong_where_word_eq len payload e (by omega)]
  cases e <;> simp <;> omega

theorem pulled_last_word (len payload : Nat) (e : Bool) (hlen : len < 2 ^ 16) :
    pulled_last (howlong_where_word len e payload) = e := by
  rw [pulled_last_eq, howlong_where_word_eq len payload e (by omega), Nat.testBit_to_div_mod]
  cases e <;> simp <;> omega

/-! ## Inbound framing: `get_t2h_data` and `get_mgmt_rsp_data` -/

theorem get_t2h_data_nodata (m : PacketDecl) (s : Driver) (header : H2T_PACKET_HEADER)
    (payload w c : Nat) (h : pulled_len w = 0) :
    get_t2h_data m s header payload w c =
      { state := s
        header := { header with DATA_LEN_BYTES := 0 }
        payload := payload
        ret := 0
        trace := [.fpga_read_64 ST_DBG_IP_T2H_HOW_LONG] } := by
  unfold get_t2h_data
  dsimp only
  rw [if_pos h, h]

theorem get_t2h_data_data (m : PacketDecl) (s : Driver) (header : H2T_PACKET_HEADER)
    (payload w c : Nat) (h : pulled_len w ≠ 0) :
    get_t2h_data m s header payload w c =
      { state := { s with g_t2h_sop := if pulled_last w then 1 else 0 }
        header :=
          { DATA_LEN_BYTES := pulled_len w
            SOP_EOP := pulled_sop_eop m s.g_t2h_sop (pulled_last w)
            CONN_ID := (c % 2 ^ 64) % 2 ^ 8
            CHANNEL := ((c % 2 ^ 64) >>> 32) % 2 ^ 16 }
        payload := (((w % 2 ^ 64) >>> 32) % 2 ^ 32 + s.g_std_dbg_ip_info.T2H_MEM_BASE_ADDR) % 2 ^ 32
        ret := 0
        trace :=
          [.fpga_read_64 ST_DBG_IP_T2H_HOW_LONG, .fpga_read_64 ST_DBG_IP_T2H_CONNECTION_ID] } := by
  unfold get_t2h_data
  dsimp only
  rw [if_neg h]

theorem get_mgmt_rsp_data_nodata (m : PacketDecl) (s : Driver) (header : MGMT_PACKET_HEADER)
    (payload w c : Nat) (h : pulled_len w = 0) :
    get_mgmt_rsp_data m s header payload w c =
      { state := s
        header := { header with DATA_LEN_BYTES := 0 }
        payload := payload
        ret := 0
        trace := [.fpga_read_64 ST_DBG_IP_MGMT_RSP_HOW_LONG] } := by
  unfold get_mgmt_rsp_data
  dsimp only
  rw [if_pos h, h]

theorem get_mgmt_rsp_data_data (m : PacketDecl) (s : Driver) (header : MGMT_PACKET_HEADER)
    (payload w c : Nat) (h : pulled_len w ≠ 0) :
    get_mgmt_rsp_data m s header payload w c =
      { state := { s with g_mgmt_rsp_sop := if pulled_last w then 1 else 0 }
        header :=
          { DATA_LEN_BYTES := pulled_len w
            SOP_EOP := pulled_sop_eop m s.g_mgmt_rsp_sop (pulled_last w)
            CHANNEL := (c % 2 ^ 32) % 2 ^ m.MGMT_CHANNEL_BITS }
        payload :=
          (((w % 2 ^ 64) >>> 32) % 2 ^ 32 + s.g_std_dbg_ip_info.MGMT_RSP_MEM_BASE_ADDR) % 2 ^ 32
        ret := 0
        trace :=
          [.fpga_read_64 ST_DBG_IP_MGMT_RSP_HOW_LONG,
           .fpga_read_32 ST_DBG_IP_MGMT_RSP_CHANNEL_ID_ADVANCE] } := by
  unfold get_mgmt_rsp_data
  dsimp only
  rw [if_neg h]

theorem pulled_sop_eop_eq (m : PacketDecl) (flag : Nat) (last : Bool) :
    pulled_sop_eop m flag last =
      (if flag ≠ 0 then m.H2T_PACKET_HEADER_MASK_SOP else 0) |||
        (if last = true then m.H2T_PACKET_HEADER_MASK_EOP else 0) := by
  unfold pulled_sop_eop
  by_cases hf : flag ≠ 0 <;> cases last <;> simp [hf]

theorem pulled_sop_eop_sop (m : PacketDecl) (hm : m.wf) (flag : Nat) (last : Bool) :
    pulled_sop_eop m flag last &&& m.H2T_PACKET_HEADER_MASK_SOP ≠ 0 ↔ flag ≠ 0 := by
  obtain ⟨hs, he, _, hd⟩ := hm
  have hd' : m.H2T_PACKET_HEADER_MASK_EOP &&& m.H2T_PACKET_HEADER_MASK_SOP = 0 := by
    rw [Nat.and_comm]; exact hd
  rw [pulled_sop_eop_eq, Nat.and_comm, Nat.and_or_distrib_left]
  by_cases hf : flag ≠ 0 <;> cases last <;> simp [hf, hs, hd, hd']

theorem pulled_sop_eop_eop (m : PacketDecl) (hm : m.wf) (flag : Nat) (last : Bool) :
    pulled_sop_eop m flag last &&& m.H2T_PACKET_HEADER_MASK_EOP ≠ 0 ↔ last = true := by
  obtain ⟨hs, he, _, hd⟩ := hm
  have hd' : m.H2T_PACKET_HEADER_MASK_EOP &&& m.H2T_PACKET_HEADER_MASK_SOP = 0 := by
    rw [Nat.and_comm]; exact hd
  rw [pulled_sop_eop_eq, Nat.and_comm, Nat.and_or_distrib_left]
  by_cases hf : flag ≠ 0 <;> cases last <;> simp [hf, he, hd, hd']

/-- C6 (amended): inbound framing step.  For every how-long word whose length as the driver reads
it (`DATA_LEN_BYTES`, the low 16 bits of the word) is nonzero, and a direction flag that is 0 or
1: the header returned by `get_t2h_data` has SOP set iff the T2H flag was 1 before the call, EOP
set iff bit 31 of the word is set, and `SOP_EOP` holds exactly those masks; the new driver state
is the old one with the T2H flag 1 if bit 31 is set and 0 otherwise.  The same holds for
`get_mgmt_rsp_data` with the MGMT-RSP flag. -/
theorem C6_inbound_framing (m : PacketDecl) (hm : m.wf) (s : Driver)
    (header : H2T_PACKET_HEADER) (mgmt_header : MGMT_PACKET_HEADER) (payload w c : Nat)
    (hlen : pulled_len w ≠ 0) (hflag : s.g_t2h_sop ≤ 1) (hmflag : s.g_mgmt_rsp_sop ≤ 1) :
    ((get_t2h_data m s header payload w c).header.sop m ↔ s.g_t2h_sop = 1) ∧
    ((get_t2h_data m s header payload w c).header.eop m ↔ w.testBit 31 = true) ∧
    (get_t2h_data m s header payload w c).header.SOP_EOP =
      ((if s.g_t2h_sop = 1 then m.H2T_PACKET_HEADER_MASK_SOP else 0) |||
        (if w.testBit 31 = true then m.H2T_PACKET_HEADER_MASK_EOP else 0)) ∧
    (get_t2h_data m s header payload w c).state =
      { s with g_t2h_sop := if w.testBit 31 = true then 1 else 0 } ∧
    ((get_mgmt_rsp_data m s mgmt_header payload w c).header.SOP_EOP &&&
        m.H2T_PACKET_HEADER_MASK_SOP ≠ 0 ↔ s.g_mgmt_rsp_sop = 1) ∧
    ((get_mgmt_rsp_data m s mgmt_header payload w c).header.SOP_EOP &&&
        m.H2T_PACKET_HEADER_MASK_EOP ≠ 0 ↔ w.testBit 31 = true) ∧
    (get_mgmt_rsp_data m s mgmt_header payload w c).header.SOP_EOP =
      ((if s.g_mgmt_rsp_sop = 1 then m.H2T_PACKET_HEADER_MASK_SOP else 0) |||
        (if w.testBit 31 = true then m.H2T_PACKET_HEADER_MASK_EOP else 0)) ∧
    (get_mgmt_rsp_data m s mgmt_header payload w c).state =
      { s with g_mgmt_rsp_sop := if w.testBit 31 = true then 1 else 0 } := by
  have e1 : (s.g_t2h_sop ≠ 0) = (s.g_t2h_sop = 1) := by
    apply propext; omega
  have e2 : (s.g_mgmt_rsp_sop ≠ 0) = (s.g_mgmt_rsp_sop = 1) := by
    apply propext; omega
  rw [get_t2h_data_data m s header payload w c hlen,
    get_mgmt_rsp_data_data m s mgmt_header payload w c hlen]
  unfold H2T_PACKET_HEADER.sop H2T_PACKET_HEADER.eop
  dsimp only
  refine ⟨?_, ?_, ?_, ?_, ?_, ?_, ?_, ?_⟩
  · rw [pulled_sop_eop_sop m hm, e1]
  · rw [pulled_sop_eop_eop m hm, pulled_last_eq]
  · rw [pulled_sop_eop_eq, pulled_last_eq]
    rcases (by omega : s.g_t2h_sop = 0 ∨ s.g_t2h_sop = 1) with h | h <;> simp [h]
  · rw [pulled_last_eq]
  · rw [pulled_sop_eop_sop m hm, e2]
  · rw [pulled_sop_eop_eop m hm, pulled_last_eq]
  · rw [pulled_sop_eop_eq, pulled_last_eq]
    rcases (by omega : s.g_mgmt_rsp_sop = 0 ∨ s.g_mgmt_rsp_sop = 1) with h | h <;> simp [h]
  · rw [pulled_last_eq]

/-- Witness of `C6_inbound_framing`: a 100-byte last fragment (`0x80000064`) arriving on the freshly
initialised driver. -/
theorem C6_inbound_framing_witness :
    (get_t2h_data example_decl (fresh_driver 4096) ⟨0, 0, 0, 0⟩ 0 0x80000064 0).header.SOP_EOP = 3 ∧
    (get_t2h_data example_decl (fresh_driver 4096) ⟨0, 0, 0, 0⟩ 0 0x80000064 0).state.g_t2h_sop
      = 1 := by
  have h := C6_inbound_framing example_decl (by decide) (fresh_driver 4096) ⟨0, 0, 0, 0⟩ ⟨0, 0, 0⟩
    0 0x80000064 0 (by decide) (by decide) (by decide)
  refine ⟨?_, ?_⟩
  · rw [h.2.2.1]
    decide
  · rw [h.2.2.2.1]
    decide

/-- C6, as stated, fails: the word `0x10000` reports a fragment of 65536 bytes (its length field
is nonzero) without the last bit; on a driver in AwaitingPacketStart (flag 1) `get_t2h_data`
stores `DATA_LEN_BYTES = 0`, returns early, leaves the caller's `SOP_EOP` as it was (no SOP) and
leaves the flag at 1 instead of moving to InPacket. -/
theorem C6_counterexample :
    (0x10000 % 2 ^ 32) &&& ST_DBG_IP_HOW_LONG_MASK = 65536 ∧
    Nat.testBit 0x10000 31 = false ∧
    (fresh_driver 4096).g_t2h_sop = 1 ∧
    (get_t2h_data example_decl (fresh_driver 4096) ⟨0, 0, 0, 0⟩ 0 0x10000 0).header =
      ⟨0, 0, 0, 0⟩ ∧
    ¬ (get_t2h_data example_decl (fresh_driver 4096) ⟨0, 0, 0, 0⟩ 0 0x10000 0).header.sop
      example_decl ∧
    (get_t2h_data example_decl (fresh_driver 4096) ⟨0, 0, 0, 0⟩ 0 0x10000 0).state.g_t2h_sop = 1 ∧
    (get_t2h_data example_decl (fresh_driver 4096) ⟨0, 0, 0, 0⟩ 0 0x10000 0).trace =
      [.fpga_read_64 ST_DBG_IP_T2H_HOW_LONG] := by
  refine ⟨by decide, by decide, by decide, by decide, by decide, by decide, by decide⟩

/-- C7: zero-length poll.  When the word read from the how-long register yields
`DATA_LEN_BYTES == 0`, `get_t2h_data` returns 0, the driver state (so the T2H flag) is unchanged,
the caller's header is unchanged except for `DATA_LEN_BYTES = 0`, `*payload` is unchanged, and the
only register access is the read of the how-long register; likewise for `get_mgmt_rsp_data`. -/
theorem C7_zero_length_poll (m : PacketDecl) (s : Driver) (header : H2T_PACKET_HEADER)
    (mgmt_header : MGMT_PACKET_HEADER) (payload w c : Nat) (hlen : pulled_len w = 0) :
    get_t2h_data m s header payload w c =
      { state := s
        header := { header with DATA_LEN_BYTES := 0 }
        payload := payload
        ret := 0
        trace := [.fpga_read_64 ST_DBG_IP_T2H_HOW_LONG] } ∧
    get_mgmt_rsp_data m s mgmt_header payload w c =
      { state := s
        header := { mgmt_header with DATA_LEN_BYTES := 0 }
        payload := payload
        ret := 0
        trace := [.fpga_read_64 ST_DBG_IP_MGMT_RSP_HOW_LONG] } :=
  ⟨get_t2h_data_nodata m s header payload w c hlen,
    get_mgmt_rsp_data_nodata m s mgmt_header payload w c hlen⟩

/-- Witness of `C7_zero_length_poll`: the how-long register reads 0 while a packet is in flight
(flag 0) and the caller's objects hold stale values. -/
theorem C7_zero_length_poll_witness :
    (get_t2h_data example_decl { fresh_driver 4096 with g_t2h_sop := 0 } ⟨7, 3, 5, 9⟩ 42 0
      77).header = ⟨0, 3, 5, 9⟩ ∧
    (get_t2h_data example_decl { fresh_driver 4096 with g_t2h_sop := 0 } ⟨7, 3, 5, 9⟩ 42 0
      77).state.g_t2h_sop = 0 ∧
    (get_t2h_data example_decl { fresh_driver 4096 with g_t2h_sop := 0 } ⟨7, 3, 5, 9⟩ 42 0
      77).payload = 42 := by
  have h := (C7_zero_length_poll example_decl { fresh_driver 4096 with g_t2h_sop := 0 }
    ⟨7, 3, 5, 9⟩ ⟨7, 3, 9⟩ 42 0 77 (by decide)).1
  rw [h]
  exact ⟨rfl, rfl, rfl⟩

/-! ## Outbound push encoding -/

theorem howlong_where_word_bits (len payload : Nat) (e : Bool) (hp : payload < 2 ^ 32) :
    howlong_where_word len e payload =
      (len &&& 0x7FFFFFFF) ||| (if e = true then 0x80000000 else 0) ||| (payload <<< 32) := by
  unfold howlong_where_word ST_DBG_IP_HOW_LONG_MASK ST_DBG_IP_LAST_DESCRIPTOR_MASK
  have ha : len &&& 0x7FFFFFFF < 2 ^ 64 :=
    Nat.and_lt_two_pow len (by norm_num : (0x7FFFFFFF : Nat) < 2 ^ 64)
  have hl : (0x80000000 : Nat) < 2 ^ 64 := by norm_num
  have hs : payload <<< 32 < 2 ^ 64 := by
    rw [Nat.shiftLeft_eq]
    omega
  rw [Nat.mod_eq_of_lt hp]
  cases e
  · simp only [Bool.false_eq_true, if_false, Nat.or_zero]
    exact Nat.mod_eq_of_lt (Nat.or_lt_two_pow ha hs)
  · simp only [if_true]
    exact Nat.mod_eq_of_lt (Nat.or_lt_two_pow (Nat.or_lt_two_pow ha hl) hs)

theorem connid_channelpush_bits (conn_id channel : Nat) (h1 : conn_id < 2 ^ 8)
    (h2 : channel < 2 ^ 16) :
    (conn_id ||| (channel <<< 32)) % 2 ^ 64 = conn_id ||| (channel <<< 32) := by
  have hs : channel <<< 32 < 2 ^ 64 := by
    rw [Nat.shiftLeft_eq]
    omega
  exact Nat.mod_eq_of_lt (Nat.or_lt_two_pow (by omega) hs)

/-- C10: push encoding.  For a header whose fields are in range and a 32-bit payload address,
`push_h2t_data` performs exactly two register accesses, both 64-bit writes, in this order: to
`0x108` the word `(DATA_LEN_BYTES & 0x7FFFFFFF) | (0x80000000 if EOP is set, else 0) |
(payload << 32)`, then to `0x110` the word `CONN_ID | (CHANNEL << 32)`; flipping the SOP mask in
the header's `SOP_EOP` changes neither word; `push_mgmt_data` writes the same how-long word to
`0x308` and then, as a 32-bit write, `CHANNEL` to `0x314`. -/
theorem C10_push_encoding (m : PacketDecl) (hm : m.wf) (s : Driver)
    (header : H2T_PACKET_HEADER) (mgmt_header : MGMT_PACKET_HEADER) (payload : Nat)
    (hh : header.inRange) (hmh : mgmt_header.inRange) (hp : payload < 2 ^ 32) :
    (push_h2t_data m s header payload).trace =
      [.fpga_write_64 0x108
          ((header.DATA_LEN_BYTES &&& 0x7FFFFFFF) |||
            (if header.SOP_EOP &&& m.H2T_PACKET_HEADER_MASK_EOP ≠ 0 then 0x80000000 else 0) |||
            (payload <<< 32)),
        .fpga_write_64 0x110 (header.CONN_ID ||| (header.CHANNEL <<< 32))] ∧
    (push_h2t_data m s
        { header with SOP_EOP := header.SOP_EOP ^^^ m.H2T_PACKET_HEADER_MASK_SOP } payload).trace =
      (push_h2t_data m s header payload).trace ∧
    (push_mgmt_data m s mgmt_header payload).trace =
      [.fpga_write_64 0x308
          ((mgmt_header.DATA_LEN_BYTES &&& 0x7FFFFFFF) |||
            (if mgmt_header.SOP_EOP &&& m.MGMT_PACKET_HEADER_MASK_EOP ≠ 0 then 0x80000000
              else 0) |||
            (payload <<< 32)),
        .fpga_write_32 0x314 mgmt_header.CHANNEL] := by
  obtain ⟨_, hc, hch⟩ := hh
  obtain ⟨_, hmch⟩ := hmh
  have hflip : (header.SOP_EOP ^^^ m.H2T_PACKET_HEADER_MASK_SOP) &&&
      m.H2T_PACKET_HEADER_MASK_EOP = header.SOP_EOP &&& m.H2T_PACKET_HEADER_MASK_EOP := by
    rw [Nat.and_xor_distrib_right, hm.2.2.2, Nat.xor_zero]
  refine ⟨?_, ?_, ?_⟩
  · unfold push_h2t_data
    dsimp only
    rw [howlong_where_word_bits _ _ _ hp, connid_channelpush_bits _ _ hc hch]
    simp only [decide_eq_true_eq]
    rfl
  · unfold push_h2t_data
    dsimp only
    rw [hflip]
  · unfold push_mgmt_data
    dsimp only
    rw [howlong_where_word_bits _ _ _ hp, Nat.mod_eq_of_lt hmch]
    simp only [decide_eq_true_eq]
    rfl

/-- Witness of `C10_push_encoding`: a 100-byte EOP fragment at address `0x1000` for connection 5,
channel 9. -/
theorem C10_push_encoding_witness :
    (push_h2t_data example_decl (fresh_driver 4096) ⟨100, 3, 5, 9⟩ 0x1000).trace =
      [.fpga_write_64 0x108 0x100080000064, .fpga_write_64 0x110 0x900000005] := by
  rw [(C10_push_encoding example_decl (by decide) (fresh_driver 4096) ⟨100, 3, 5, 9⟩ ⟨100, 3, 9⟩
    0x1000 (by decide) (by decide) (by decide)).1]
  decide

/-! ## Sequences of pulls: SOP/EOP well-formedness -/

theorem t2h_poll_seq_nodata (m : PacketDecl) (s : Driver) (p : T2HPoll) (ps : List T2HPoll)
    (h : pulled_len p.howlong_where = 0) :
    (t2h_poll_seq m s (p :: ps)).1 = (t2h_poll_seq m s ps).1 ∧
    fragments (t2h_poll_seq m s (p :: ps)).2 = fragments (t2h_poll_seq m s ps).2 := by
  rw [t2h_poll_seq, get_t2h_data_nodata m s p.header p.payload _ _ h]
  dsimp only
  refine ⟨rfl, ?_⟩
  unfold fragments
  rw [List.filter_cons_of_neg]
  simp

theorem t2h_poll_seq_data (m : PacketDecl) (s : Driver) (p : T2HPoll) (ps : List T2HPoll)
    (h : pulled_len p.howlong_where ≠ 0) :
    ∃ hd : H2T_PACKET_HEADER,
      hd.DATA_LEN_BYTES = pulled_len p.howlong_where ∧
      hd.SOP_EOP = pulled_sop_eop m s.g_t2h_sop (pulled_last p.howlong_where) ∧
      (t2h_poll_seq m s (p :: ps)).1 =
        (t2h_poll_seq m
          { s with g_t2h_sop := if pulled_last p.howlong_where then 1 else 0 } ps).1 ∧
      (t2h_poll_seq m s (p :: ps)).2 =
        hd :: (t2h_poll_seq m
          { s with g_t2h_sop := if pulled_last p.howlong_where then 1 else 0 } ps).2 := by
  rw [t2h_poll_seq, get_t2h_data_data m s p.header p.payload _ _ h]
  exact ⟨_, rfl, rfl, rfl, rfl⟩

theorem fragments_cons_data (hd : H2T_PACKET_HEADER) (l : List H2T_PACKET_HEADER)
    (h : hd.DATA_LEN_BYTES ≠ 0) : fragments (hd :: l) = hd :: fragments l := by
  unfold fragments
  rw [List.filter_cons_of_pos]
  simpa using h

theorem sop_at_zero (m : PacketDecl) (hd : H2T_PACKET_HEADER) (l : List H2T_PACKET_HEADER) :
    sop_at m (hd :: l) 0 ↔ hd.sop m := by
  unfold sop_at
  simp

theorem eop_at_zero (m : PacketDecl) (hd : H2T_PACKET_HEADER) (l : List H2T_PACKET_HEADER) :
    eop_at m (hd :: l) 0 ↔ hd.eop m := by
  unfold eop_at
  simp

theorem sop_at_succ (m : PacketDecl) (hd : H2T_PACKET_HEADER) (l : List H2T_PACKET_HEADER)
    (k : Nat) : sop_at m (hd :: l) (k + 1) ↔ sop_at m l k := by
  unfold sop_at
  simp

theorem eop_at_succ (m : PacketDecl) (hd : H2T_PACKET_HEADER) (l : List H2T_PACKET_HEADER)
    (k : Nat) : eop_at m (hd :: l) (k + 1) ↔ eop_at m l k := by
  unfold eop_at
  simp

/-- Framing invariant of a sequence of pulls from a state whose flag is 0 or 1: a fragment
carries SOP iff it is the first one and the flag was 1, or the previous fragment carried EOP; the
final flag is 0 or 1, and it is 1 iff the last fragment carried EOP (the initial flag was 1 when
there is no fragment). -/
theorem t2h_poll_seq_framed (m : PacketDecl) (hm : m.wf) :
    ∀ (polls : List T2HPoll) (s : Driver), s.g_t2h_sop ≤ 1 →
      (∀ k, k < (fragments (t2h_poll_seq m s polls).2).length →
        (sop_at m (fragments (t2h_poll_seq m s polls).2) k ↔
          ((k = 0 ∧ s.g_t2h_sop = 1) ∨
            (0 < k ∧ eop_at m (fragments (t2h_poll_seq m s polls).2) (k - 1))))) ∧
      (t2h_poll_seq m s polls).1.g_t2h_sop ≤ 1 ∧
      ((t2h_poll_seq m s polls).1.g_t2h_sop = 1 ↔
        ((fragments (t2h_poll_seq m s polls).2 = [] ∧ s.g_t2h_sop = 1) ∨
          eop_at m (fragments (t2h_poll_seq m s polls).2)
            ((fragments (t2h_poll_seq m s polls).2).length - 1))) := by
  intro polls
  induction polls with
  | nil =>
    intro s hs
    refine ⟨?_, hs, ?_⟩
    · intro k hk
      simp [t2h_poll_seq, fragments] at hk
    · simp [t2h_poll_seq, fragments, eop_at]
  | cons p ps ih =>
    intro s hs
    by_cases hlen : pulled_len p.howlong_where = 0
    · obtain ⟨h1, h2⟩ := t2h_poll_seq_nodata m s p ps hlen
      rw [h1, h2]
      exact ih s hs
    · obtain ⟨hd, hdlen, hdse, h1, h2⟩ := t2h_poll_seq_data m s p ps hlen
      have hflag' : (if pulled_last p.howlong_where = true then 1 else 0) ≤ 1 := by
        split <;> omega
      obtain ⟨ihA, ihB, ihC⟩ :=
        ih { s with g_t2h_sop := if pulled_last p.howlong_where then 1 else 0 } hflag'
      have hsop : hd.sop m ↔ s.g_t2h_sop = 1 := by
        unfold H2T_PACKET_HEADER.sop
        rw [hdse, pulled_sop_eop_sop m hm]
        omega
      have heop : hd.eop m ↔ pulled_last p.howlong_where = true := by
        unfold H2T_PACKET_HEADER.eop
        rw [hdse, pulled_sop_eop_eop m hm]
      have hnext : (if pulled_last p.howlong_where = true then 1 else 0) = 1 ↔ hd.eop m := by
        rw [heop]
        split <;> simp_all
      rw [h1, h2, fragments_cons_data hd _ (by rw [hdlen]; exact hlen)]
      generalize hrest : fragments (t2h_poll_seq m
        { s with g_t2h_sop := if pulled_last p.howlong_where then 1 else 0 } ps).2 = rest
        at ihA ihB ihC
      generalize hfin : (t2h_poll_seq m
        { s with g_t2h_sop := if pulled_last p.howlong_where then 1 else 0 } ps).1 = fin
        at ihB ihC
      dsimp only at ihA ihC
      refine ⟨?_, ihB, ?_⟩
      · intro k hk
        cases k with
        | zero =>
          rw [sop_at_zero, hsop]
          simp
        | succ j =>
          have hj : j < rest.length := by simpa using hk
          rw [sop_at_succ, ihA j hj, hnext]
          cases j with
          | zero => simp [eop_at_zero]
          | succ i => simp [eop_at_succ]
      · rw [ihC, hnext]
        cases rest with
        | nil =>
          have hnil : ¬ eop_at m [] 0 := by simp [eop_at]
          simp [eop_at_zero, hnil]
        | cons r rs => simp [eop_at_succ]

/-- C9: SOP/EOP well-formedness.  Starting from a state whose T2H flag is 1, for every finite
sequence of polls processed by `get_t2h_data`, with `fr` the returned headers that report data
(zero-length polls left out): a fragment carries SOP iff it is the first fragment or the previous
fragment carried EOP; in every run of fragments `i .. j` that starts at the beginning or right
after an EOP and whose only EOP is at `j`, SOP is carried exactly by fragment `i` and EOP exactly
by fragment `j`; and the final flag is 0 or 1, and is 1 exactly when no fragment has arrived or
the most recent fragment carried EOP. -/
theorem C9_sop_eop_wellformed (m : PacketDecl) (hm : m.wf) (s : Driver)
    (hs : s.g_t2h_sop = 1) (polls : List T2HPoll) :
    (∀ k, k < (fragments (t2h_poll_seq m s polls).2).length →
      (sop_at m (fragments (t2h_poll_seq m s polls).2) k ↔
        (k = 0 ∨ (0 < k ∧ eop_at m (fragments (t2h_poll_seq m s polls).2) (k - 1))))) ∧
    (∀ i j, i ≤ j → j < (fragments (t2h_poll_seq m s polls).2).length →
      (i = 0 ∨ eop_at m (fragments (t2h_poll_seq m s polls).2) (i - 1)) →
      (∀ k, i ≤ k → k < j → ¬ eop_at m (fragments (t2h_poll_seq m s polls).2) k) →
      eop_at m (fragments (t2h_poll_seq m s polls).2) j →
      ∀ k, i ≤ k → k ≤ j →
        (sop_at m (fragments (t2h_poll_seq m s polls).2) k ↔ k = i) ∧
        (eop_at m (fragments (t2h_poll_seq m s polls).2) k ↔ k = j)) ∧
    (t2h_poll_seq m s polls).1.g_t2h_sop ≤ 1 ∧
    ((t2h_poll_seq m s polls).1.g_t2h_sop = 1 ↔
      (fragments (t2h_poll_seq m s polls).2 = [] ∨
        eop_at m (fragments (t2h_poll_seq m s polls).2)
          ((fragments (t2h_poll_seq m s polls).2).length - 1))) := by
  obtain ⟨hA, hB, hC⟩ := t2h_poll_seq_framed m hm polls s (by omega)
  generalize fragments (t2h_poll_seq m s polls).2 = fr at hA hC
  have hA' : ∀ k, k < fr.length → (sop_at m fr k ↔ (k = 0 ∨ (0 < k ∧ eop_at m fr (k - 1)))) := by
    intro k hk
    rw [hA k hk]
    simp [hs]
  refine ⟨hA', ?_, hB, ?_⟩
  · intro i j hij hj hstart hinner hlast k hik hkj
    have hk : k < fr.length := by omega
    constructor
    · rw [hA' k hk]
      constructor
      · rintro (h0 | ⟨hpos, hprev⟩)
        · omega
        · by_contra hne
          exact hinner (k - 1) (by omega) (by omega) hprev
      · intro hki
        subst hki
        rcases hstart with h0 | hprev
        · exact Or.inl h0
        · by_cases hk0 : k = 0
          · exact Or.inl hk0
          · exact Or.inr ⟨by omega, hprev⟩
    · constructor
      · intro he
        by_contra hne
        exact hinner k hik (by omega) he
      · intro hkj'
        subst hkj'
        exact hlast
  · rw [hC]
    simp [hs]

/-- Witness of `C9_sop_eop_wellformed`: a 100-byte fragment without the last bit, an empty poll
and a 32-byte last fragment, from the freshly initialised driver. -/
theorem C9_sop_eop_wellformed_witness :
    (fragments (t2h_poll_seq example_decl (fresh_driver 4096) example_polls).2).length = 2 ∧
    (t2h_poll_seq example_decl (fresh_driver 4096) example_polls).1.g_t2h_sop = 1 ∧
    sop_at example_decl (fragments (t2h_poll_seq example_decl (fresh_driver 4096)
      example_polls).2) 0 := by
  have h := C9_sop_eop_wellformed example_decl (by decide) (fresh_driver 4096) (by decide)
    example_polls
  have hlen : (fragments (t2h_poll_seq example_decl (fresh_driver 4096)
      example_polls).2).length = 2 := by decide
  refine ⟨hlen, by decide, ?_⟩
  exact (h.1 0 (by omega)).2 (Or.inl rfl)

/-! ## Framing round trip -/

/-- The how-long word `push_h2t_data` writes for a header and a payload address. -/
theorem howlong_words_push_seq (m : PacketDecl) :
    ∀ (frags : List (H2T_PACKET_HEADER × Nat)) (s : Driver),
      howlong_words (h2t_push_seq m s frags).2 =
        frags.map (fun f => howlong_where_word f.1.DATA_LEN_BYTES
          (decide (f.1.SOP_EOP &&& m.H2T_PACKET_HEADER_MASK_EOP ≠ 0)) f.2) := by
  intro frags
  induction frags with
  | nil =>
    intro s
    rfl
  | cons f fs ih =>
    intro s
    rw [h2t_push_seq]
    dsimp only
    unfold howlong_words
    rw [List.filterMap_append]
    have := ih (push_h2t_data m s f.1 f.2).state
    unfold howlong_words at this
    rw [this]
    rfl

theorem loopback_pull (m : PacketDecl) (hm : m.wf) :
    ∀ (frags : List (H2T_PACKET_HEADER × Nat)) (bufs : List (H2T_PACKET_HEADER × Nat × Nat))
      (s : Driver), bufs.length = frags.length → s.g_t2h_sop ≤ 1 → frags ≠ [] →
      (∀ f ∈ frags, f.1.inRange ∧ f.1.DATA_LEN_BYTES ≠ 0) →
      (∀ i f, frags[i]? = some f → (f.1.eop m ↔ i + 1 = frags.length)) →
      ((t2h_poll_seq m s (loopback_polls (frags.map (fun f =>
          howlong_where_word f.1.DATA_LEN_BYTES
            (decide (f.1.SOP_EOP &&& m.H2T_PACKET_HEADER_MASK_EOP ≠ 0)) f.2)) bufs)).2.map
          (fun h => h.DATA_LEN_BYTES) = frags.map (fun f => f.1.DATA_LEN_BYTES)) ∧
      (∀ i h, (t2h_poll_seq m s (loopback_polls (frags.map (fun f =>
          howlong_where_word f.1.DATA_LEN_BYTES
            (decide (f.1.SOP_EOP &&& m.H2T_PACKET_HEADER_MASK_EOP ≠ 0)) f.2)) bufs)).2[i]? =
            some h →
          (h.sop m ↔ (i = 0 ∧ s.g_t2h_sop = 1)) ∧ (h.eop m ↔ i + 1 = frags.length)) ∧
      (t2h_poll_seq m s (loopback_polls (frags.map (fun f =>
          howlong_where_word f.1.DATA_LEN_BYTES
            (decide (f.1.SOP_EOP &&& m.H2T_PACKET_HEADER_MASK_EOP ≠ 0)) f.2)) bufs)).1.g_t2h_sop
        = 1 := by
  intro frags
  induction frags with
  | nil =>
    intro bufs s _ _ hne
    exact absurd rfl hne
  | cons f t ih =>
    intro bufs s hlen hs _ hrange heop
    cases bufs with
    | nil => simp at hlen
    | cons b bs =>
      have hlen' : bs.length = t.length := by simpa using hlen
      obtain ⟨⟨hflen, _, _⟩, hfne⟩ := hrange f (List.mem_cons_self f t)
      have hw_len : pulled_len (howlong_where_word f.1.DATA_LEN_BYTES
          (decide (f.1.SOP_EOP &&& m.H2T_PACKET_HEADER_MASK_EOP ≠ 0)) f.2) =
          f.1.DATA_LEN_BYTES := pulled_len_word _ _ _ hflen
      have hw_last : pulled_last (howlong_where_word f.1.DATA_LEN_BYTES
          (decide (f.1.SOP_EOP &&& m.H2T_PACKET_HEADER_MASK_EOP ≠ 0)) f.2) =
          decide (f.1.SOP_EOP &&& m.H2T_PACKET_HEADER_MASK_EOP ≠ 0) :=
        pulled_last_word _ _ _ hflen
      have hf_eop : f.1.eop m ↔ t = [] := by
        rw [heop 0 f (by simp)]
        simp
      have hpolls : loopback_polls ((f :: t).map (fun f =>
          howlong_where_word f.1.DATA_LEN_BYTES
            (decide (f.1.SOP_EOP &&& m.H2T_PACKET_HEADER_MASK_EOP ≠ 0)) f.2)) (b :: bs) =
          { header := b.1, payload := b.2.1,
            howlong_where := howlong_where_word f.1.DATA_LEN_BYTES
              (decide (f.1.SOP_EOP &&& m.H2T_PACKET_HEADER_MASK_EOP ≠ 0)) f.2,
            connid_channelid := b.2.2 } ::
          loopback_polls (t.map (fun f =>
            howlong_where_word f.1.DATA_LEN_BYTES
              (decide (f.1.SOP_EOP &&& m.H2T_PACKET_HEADER_MASK_EOP ≠ 0)) f.2)) bs := rfl
      rw [hpolls]
      obtain ⟨hd, hdlen, hdse, h1, h2⟩ := t2h_poll_seq_data m s
        { header := b.1, payload := b.2.1,
          howlong_where := howlong_where_word f.1.DATA_LEN_BYTES
            (decide (f.1.SOP_EOP &&& m.H2T_PACKET_HEADER_MASK_EOP ≠ 0)) f.2,
          connid_channelid := b.2.2 }
        (loopback_polls (t.map (fun f =>
          howlong_where_word f.1.DATA_LEN_BYTES
            (decide (f.1.SOP_EOP &&& m.H2T_PACKET_HEADER_MASK_EOP ≠ 0)) f.2)) bs)
        (by dsimp only; rw [hw_len]; exact hfne)
      dsimp only at hdlen hdse h1 h2
      rw [hw_len] at hdlen
      rw [hw_last] at hdse h1 h2
      have hsop : hd.sop m ↔ s.g_t2h_sop = 1 := by
        unfold H2T_PACKET_HEADER.sop
        rw [hdse, pulled_sop_eop_sop m hm]
        omega
      have hdeop : hd.eop m ↔ t = [] := by
        unfold H2T_PACKET_HEADER.eop
        rw [hdse, pulled_sop_eop_eop m hm, ← hf_eop]
        unfold H2T_PACKET_HEADER.eop
        simp
      rw [h1, h2]
      by_cases ht : t = []
      · subst ht
        have hbs : bs = [] := by
          cases bs with
          | nil => rfl
          | cons _ _ => simp at hlen'
        subst hbs
        have hlast : decide (f.1.SOP_EOP &&& m.H2T_PACKET_HEADER_MASK_EOP ≠ 0) = true := by
          have := hf_eop.2 rfl
          unfold H2T_PACKET_HEADER.eop at this
          simpa using this
        refine ⟨?_, ?_, ?_⟩
        · simp [loopback_polls, t2h_poll_seq, hdlen]
        · intro i h hi
          cases i with
          | zero =>
            simp [loopback_polls, t2h_poll_seq] at hi
            subst hi
            rw [hsop, hdeop]
            simp
          | succ j => simp [loopback_polls, t2h_poll_seq] at hi
        · simp [loopback_polls, t2h_poll_seq, hlast]
      · have hnot : decide (f.1.SOP_EOP &&& m.H2T_PACKET_HEADER_MASK_EOP ≠ 0) = false := by
          have := mt hf_eop.1 ht
          unfold H2T_PACKET_HEADER.eop at this
          simpa using this
        rw [hnot]
        simp only [Bool.false_eq_true, if_false]
        obtain ⟨ihA, ihB, ihC⟩ := ih bs { s with g_t2h_sop := 0 } hlen' (by simp) ht
          (fun g hg => hrange g (List.mem_cons_of_mem f hg))
          (fun i g hg => by
            have := heop (i + 1) g (by simpa using hg)
            rw [this]
            simp)
        refine ⟨?_, ?_, ihC⟩
        · simp only [List.map_cons, hdlen, ihA]
        · intro i h hi
          cases i with
          | zero =>
            simp at hi
            subst hi
            rw [hsop, hdeop]
            simp [ht]
          | succ j =>
            rw [List.getElem?_cons_succ] at hi
            obtain ⟨hs', he'⟩ := ihB j h hi
            constructor
            · rw [hs']
              simp
            · rw [he']
              simp

/-- C8: framing round trip.  For every `k ≥ 1` and every list of `k` fragments whose headers are
in range with nonzero lengths summing to `L` and with EOP exactly on the last one: when the
fragments are pushed with `push_h2t_data` and the how-long words written are presented, in order,
to `get_t2h_data` starting from a state whose T2H flag is 1, the `k` headers pulled carry the same
lengths in the same order (summing to `L`), SOP exactly on the first, EOP exactly on the last, and
the flag ends at 1. -/
theorem C8_framing_round_trip (m : PacketDecl) (hm : m.wf) (s_push s_pull : Driver)
    (frags : List (H2T_PACKET_HEADER × Nat)) (bufs : List (H2T_PACKET_HEADER × Nat × Nat))
    (L : Nat) (hflag : s_pull.g_t2h_sop = 1) (hk : 1 ≤ frags.length)
    (hbufs : bufs.length = frags.length)
    (hrange : ∀ f ∈ frags, f.1.inRange ∧ f.1.DATA_LEN_BYTES ≠ 0)
    (hL : (frags.map (fun f => f.1.DATA_LEN_BYTES)).sum = L)
    (heop : ∀ i f, frags[i]? = some f → (f.1.eop m ↔ i + 1 = frags.length)) :
    (t2h_poll_seq m s_pull (loopback_polls
        (howlong_words (h2t_push_seq m s_push frags).2) bufs)).2.map
        (fun h => h.DATA_LEN_BYTES) = frags.map (fun f => f.1.DATA_LEN_BYTES) ∧
    ((t2h_poll_seq m s_pull (loopback_polls
        (howlong_words (h2t_push_seq m s_push frags).2) bufs)).2.map
        (fun h => h.DATA_LEN_BYTES)).sum = L ∧
    (t2h_poll_seq m s_pull (loopback_polls
        (howlong_words (h2t_push_seq m s_push frags).2) bufs)).2.length = frags.length ∧
    (∀ i h, (t2h_poll_seq m s_pull (loopback_polls
        (howlong_words (h2t_push_seq m s_push frags).2) bufs)).2[i]? = some h →
      (h.sop m ↔ i = 0) ∧ (h.eop m ↔ i + 1 = frags.length)) ∧
    (t2h_poll_seq m s_pull (loopback_polls
        (howlong_words (h2t_push_seq m s_push frags).2) bufs)).1.g_t2h_sop = 1 := by
  rw [howlong_words_push_seq]
  have hne : frags ≠ [] := by
    intro h
    rw [h] at hk
    simp at hk
  obtain ⟨hA, hB, hC⟩ := loopback_pull m hm frags bufs s_pull hbufs (by omega) hne hrange heop
  refine ⟨hA, by rw [hA]; exact hL, ?_, ?_, hC⟩
  · have := congrArg List.length hA
    simpa using this
  · intro i h hi
    obtain ⟨h1, h2⟩ := hB i h hi
    refine ⟨?_, h2⟩
    rw [h1]
    simp [hflag]

/-- Witness of `C8_framing_round_trip`: a 132-byte message pushed as fragments of 100 and 32 bytes
and pulled back on the freshly initialised driver. -/
theorem C8_framing_round_trip_witness :
    (t2h_poll_seq example_decl (fresh_driver 4096) (loopback_polls
      (howlong_words (h2t_push_seq example_decl (fresh_driver 4096) example_frags).2)
      example_bufs)).2.map (fun h => h.DATA_LEN_BYTES) = [100, 32] ∧
    (t2h_poll_seq example_decl (fresh_driver 4096) (loopback_polls
      (howlong_words (h2t_push_seq example_decl (fresh_driver 4096) example_frags).2)
      example_bufs)).1.g_t2h_sop = 1 := by
  have h := C8_framing_round_trip example_decl (by decide) (fresh_driver 4096) (fresh_driver 4096)
    example_frags example_bufs 132 (by decide) (by decide) (by decide) (by decide) (by decide)
    (by
      intro i f hi
      rcases i with _ | _ | i
      · simp [example_frags] at hi
        subst hi
        decide
      · simp [example_frags] at hi
        subst hi
        decide
      · simp [example_frags] at hi)
  exact ⟨h.1, h.2.2.2.2⟩

theorem and_two_of_testBit (x : Nat) (h : x.testBit 1 = true) : (x % 2 ^ 32) &&& 2 = 2 := by
  apply Nat.eq_of_testBit_eq
  intro i
  rw [Nat.testBit_and, Nat.testBit_mod_two_pow, show (2 : Nat) = 2 ^ 1 from rfl,
    Nat.testBit_two_pow]
  by_cases hi : 1 = i
  · subst hi
    simp [h]
  · simp [hi]

theorem set_loopback_mode_zero_written (rd : Nat) :
    ∃ w, last_write_32 ST_DBG_IP_CONFIG_RESET_AND_LOOPBACK (set_loopback_mode 0 rd) = some w ∧
      w % 2 ^ 32 &&& ST_DBG_IP_CONFIG_H2T_T2H_LOOPBACK_FIELD = 2 := by
  refine ⟨_, rfl, ?_⟩
  rw [Nat.mod_mod]
  apply and_two_of_testBit
  simp only [Nat.testBit_or]
  rw [show (bitnot32 ST_DBG_IP_CONFIG_MGMT_AND_RSP_RESET_FIELD).testBit 1 = true by decide]
  simp

theorem set_loopback_mode_one_written (rd : Nat) :
    ∃ w, last_write_32 ST_DBG_IP_CONFIG_RESET_AND_LOOPBACK (set_loopback_mode 1 rd) = some w ∧
      w % 2 ^ 32 &&& ST_DBG_IP_CONFIG_H2T_T2H_LOOPBACK_FIELD = 2 := by
  refine ⟨_, rfl, ?_⟩
  rw [Nat.mod_mod]
  apply and_two_of_testBit
  simp only [Nat.testBit_or]
  rw [show ST_DBG_IP_CONFIG_H2T_T2H_LOOPBACK_FIELD.testBit 1 = true by decide]
  simp

theorem get_loopback_mode_ret (w : Nat)
    (h : w % 2 ^ 32 &&& ST_DBG_IP_CONFIG_H2T_T2H_LOOPBACK_FIELD = 2) :
    (get_loopback_mode w).ret = 1 := by
  unfold get_loopback_mode
  dsimp only
  rw [h]
  rfl

theorem strncmp_eq_self (a : List Char) (n : Nat) : strncmp_eq a a n = true := by
  simp [strncmp_eq]

/-- C11 (code defect): over a register that reads back the value last written,
`get_loopback_mode()` returns 1 after `set_loopback_mode(0)` for every prior register value
`rd`, as it does after `set_loopback_mode(1)`; likewise `get_driver_param` on the loopback
parameter returns "1" after `set_driver_param` set it to "0".  From a register reading 0,
`set_loopback_mode(0)` writes `0xFFFFFFEF`. -/
theorem C11_loopback_zero_reads_one (c : ParamNames) (rd : Nat) :
    (∃ w, last_write_32 ST_DBG_IP_CONFIG_RESET_AND_LOOPBACK (set_loopback_mode 0 rd) = some w ∧
      (get_loopback_mode w).ret = 1) ∧
    (∃ w, last_write_32 ST_DBG_IP_CONFIG_RESET_AND_LOOPBACK (set_loopback_mode 1 rd) = some w ∧
      (get_loopback_mode w).ret = 1) ∧
    (∃ w, last_write_32 ST_DBG_IP_CONFIG_RESET_AND_LOOPBACK
        (set_driver_param c c.HW_LOOPBACK_PARAM ['0'] rd).trace = some w ∧
      (get_driver_param c c.HW_LOOPBACK_PARAM w).ret = some ['1']) ∧
    set_loopback_mode 0 0 =
      [.fpga_read_32 ST_DBG_IP_CONFIG_RESET_AND_LOOPBACK,
       .fpga_write_32 ST_DBG_IP_CONFIG_RESET_AND_LOOPBACK 0xFFFFFFEF] := by
  obtain ⟨w0, h0, b0⟩ := set_loopback_mode_zero_written rd
  obtain ⟨w1, h1, b1⟩ := set_loopback_mode_one_written rd
  refine ⟨⟨w0, h0, get_loopback_mode_ret w0 b0⟩, ⟨w1, h1, get_loopback_mode_ret w1 b1⟩,
    ⟨w0, ?_, ?_⟩, by decide⟩
  · unfold set_driver_param
    rw [strncmp_eq_self, if_pos rfl, if_neg (by decide)]
    exact h0
  · unfold get_driver_param
    rw [strncmp_eq_self, if_pos rfl]
    dsimp only
    rw [get_loopback_mode_ret w0 b0]
    rfl

/-- C12: for every 64-bit value `tv` read from the type register, `check_version_and_type`
returns 0 exactly when the low 32 bits of `tv` are `0x5244444D` and its high 32 bits are at
most 1, and returns -1 otherwise; in both cases `*version` is set to the high 32 bits, and the
register is read once. -/
theorem C12_check_version_and_type (tv : Nat) (h : tv < 2 ^ 64) :
    ((check_version_and_type tv).ret = 0 ↔ tv % 2 ^ 32 = 0x5244444D ∧ tv / 2 ^ 32 ≤ 1) ∧
    ((check_version_and_type tv).ret ≠ 0 → (check_version_and_type tv).ret = -1) ∧
    (check_version_and_type tv).version = tv / 2 ^ 32 ∧
    (check_version_and_type tv).trace = [.fpga_read_64 ST_DBG_IP_CONFIG_TYPE] := by
  have hv : ((tv % 2 ^ 64) >>> 32) % 2 ^ 32 = tv / 2 ^ 32 := by
    rw [Nat.shiftRight_eq_div_pow]
    omega
  have ht : tv % 2 ^ 64 % 2 ^ 32 = tv % 2 ^ 32 := by omega
  unfold check_version_and_type
  simp only [hv, ht, SUPPORTED_TYPE_SIGNATURE, SUPPORTED_VERSION]
  refine ⟨?_, ?_, trivial, trivial⟩
  · by_cases hc : tv % 2 ^ 32 ≠ 0x5244444D ∨ tv / 2 ^ 32 > 1
    · rw [if_pos hc]
      constructor
      · intro h0
        exact absurd h0 (by decide)
      · rintro ⟨h1, h2⟩
        rcases hc with hc | hc
        · exact absurd h1 hc
        · omega
    · rw [if_neg hc]
      constructor
      · intro _
        constructor
        · by_contra h1
          exact hc (Or.inl h1)
        · by_contra h2
          exact hc (Or.inr (by omega))
      · intro _
        rfl
  · intro hne
    by_cases hc : tv % 2 ^ 32 ≠ 0x5244444D ∨ tv / 2 ^ 32 > 1
    · rw [if_pos hc]
    · rw [if_neg hc] at hne
      exact absurd rfl hne

/-- C12 at the register value `0x1_5244444D`: signature matches, version 1, accepted. -/
theorem C12_check_version_and_type_witness :
    ((check_version_and_type 0x15244444D).ret = 0 ↔
      0x15244444D % 2 ^ 32 = 0x5244444D ∧ 0x15244444D / 2 ^ 32 ≤ 1) ∧
    ((check_version_and_type 0x15244444D).ret ≠ 0 → (check_version_and_type 0x15244444D).ret = -1) ∧
    (check_version_and_type 0x15244444D).version = 0x15244444D / 2 ^ 32 ∧
    (check_version_and_type 0x15244444D).trace = [.fpga_read_64 ST_DBG_IP_CONFIG_TYPE] :=
  C12_check_version_and_type 0x15244444D (by decide)

/-- C13: when the version and type check fails, `init_driver` returns
`INIT_ERROR_CODE_INCOMPATIBLE_IP` (-2); the driver state is the prior state with only
`g_mmio_handle` replaced, so the region layout, the slot counts and indices, both SOP flags and
both circular buffers are unchanged; the context is the prior context with only `mmio_handle`
replaced; and the only register access is the read of the type register, so nothing is
written. -/
theorem C13_init_incompatible (s : Driver) (context : intel_stream_debug_if_driver_context)
    (user_input_h2t_t2h_mem_size : Nat) (mmio_handle : Int)
    (type_version mem_depth desc_depth : Nat)
    (hfail : (check_version_and_type type_version).ret ≠ 0) :
    (init_driver s context user_input_h2t_t2h_mem_size mmio_handle
        type_version mem_depth desc_depth).ret = INIT_ERROR_CODE_INCOMPATIBLE_IP ∧
    INIT_ERROR_CODE_INCOMPATIBLE_IP = -2 ∧
    (init_driver s context user_input_h2t_t2h_mem_size mmio_handle
        type_version mem_depth desc_depth).state = { s with g_mmio_handle := mmio_handle } ∧
    (init_driver s context user_input_h2t_t2h_mem_size mmio_handle
        type_version mem_depth desc_depth).context =
      { context with mmio_handle := mmio_handle } ∧
    (init_driver s context user_input_h2t_t2h_mem_size mmio_handle
        type_version mem_depth desc_depth).trace = [.fpga_read_64 ST_DBG_IP_CONFIG_TYPE] := by
  unfold init_driver
  dsimp only
  rw [if_pos hfail]
  exact ⟨rfl, rfl, rfl, rfl, rfl⟩

/-- C13 on a device whose type register reads 0, from the driver's start state. -/
theorem C13_init_incompatible_witness :
    (check_version_and_type 0).ret ≠ 0 ∧
    (init_driver (Driver.start 0) blank_context 4096 7 0 0 0).ret =
      INIT_ERROR_CODE_INCOMPATIBLE_IP ∧
    INIT_ERROR_CODE_INCOMPATIBLE_IP = -2 ∧
    (init_driver (Driver.start 0) blank_context 4096 7 0 0 0).state =
      { Driver.start 0 with g_mmio_handle := 7 } ∧
    (init_driver (Driver.start 0) blank_context 4096 7 0 0 0).context =
      { blank_context with mmio_handle := 7 } ∧
    (init_driver (Driver.start 0) blank_context 4096 7 0 0 0).trace =
      [.fpga_read_64 ST_DBG_IP_CONFIG_TYPE] :=
  ⟨by decide, C13_init_incompatible (Driver.start 0) blank_context 4096 7 0 0 0 (by decide)⟩

theorem init_given_sizes_fields (s m : Nat) (hs : s < 2 ^ 32) (hm : m < 2 ^ 32) :
    init_st_dbg_ip_info_given_sizes s m =
      { ST_DBG_IP_CSR_BASE_ADDR := 0
        H2T_MEM_BASE_ADDR := if s > 2048 then s else 0x800
        H2T_MEM_SZ := s
        T2H_MEM_BASE_ADDR := if s > 2048 then (2 * s) % 2 ^ 32 else 0x1000
        T2H_MEM_SZ := s
        MGMT_MEM_BASE_ADDR := if s > 2048 then (3 * s) % 2 ^ 32 else 0x1800
        MGMT_MEM_SZ := m
        MGMT_RSP_MEM_BASE_ADDR := ((if s > 2048 then (3 * s) % 2 ^ 32 else 0x1800) + m) % 2 ^ 32
        MGMT_RSP_MEM_SZ := m } := by
  unfold init_st_dbg_ip_info_given_sizes
  simp only [Nat.mod_eq_of_lt hs, Nat.mod_eq_of_lt hm, ST_DBG_IF_BASE, JOP_MEM_SIZE_2K,
    H2T_MEM_BASE_2K, T2H_MEM_BASE_4K, MGMT_MEM_BASE_4K]
  have e2 : (2 * s) % 2 ^ 64 = 2 * s := by omega
  have e3 : (3 * s) % 2 ^ 64 = 3 * s := by omega
  have e4 : ∀ x, x < 2 ^ 33 → (x % 2 ^ 64) % 2 ^ 32 = x % 2 ^ 32 := by
    intro x hx
    omega
  rw [e2, e3]
  by_cases h : s > 2048
  · simp only [if_pos h]
    rw [e4 _ (by omega)]
  · simp only [if_neg h]
    rw [e4 _ (by omega)]

/-- C14, counterexample: for the H2T/T2H size `0x80000000` the T2H base is 0, not `2 * s`, and
the MGMT base is `0x80000000`, not `3 * s`. -/
theorem C14_counterexample :
    0x80000000 > 2048 ∧
    (init_st_dbg_ip_info_given_sizes 0x80000000 0).T2H_MEM_BASE_ADDR = 0 ∧
    (init_st_dbg_ip_info_given_sizes 0x80000000 0).T2H_MEM_BASE_ADDR ≠ 2 * 0x80000000 ∧
    (init_st_dbg_ip_info_given_sizes 0x80000000 0).MGMT_MEM_BASE_ADDR ≠ 3 * 0x80000000 := by
  decide

/-- C14, amended: for 32-bit sizes `s` and `m`, if `s > 2048` then H2T base = `s`, T2H base =
`2 * s` modulo `2 ^ 32` and MGMT base = `3 * s` modulo `2 ^ 32`; if `s ≤ 2048` the bases are
`0x800`, `0x1000` and `0x1800`; MGMT-RSP base = MGMT base + `m` modulo `2 ^ 32`.  When the
MGMT-RSP base computed without reduction is below `2 ^ 32`, no reduction takes place. -/
theorem C14_base_address_rule (s m : Nat) (hs : s < 2 ^ 32) (hm : m < 2 ^ 32) :
    (s > 2048 →
      (init_st_dbg_ip_info_given_sizes s m).H2T_MEM_BASE_ADDR = s ∧
      (init_st_dbg_ip_info_given_sizes s m).T2H_MEM_BASE_ADDR = (2 * s) % 2 ^ 32 ∧
      (init_st_dbg_ip_info_given_sizes s m).MGMT_MEM_BASE_ADDR = (3 * s) % 2 ^ 32) ∧
    (s ≤ 2048 →
      (init_st_dbg_ip_info_given_sizes s m).H2T_MEM_BASE_ADDR = 0x800 ∧
      (init_st_dbg_ip_info_given_sizes s m).T2H_MEM_BASE_ADDR = 0x1000 ∧
      (init_st_dbg_ip_info_given_sizes s m).MGMT_MEM_BASE_ADDR = 0x1800) ∧
    (init_st_dbg_ip_info_given_sizes s m).MGMT_RSP_MEM_BASE_ADDR =
      ((init_st_dbg_ip_info_given_sizes s m).MGMT_MEM_BASE_ADDR + m) % 2 ^ 32 ∧
    ((if s > 2048 then 3 * s else 0x1800) + m < 2 ^ 32 →
      (s > 2048 →
        (init_st_dbg_ip_info_given_sizes s m).T2H_MEM_BASE_ADDR = 2 * s ∧
        (init_st_dbg_ip_info_given_sizes s m).MGMT_MEM_BASE_ADDR = 3 * s) ∧
      (init_st_dbg_ip_info_given_sizes s m).MGMT_RSP_MEM_BASE_ADDR =
        (init_st_dbg_ip_info_given_sizes s m).MGMT_MEM_BASE_ADDR + m) := by
  rw [init_given_sizes_fields s m hs hm]
  dsimp only
  by_cases h : s > 2048
  · simp only [if_pos h]
    refine ⟨fun _ => ⟨trivial, trivial, trivial⟩, fun h2 => ?_, trivial, fun hfit => ?_⟩
    · omega
    · refine ⟨fun _ => ⟨?_, ?_⟩, ?_⟩ <;> omega
  · simp only [if_neg h]
    refine ⟨fun h2 => absurd h2 h, fun _ => ⟨trivial, trivial, trivial⟩, trivial, fun hfit => ?_⟩
    refine ⟨fun h2 => absurd h2 h, ?_⟩
    omega

/-- C14 at `s = 4096`, `m = 0`: H2T base `0x1000`, T2H base `0x2000`, each region 4096
bytes. -/
theorem C14_base_address_rule_witness :
    ((4096 > 2048 →
      (init_st_dbg_ip_info_given_sizes 4096 0).H2T_MEM_BASE_ADDR = 4096 ∧
      (init_st_dbg_ip_info_given_sizes 4096 0).T2H_MEM_BASE_ADDR = (2 * 4096) % 2 ^ 32 ∧
      (init_st_dbg_ip_info_given_sizes 4096 0).MGMT_MEM_BASE_ADDR = (3 * 4096) % 2 ^ 32) ∧
    (4096 ≤ 2048 →
      (init_st_dbg_ip_info_given_sizes 4096 0).H2T_MEM_BASE_ADDR = 0x800 ∧
      (init_st_dbg_ip_info_given_sizes 4096 0).T2H_MEM_BASE_ADDR = 0x1000 ∧
      (init_st_dbg_ip_info_given_sizes 4096 0).MGMT_MEM_BASE_ADDR = 0x1800) ∧
    (init_st_dbg_ip_info_given_sizes 4096 0).MGMT_RSP_MEM_BASE_ADDR =
      ((init_st_dbg_ip_info_given_sizes 4096 0).MGMT_MEM_BASE_ADDR + 0) % 2 ^ 32 ∧
    ((if 4096 > 2048 then 3 * 4096 else 0x1800) + 0 < 2 ^ 32 →
      (4096 > 2048 →
        (init_st_dbg_ip_info_given_sizes 4096 0).T2H_MEM_BASE_ADDR = 2 * 4096 ∧
        (init_st_dbg_ip_info_given_sizes 4096 0).MGMT_MEM_BASE_ADDR = 3 * 4096) ∧
      (init_st_dbg_ip_info_given_sizes 4096 0).MGMT_RSP_MEM_BASE_ADDR =
        (init_st_dbg_ip_info_given_sizes 4096 0).MGMT_MEM_BASE_ADDR + 0)) ∧
    (init_st_dbg_ip_info_given_sizes 4096 0).H2T_MEM_BASE_ADDR = 0x1000 ∧
    (init_st_dbg_ip_info_given_sizes 4096 0).T2H_MEM_BASE_ADDR = 0x2000 ∧
    (init_st_dbg_ip_info_given_sizes 4096 0).H2T_MEM_SZ = 4096 ∧
    (init_st_dbg_ip_info_given_sizes 4096 0).T2H_MEM_SZ = 4096 :=
  ⟨C14_base_address_rule 4096 0 (by decide) (by decide), by decide, by decide, by decide,
    by decide⟩

theorem init_driver_csr (s : Driver) (context : intel_stream_debug_if_driver_context)
    (user_input_h2t_t2h_mem_size : Nat) (mmio_handle : Int)
    (type_version mem_depth desc_depth : Nat)
    (hok : (check_version_and_type type_version).ret = 0)
    (hv : (check_version_and_type type_version).version > 0) :
    (init_driver s context user_input_h2t_t2h_mem_size mmio_handle
        type_version mem_depth desc_depth).state.g_std_dbg_ip_info =
      init_st_dbg_ip_info mem_depth ∧
    (init_driver s context user_input_h2t_t2h_mem_size mmio_handle
        type_version mem_depth desc_depth).context.std_dbg_ip_info =
      init_st_dbg_ip_info mem_depth ∧
    (init_driver s context user_input_h2t_t2h_mem_size mmio_handle
        type_version mem_depth desc_depth).trace =
      [.fpga_read_64 ST_DBG_IP_CONFIG_TYPE, .fpga_read_64 ST_DBG_IP_CONFIG_H2T_T2H_MEM,
       .fpga_read_64 ST_DBG_IP_CONFIG_H2T_T2H_DESC_DEPTH,
       .fpga_write_32 ST_DBG_IP_CONFIG_RESET_AND_LOOPBACK ST_DBG_IP_CONFIG_H2T_T2H_RESET_FIELD] := by
  unfold init_driver
  dsimp only
  rw [if_neg (not_not.mpr hok), if_pos hv]
  exact ⟨rfl, rfl, rfl⟩

theorem init_driver_user (s : Driver) (context : intel_stream_debug_if_driver_context)
    (user_input_h2t_t2h_mem_size : Nat) (mmio_handle : Int)
    (type_version mem_depth desc_depth : Nat)
    (hok : (check_version_and_type type_version).ret = 0)
    (hv : ¬ (check_version_and_type type_version).version > 0) :
    (init_driver s context user_input_h2t_t2h_mem_size mmio_handle
        type_version mem_depth desc_depth).state.g_std_dbg_ip_info =
      init_st_dbg_ip_info_given_sizes (user_input_h2t_t2h_mem_size % 2 ^ 32) 0 ∧
    (init_driver s context user_input_h2t_t2h_mem_size mmio_handle
        type_version mem_depth desc_depth).context.std_dbg_ip_info =
      init_st_dbg_ip_info_given_sizes (user_input_h2t_t2h_mem_size % 2 ^ 32) 0 ∧
    (init_driver s context user_input_h2t_t2h_mem_size mmio_handle
        type_version mem_depth desc_depth).trace =
      [.fpga_read_64 ST_DBG_IP_CONFIG_TYPE,
       .fpga_read_64 ST_DBG_IP_CONFIG_H2T_T2H_DESC_DEPTH,
       .fpga_write_32 ST_DBG_IP_CONFIG_RESET_AND_LOOPBACK ST_DBG_IP_CONFIG_H2T_T2H_RESET_FIELD] := by
  unfold init_driver
  dsimp only
  rw [if_neg (not_not.mpr hok), if_neg hv]
  exact ⟨rfl, rfl, rfl⟩

theorem check_version_value (tv : Nat) (h : tv < 2 ^ 64) :
    (check_version_and_type tv).version = tv / 2 ^ 32 := by
  unfold check_version_and_type
  dsimp only
  rw [Nat.shiftRight_eq_div_pow]
  omega

theorem init_st_dbg_ip_info_sizes (mem_depth : Nat) (h : mem_depth < 2 ^ 64) :
    init_st_dbg_ip_info mem_depth =
      init_st_dbg_ip_info_given_sizes (mem_depth % 2 ^ 32) (mem_depth / 2 ^ 32) := by
  unfold init_st_dbg_ip_info
  dsimp only
  have e : (2 : Nat) ^ 32 - 1 = 0xFFFFFFFF := by decide
  rw [← e, Nat.and_pow_two_sub_one_eq_mod, Nat.shiftRight_eq_div_pow, Nat.mod_eq_of_lt h,
    Nat.mod_mod]
  congr 1
  omega

/-- C15, counterexample: on a version-1 device whose memory-size register reads 0, with the
user-supplied size 4096, the H2T/T2H size is 0 and not the user-supplied size; on a version-0
device whose memory-size register would read `0x2000`, the size is the user-supplied 4096 and
the register is not read. -/
theorem C15_counterexample :
    (init_driver (Driver.start 0) blank_context 4096 1 0x15244444D 0 0).ret = 0 ∧
    (init_driver (Driver.start 0) blank_context 4096 1
      0x15244444D 0 0).state.g_std_dbg_ip_info.H2T_MEM_SZ = 0 ∧
    (init_driver (Driver.start 0) blank_context 4096 1 0x5244444D 0x2000 0).ret = 0 ∧
    (init_driver (Driver.start 0) blank_context 4096 1
      0x5244444D 0x2000 0).state.g_std_dbg_ip_info.H2T_MEM_SZ = 4096 ∧
    Call.fpga_read_64 ST_DBG_IP_CONFIG_H2T_T2H_MEM ∉
      (init_driver (Driver.start 0) blank_context 4096 1 0x5244444D 0x2000 0).trace := by
  decide

/-- C15, amended: on a compatible device, the size source is selected by the version in the high
32 bits of the type register `tv`.  If the version is above 0, the memory-size register is
read, and the H2T/T2H size is its low 32 bits and the management sizes its high 32 bits, also
when it reads 0; if the version is 0, the register is not read, the H2T/T2H size is the
user-supplied size and both management sizes are zero.  The context receives the same
layout. -/
theorem C15_size_source (s : Driver) (context : intel_stream_debug_if_driver_context)
    (user_input_h2t_t2h_mem_size : Nat) (mmio_handle : Int)
    (tv mem_depth desc_depth : Nat)
    (htv : tv < 2 ^ 64) (hmem : mem_depth < 2 ^ 64)
    (huser : user_input_h2t_t2h_mem_size < 2 ^ 32)
    (hok : (check_version_and_type tv).ret = 0) :
    (tv / 2 ^ 32 > 0 →
      (init_driver s context user_input_h2t_t2h_mem_size mmio_handle
        tv mem_depth desc_depth).state.g_std_dbg_ip_info =
          init_st_dbg_ip_info_given_sizes (mem_depth % 2 ^ 32) (mem_depth / 2 ^ 32) ∧
      (init_driver s context user_input_h2t_t2h_mem_size mmio_handle
        tv mem_depth desc_depth).state.g_std_dbg_ip_info.H2T_MEM_SZ = mem_depth % 2 ^ 32 ∧
      (init_driver s context user_input_h2t_t2h_mem_size mmio_handle
        tv mem_depth desc_depth).state.g_std_dbg_ip_info.MGMT_MEM_SZ = mem_depth / 2 ^ 32 ∧
      (init_driver s context user_input_h2t_t2h_mem_size mmio_handle
        tv mem_depth desc_depth).state.g_std_dbg_ip_info.MGMT_RSP_MEM_SZ = mem_depth / 2 ^ 32 ∧
      Call.fpga_read_64 ST_DBG_IP_CONFIG_H2T_T2H_MEM ∈
        (init_driver s context user_input_h2t_t2h_mem_size mmio_handle
          tv mem_depth desc_depth).trace) ∧
    (tv / 2 ^ 32 = 0 →
      (init_driver s context user_input_h2t_t2h_mem_size mmio_handle
        tv mem_depth desc_depth).state.g_std_dbg_ip_info =
          init_st_dbg_ip_info_given_sizes user_input_h2t_t2h_mem_size 0 ∧
      (init_driver s context user_input_h2t_t2h_mem_size mmio_handle
        tv mem_depth desc_depth).state.g_std_dbg_ip_info.H2T_MEM_SZ =
          user_input_h2t_t2h_mem_size ∧
      (init_driver s context user_input_h2t_t2h_mem_size mmio_handle
        tv mem_depth desc_depth).state.g_std_dbg_ip_info.MGMT_MEM_SZ = 0 ∧
      (init_driver s context user_input_h2t_t2h_mem_size mmio_handle
        tv mem_depth desc_depth).state.g_std_dbg_ip_info.MGMT_RSP_MEM_SZ = 0 ∧
      Call.fpga_read_64 ST_DBG_IP_CONFIG_H2T_T2H_MEM ∉
        (init_driver s context user_input_h2t_t2h_mem_size mmio_handle
          tv mem_depth desc_depth).trace) ∧
    (init_driver s context user_input_h2t_t2h_mem_size mmio_handle
        tv mem_depth desc_depth).context.std_dbg_ip_info =
      (init_driver s context user_input_h2t_t2h_mem_size mmio_handle
        tv mem_depth desc_depth).state.g_std_dbg_ip_info := by
  have hver := check_version_value tv htv
  have hlo : mem_depth % 2 ^ 32 < 2 ^ 32 := Nat.mod_lt _ (by decide)
  have hhi : mem_depth / 2 ^ 32 < 2 ^ 32 := by omega
  by_cases hv : (check_version_and_type tv).version > 0
  · obtain ⟨e1, e2, e3⟩ := init_driver_csr s context user_input_h2t_t2h_mem_size mmio_handle
      tv mem_depth desc_depth hok hv
    rw [e1, e2, e3, init_st_dbg_ip_info_sizes mem_depth hmem,
      init_given_sizes_fields _ _ hlo hhi]
    refine ⟨fun _ => ⟨rfl, rfl, rfl, rfl, by decide⟩, fun h0 => ?_, rfl⟩
    omega
  · obtain ⟨e1, e2, e3⟩ := init_driver_user s context user_input_h2t_t2h_mem_size mmio_handle
      tv mem_depth desc_depth hok hv
    rw [e1, e2, e3, Nat.mod_eq_of_lt huser,
      init_given_sizes_fields _ _ huser (by decide)]
    refine ⟨fun h0 => ?_, fun _ => ⟨rfl, rfl, rfl, rfl, by decide⟩, rfl⟩
    omega

/-- C15 on a version-1 device whose memory-size register reads `0x80_00001000`. -/
theorem C15_size_source_witness :
    (0x15244444D < 2 ^ 64 ∧ 0x8000001000 < 2 ^ 64 ∧ 4096 < 2 ^ 32 ∧
      (check_version_and_type 0x15244444D).ret = 0) ∧
    (init_driver (Driver.start 0) blank_context 4096 1
        0x15244444D 0x8000001000 0).state.g_std_dbg_ip_info.H2T_MEM_SZ = 4096 ∧
    (init_driver (Driver.start 0) blank_context 4096 1
        0x15244444D 0x8000001000 0).state.g_std_dbg_ip_info.MGMT_MEM_SZ = 128 :=
  ⟨⟨by decide, by decide, by decide, by decide⟩,
    ((C15_size_source (Driver.start 0) blank_context 4096 1 0x15244444D 0x8000001000 0
      (by decide) (by decide) (by decide) (by decide)).1 (by decide)).2.1,
    ((C15_size_source (Driver.start 0) blank_context 4096 1 0x15244444D 0x8000001000 0
      (by decide) (by decide) (by decide) (by decide)).1 (by decide)).2.2.1⟩

theorem ranges_overlap_iff (b1 s1 b2 s2 : Nat) :
    ranges_overlap b1 s1 b2 s2 ↔ ∃ x, (b1 ≤ x ∧ x < b1 + s1) ∧ (b2 ≤ x ∧ x < b2 + s2) := by
  unfold ranges_overlap
  constructor
  · intro h
    refine ⟨max b1 b2, ?_⟩
    omega
  · rintro ⟨x, h1, h2⟩
    omega

/-- C16, counterexample: for the input sizes (100, 0) the H2T region size is 100, which is not
a multiple of 8; for the input sizes (`0x80000000`, 8) the MGMT region starts at `0x80000000`,
inside the H2T region. -/
theorem C16_counterexample :
    ¬ (8 ∣ (init_st_dbg_ip_info_given_sizes 100 0).H2T_MEM_SZ) ∧
    ¬ (init_st_dbg_ip_info_given_sizes 0x80000000 8).regions_disjoint ∧
    ranges_overlap
      (init_st_dbg_ip_info_given_sizes 0x80000000 8).H2T_MEM_BASE_ADDR
      (init_st_dbg_ip_info_given_sizes 0x80000000 8).H2T_MEM_SZ
      (init_st_dbg_ip_info_given_sizes 0x80000000 8).MGMT_MEM_BASE_ADDR
      (init_st_dbg_ip_info_given_sizes 0x80000000 8).MGMT_MEM_SZ := by
  decide

/-- C16, amended: for 32-bit input sizes `s` and `m` whose layout ends within the 32-bit address
space (`3 * s + 2 * m ≤ 2 ^ 32` when `s > 2048`, `0x1800 + 2 * m ≤ 2 ^ 32` otherwise), the four
byte ranges of the computed layout are pairwise disjoint, every base is a 32-bit address and
every range ends within the address space; every region size is its input size, hence a
multiple of 8 when `s` and `m` are. -/
theorem C16_layout_invariant (s m : Nat) (hs : s < 2 ^ 32) (hm : m < 2 ^ 32)
    (hfit : (if s > 2048 then 3 * s else 0x1800) + 2 * m ≤ 2 ^ 32) :
    (init_st_dbg_ip_info_given_sizes s m).regions_disjoint ∧
    ((init_st_dbg_ip_info_given_sizes s m).H2T_MEM_BASE_ADDR < 2 ^ 32 ∧
      (init_st_dbg_ip_info_given_sizes s m).T2H_MEM_BASE_ADDR < 2 ^ 32 ∧
      (init_st_dbg_ip_info_given_sizes s m).MGMT_MEM_BASE_ADDR < 2 ^ 32 ∧
      (init_st_dbg_ip_info_given_sizes s m).MGMT_RSP_MEM_BASE_ADDR < 2 ^ 32) ∧
    ((init_st_dbg_ip_info_given_sizes s m).H2T_MEM_BASE_ADDR +
        (init_st_dbg_ip_info_given_sizes s m).H2T_MEM_SZ ≤ 2 ^ 32 ∧
      (init_st_dbg_ip_info_given_sizes s m).T2H_MEM_BASE_ADDR +
        (init_st_dbg_ip_info_given_sizes s m).T2H_MEM_SZ ≤ 2 ^ 32 ∧
      (init_st_dbg_ip_info_given_sizes s m).MGMT_MEM_BASE_ADDR +
        (init_st_dbg_ip_info_given_sizes s m).MGMT_MEM_SZ ≤ 2 ^ 32 ∧
      (init_st_dbg_ip_info_given_sizes s m).MGMT_RSP_MEM_BASE_ADDR +
        (init_st_dbg_ip_info_given_sizes s m).MGMT_RSP_MEM_SZ ≤ 2 ^ 32) ∧
    (8 ∣ s → 8 ∣ m →
      8 ∣ (init_st_dbg_ip_info_given_sizes s m).H2T_MEM_SZ ∧
      8 ∣ (init_st_dbg_ip_info_given_sizes s m).T2H_MEM_SZ ∧
      8 ∣ (init_st_dbg_ip_info_given_sizes s m).MGMT_MEM_SZ ∧
      8 ∣ (init_st_dbg_ip_info_given_sizes s m).MGMT_RSP_MEM_SZ) := by
  rw [init_given_sizes_fields s m hs hm]
  unfold ST_DBG_IP_DESIGN_INFO.regions_disjoint ranges_overlap
  dsimp only
  by_cases h : s > 2048
  · simp only [if_pos h] at hfit ⊢
    have h3 : 3 * s < 2 ^ 32 := by omega
    have e2 : (2 * s) % 2 ^ 32 = 2 * s := Nat.mod_eq_of_lt (by omega)
    have e3 : (3 * s) % 2 ^ 32 = 3 * s := Nat.mod_eq_of_lt h3
    have e4 : (3 * s + m) % 2 ^ 32 = 3 * s + m := Nat.mod_eq_of_lt (by omega)
    rw [e2, e3, e4]
    refine ⟨⟨?_, ?_, ?_, ?_, ?_, ?_⟩, ⟨?_, ?_, ?_, ?_⟩, ⟨?_, ?_, ?_, ?_⟩,
      fun h1 h2 => ⟨h1, h1, h2, h2⟩⟩ <;> omega
  · simp only [if_neg h] at hfit ⊢
    have e4 : (0x1800 + m) % 2 ^ 32 = 0x1800 + m := Nat.mod_eq_of_lt (by omega)
    rw [e4]
    refine ⟨⟨?_, ?_, ?_, ?_, ?_, ?_⟩, ⟨?_, ?_, ?_, ?_⟩, ⟨?_, ?_, ?_, ?_⟩,
      fun h1 h2 => ⟨h1, h1, h2, h2⟩⟩ <;> omega

/-- C16 at the sizes (4096, 128). -/
theorem C16_layout_invariant_witness :
    (4096 < 2 ^ 32 ∧ 128 < 2 ^ 32 ∧ (if 4096 > 2048 then 3 * 4096 else 0x1800) + 2 * 128 ≤ 2 ^ 32) ∧
    (init_st_dbg_ip_info_given_sizes 4096 128).regions_disjoint ∧
    (8 ∣ 4096 → 8 ∣ 128 →
      8 ∣ (init_st_dbg_ip_info_given_sizes 4096 128).H2T_MEM_SZ ∧
      8 ∣ (init_st_dbg_ip_info_given_sizes 4096 128).T2H_MEM_SZ ∧
      8 ∣ (init_st_dbg_ip_info_given_sizes 4096 128).MGMT_MEM_SZ ∧
      8 ∣ (init_st_dbg_ip_info_given_sizes 4096 128).MGMT_RSP_MEM_SZ) :=
  ⟨⟨by decide, by decide, by decide⟩,
    (C16_layout_invariant 4096 128 (by decide) (by decide) (by decide)).1,
    (C16_layout_invariant 4096 128 (by decide) (by decide) (by decide)).2.2.2⟩

/-- C17: for every pair of 32-bit input sizes `s` and `m`, the computed layout has
`T2H_MEM_SZ = H2T_MEM_SZ = s` and `MGMT_RSP_MEM_SZ = MGMT_MEM_SZ = m`. -/
theorem C17_sizes_equal (s m : Nat) (hs : s < 2 ^ 32) (hm : m < 2 ^ 32) :
    (init_st_dbg_ip_info_given_sizes s m).H2T_MEM_SZ = s ∧
    (init_st_dbg_ip_info_given_sizes s m).T2H_MEM_SZ = s ∧
    (init_st_dbg_ip_info_given_sizes s m).MGMT_MEM_SZ = m ∧
    (init_st_dbg_ip_info_given_sizes s m).MGMT_RSP_MEM_SZ = m := by
  rw [init_given_sizes_fields s m hs hm]
  exact ⟨rfl, rfl, rfl, rfl⟩

/-- C17 at the sizes (1000, 24). -/
theorem C17_sizes_equal_witness :
    (1000 < 2 ^ 32 ∧ 24 < 2 ^ 32) ∧
    (init_st_dbg_ip_info_given_sizes 1000 24).H2T_MEM_SZ = 1000 ∧
    (init_st_dbg_ip_info_given_sizes 1000 24).T2H_MEM_SZ = 1000 ∧
    (init_st_dbg_ip_info_given_sizes 1000 24).MGMT_MEM_SZ = 24 ∧
    (init_st_dbg_ip_info_given_sizes 1000 24).MGMT_RSP_MEM_SZ = 24 :=
  ⟨⟨by decide, by decide⟩, C17_sizes_equal 1000 24 (by decide) (by decide)⟩

theorem ALIGN_TO_eq (n : Nat) (h : n < 2 ^ 64) : ALIGN_TO n = n / 8 * 8 := by
  unfold ALIGN_TO ST_DBG_IP_BUFF_ALIGN_POW_2
  simp only [Nat.shiftLeft_eq, Nat.shiftRight_eq_div_pow]
  omega

theorem GET_ALIGNED_SZ_eq (n : Nat) (h : n ≤ 2 ^ 64 - 8) : GET_ALIGNED_SZ n = (n + 7) / 8 * 8 := by
  unfold GET_ALIGNED_SZ ALIGN_TO ST_DBG_IP_BUFF_ALIGN_POW_2
  simp only [Nat.shiftLeft_eq, Nat.shiftRight_eq_div_pow]
  omega

/-- C18, counterexample: for the `size_t` value `2 ^ 64 - 1` the sum wraps and
`GET_ALIGNED_SZ` gives 0, which is below the size. -/
theorem C18_counterexample :
    GET_ALIGNED_SZ (2 ^ 64 - 1) = 0 ∧ ¬ (2 ^ 64 - 1 ≤ GET_ALIGNED_SZ (2 ^ 64 - 1)) ∧
    GET_ALIGNED_SZ (2 ^ 64 - 1) ≠ (2 ^ 64 - 1 + 7) / 8 * 8 := by
  decide

/-- C18, amended: for every `size_t` value `n`, `ALIGN_TO(n)` is the largest multiple of 8 that
is at most `n`; and for `n ≤ 2 ^ 64 - 8`, `GET_ALIGNED_SZ(n)` equals `ceil(n / 8) * 8`: it is a
multiple of 8, at least `n` and below `n + 8`. -/
theorem C18_alignment_rounding (n : Nat) (hn : n < 2 ^ 64) :
    (8 ∣ ALIGN_TO n ∧ ALIGN_TO n ≤ n ∧ ∀ k, 8 ∣ k → k ≤ n → k ≤ ALIGN_TO n) ∧
    (n ≤ 2 ^ 64 - 8 →
      GET_ALIGNED_SZ n = (n + 7) / 8 * 8 ∧ 8 ∣ GET_ALIGNED_SZ n ∧ n ≤ GET_ALIGNED_SZ n ∧
      GET_ALIGNED_SZ n < n + 8) := by
  rw [ALIGN_TO_eq n hn]
  refine ⟨⟨?_, ?_, ?_⟩, fun h => ?_⟩
  · omega
  · omega
  · intro k hk hle
    omega
  · rw [GET_ALIGNED_SZ_eq n h]
    refine ⟨rfl, ?_, ?_, ?_⟩ <;> omega

/-- C18 at `n = 100`: the rounded size is 104 and `ALIGN_TO(100)` is 96. -/
theorem C18_alignment_rounding_witness :
    100 < 2 ^ 64 ∧ GET_ALIGNED_SZ 100 = 104 ∧ ALIGN_TO 100 = 96 ∧ ALIGN_TO 100 ≤ 100 :=
  ⟨by decide, ((C18_alignment_rounding 100 (by decide)).2 (by decide)).1, by decide,
    (C18_alignment_rounding 100 (by decide)).1.2.1⟩

theorem memcpy64_fpga2host_loop_spec (vals : Nat → Nat) :
    ∀ (n i : Nat) (fpga_buff : Int), fpga_buff + 8 * (n : Int) ≤ 2 ^ 31 - 1 →
      memcpy64_fpga2host_loop vals n i fpga_buff =
        some { host_buff := (List.range n).map (fun k => vals (i + k) % 2 ^ 64)
               trace := (List.range n).map (fun (k : Nat) => .fpga_read_64 (fpga_buff + 8 * (k : Int))) } := by
  intro n
  induction n with
  | zero =>
    intro i fpga_buff _
    rfl
  | succ n ih =>
    intro i fpga_buff h
    have h8 : fpga_buff + 8 ≤ 2 ^ 31 - 1 := by
      push_cast at h
      omega
    have hrec : fpga_buff + 8 + 8 * (n : Int) ≤ 2 ^ 31 - 1 := by
      push_cast at h
      omega
    unfold memcpy64_fpga2host_loop int32_add_8
    rw [if_pos h8]
    dsimp only
    rw [ih (i + 1) (fpga_buff + 8) hrec]
    dsimp only
    have f1 : (fun k => vals (i + 1 + k) % 2 ^ 64) =
        (fun k => vals (i + k) % 2 ^ 64) ∘ Nat.succ := by
      funext k
      show _ = vals (i + (k + 1)) % 2 ^ 64
      rw [show i + 1 + k = i + (k + 1) by omega]
    have f2 : (fun (k : Nat) => Access64.fpga_read_64 (fpga_buff + 8 + 8 * (k : Int))) =
        (fun (k : Nat) => Access64.fpga_read_64 (fpga_buff + 8 * (k : Int))) ∘ Nat.succ := by
      funext k
      show _ = Access64.fpga_read_64 (fpga_buff + 8 * ((k + 1 : Nat) : Int))
      rw [show fpga_buff + 8 + 8 * (k : Int) = fpga_buff + 8 * ((k + 1 : Nat) : Int) by
        push_cast; ring]
    rw [f1, f2, List.range_succ_eq_map, List.map_cons, List.map_cons, List.map_map,
      List.map_map]
    simp

theorem memcpy64_host2fpga_loop_spec (host_buff : Nat → Nat) :
    ∀ (n i : Nat) (fpga_buff : Int), fpga_buff + 8 * (n : Int) ≤ 2 ^ 31 - 1 →
      memcpy64_host2fpga_loop host_buff n i fpga_buff =
        some ((List.range n).map
          (fun (k : Nat) => .fpga_write_64 (fpga_buff + 8 * (k : Int)) (host_buff (i + k) % 2 ^ 64))) := by
  intro n
  induction n with
  | zero =>
    intro i fpga_buff _
    rfl
  | succ n ih =>
    intro i fpga_buff h
    have h8 : fpga_buff + 8 ≤ 2 ^ 31 - 1 := by
      push_cast at h
      omega
    have hrec : fpga_buff + 8 + 8 * (n : Int) ≤ 2 ^ 31 - 1 := by
      push_cast at h
      omega
    unfold memcpy64_host2fpga_loop int32_add_8
    rw [if_pos h8]
    dsimp only
    rw [ih (i + 1) (fpga_buff + 8) hrec]
    dsimp only
    have f2 : (fun (k : Nat) =>
          Access64.fpga_write_64 (fpga_buff + 8 + 8 * (k : Int)) (host_buff (i + 1 + k) % 2 ^ 64)) =
        (fun (k : Nat) =>
          Access64.fpga_write_64 (fpga_buff + 8 * (k : Int)) (host_buff (i + k) % 2 ^ 64)) ∘
            Nat.succ := by
      funext k
      show _ = Access64.fpga_write_64 (fpga_buff + 8 * ((k + 1 : Nat) : Int))
        (host_buff (i + (k + 1)) % 2 ^ 64)
      rw [show fpga_buff + 8 + 8 * (k : Int) = fpga_buff + 8 * ((k + 1 : Nat) : Int) by
        push_cast; ring, show i + 1 + k = i + (k + 1) by omega]
    rw [f2, List.range_succ_eq_map, List.map_cons, List.map_map]
    simp

/-- C19, counterexample: for `len = 2 ^ 64 - 1` the sum `len + 7` wraps and
`memcpy64_fpga2host` and `memcpy64_host2fpga` make no access, although `ceil(len / 8)` is
`2 ^ 61`. -/
theorem C19_counterexample :
    memcpy64_fpga2host 0 (fun _ => 0) (2 ^ 64 - 1) = some { host_buff := [], trace := [] } ∧
    memcpy64_host2fpga (fun _ => 0) 0 (2 ^ 64 - 1) = some [] ∧
    (2 ^ 64 - 1 + 7) / 8 = 2 ^ 61 := by
  decide

/-- C19, amended: for every `len ≤ 2 ^ 64 - 8` and every `fpga_buff` for which
`fpga_buff + 8 * ceil(len / 8)` does not overflow `int32_t`, `memcpy64_fpga2host` makes exactly
`ceil(len / 8)` 64-bit reads, the `i`-th at `fpga_buff + 8 * i` and stored into host word `i`,
in increasing order, and `memcpy64_host2fpga` makes exactly `ceil(len / 8)` 64-bit writes of
host word `i` to `fpga_buff + 8 * i`; for `len = 0` there is no access, and the bytes
transferred exceed `len` by at most 7. -/
theorem C19_memory_bridge (fpga_buff : Int) (vals host_buff : Nat → Nat) (len : Nat)
    (hlen : len ≤ 2 ^ 64 - 8)
    (hno : fpga_buff + 8 * (((len + 7) / 8 : Nat) : Int) ≤ 2 ^ 31 - 1) :
    memcpy64_fpga2host fpga_buff vals len =
      some { host_buff := (List.range ((len + 7) / 8)).map (fun i => vals i % 2 ^ 64)
             trace := (List.range ((len + 7) / 8)).map
               (fun (i : Nat) => .fpga_read_64 (fpga_buff + 8 * (i : Int))) } ∧
    memcpy64_host2fpga host_buff fpga_buff len =
      some ((List.range ((len + 7) / 8)).map
        (fun (i : Nat) => .fpga_write_64 (fpga_buff + 8 * (i : Int)) (host_buff i % 2 ^ 64))) ∧
    (len = 0 →
      memcpy64_fpga2host fpga_buff vals len = some { host_buff := [], trace := [] } ∧
      memcpy64_host2fpga host_buff fpga_buff len = some []) ∧
    len ≤ 8 * ((len + 7) / 8) ∧ 8 * ((len + 7) / 8) - len ≤ 7 := by
  have ht : ((len % 2 ^ 64 + 7) % 2 ^ 64) / 8 = (len + 7) / 8 := by omega
  have e1 := memcpy64_fpga2host_loop_spec vals ((len + 7) / 8) 0 fpga_buff hno
  have e2 := memcpy64_host2fpga_loop_spec host_buff ((len + 7) / 8) 0 fpga_buff hno
  simp only [Nat.zero_add] at e1 e2
  unfold memcpy64_fpga2host memcpy64_host2fpga
  dsimp only
  rw [ht, e1, e2]
  refine ⟨rfl, rfl, ?_, ?_, ?_⟩
  · intro h0
    subst h0
    exact ⟨rfl, rfl⟩
  · omega
  · omega

/-- C19 at `fpga_buff = 0x1000`, `len = 17`: three reads at `0x1000`, `0x1008`, `0x1010`. -/
theorem C19_memory_bridge_witness :
    ((17 : Nat) ≤ 2 ^ 64 - 8 ∧ (0x1000 : Int) + 8 * (((17 + 7) / 8 : Nat) : Int) ≤ 2 ^ 31 - 1) ∧
    memcpy64_fpga2host 0x1000 (fun i => 100 + i) 17 =
      some { host_buff := (List.range ((17 + 7) / 8)).map (fun i => (fun i => 100 + i) i % 2 ^ 64)
             trace := (List.range ((17 + 7) / 8)).map
               (fun (i : Nat) => .fpga_read_64 (0x1000 + 8 * (i : Int))) } ∧
    memcpy64_fpga2host 0x1000 (fun i => 100 + i) 17 =
      some { host_buff := [100, 101, 102]
             trace := [.fpga_read_64 0x1000, .fpga_read_64 0x1008, .fpga_read_64 0x1010] } :=
  ⟨⟨by decide, by decide⟩,
    (C19_memory_bridge 0x1000 (fun i => 100 + i) (fun i => i) 17 (by decide) (by decide)).1,
    by decide⟩

theorem to_ssize_t_eq (n : Nat) (h : n < 2 ^ 63) : to_ssize_t n = (n : Int) := by
  unfold to_ssize_t
  have e : n % 2 ^ 64 = n := Nat.mod_eq_of_lt (by omega)
  rw [e, if_pos h]

theorem to_size_t_ofNat (d : Nat) (h : d < 2 ^ 64) : to_size_t (d : Int) = d := by
  unfold to_size_t
  omega

theorem socket_recv_accumulate_loop_done (stream : Nat → Nat) (len : Nat) (outcomes : List Int)
    (pos off : Nat) (buff : Nat → Nat) :
    socket_recv_accumulate_loop stream len outcomes pos off 0 buff =
      some { ret := .OK, bytes_recvd := to_ssize_t len, buff := buff, calls := [] } := by
  cases outcomes with
  | nil => rfl
  | cons c rest => rfl

theorem socket_recv_accumulate_loop_step (stream : Nat → Nat) (len : Nat) (rest : List Int)
    (d pos off bytes_remaining : Nat) (buff : Nat → Nat)
    (hd : 1 ≤ d) (hle : d ≤ bytes_remaining) (hr : bytes_remaining < 2 ^ 64) :
    socket_recv_accumulate_loop stream len ((d : Int) :: rest) pos off bytes_remaining buff =
      (socket_recv_accumulate_loop stream len rest (pos + d) (off + d) (bytes_remaining - d)
        (recv_store stream pos off d buff)).map
        (fun r => { r with calls := (off, bytes_remaining) :: r.calls }) := by
  have h1 : bytes_remaining > 0 := by omega
  have h2 : ¬ ((d : Int) ≤ 0) := by omega
  have h3 : (bytes_remaining + 2 ^ 64 - to_size_t (d : Int)) % 2 ^ 64 = bytes_remaining - d := by
    rw [to_size_t_ofNat d (by omega)]
    omega
  rw [socket_recv_accumulate_loop, if_pos h1, if_neg h2, h3, Int.toNat_ofNat]
  cases socket_recv_accumulate_loop stream len rest (pos + d) (off + d) (bytes_remaining - d)
      (recv_store stream pos off d buff) with
  | none => rfl
  | some r => rfl

theorem socket_recv_accumulate_loop_spec (stream : Nat → Nat) (len : Nat) (rest : List Int)
    (hlen : len < 2 ^ 63) :
    ∀ (ds : List Nat) (off bytes_remaining : Nat) (buff : Nat → Nat),
      (∀ d ∈ ds, 1 ≤ d) → ds.sum = bytes_remaining → off + bytes_remaining = len →
      ∃ r, socket_recv_accumulate_loop stream len (ds.map Int.ofNat ++ rest)
          off off bytes_remaining buff = some r ∧
        r.ret = .OK ∧ r.bytes_recvd = (len : Int) ∧
        r.calls = expected_requests len ds off ∧
        ∀ i, r.buff i = if off ≤ i ∧ i < len then stream i else buff i := by
  intro ds
  induction ds with
  | nil =>
    intro off bytes_remaining buff _ hsum hoff
    have h0 : bytes_remaining = 0 := by
      rw [← hsum]
      rfl
    subst h0
    refine ⟨_, socket_recv_accumulate_loop_done stream len _ off off buff, rfl,
      to_ssize_t_eq len hlen, rfl, ?_⟩
    intro i
    have hn : ¬ (off ≤ i ∧ i < len) := by omega
    rw [if_neg hn]
  | cons d ds ih =>
    intro off bytes_remaining buff hpos hsum hoff
    have hd : 1 ≤ d := hpos d (List.mem_cons_self d ds)
    have hs : d + ds.sum = bytes_remaining := by
      rw [← hsum, List.sum_cons]
    obtain ⟨r, hr, hret, hrecvd, hcalls, hbuff⟩ :=
      ih (off + d) (bytes_remaining - d) (recv_store stream off off d buff)
        (fun x hx => hpos x (List.mem_cons_of_mem d hx)) (by omega) (by omega)
    refine ⟨{ r with calls := (off, bytes_remaining) :: r.calls }, ?_, hret, hrecvd, ?_, ?_⟩
    · rw [List.map_cons, List.cons_append]
      show socket_recv_accumulate_loop stream len ((d : Int) :: _) off off bytes_remaining buff = _
      rw [socket_recv_accumulate_loop_step stream len _ d off off bytes_remaining buff hd
        (by omega) (by omega), hr]
      rfl
    · show (off, bytes_remaining) :: r.calls = expected_requests len (d :: ds) off
      rw [hcalls, expected_requests, show len - off = bytes_remaining by omega]
    · intro i
      show r.buff i = _
      rw [hbuff i]
      unfold recv_store
      by_cases h1 : off + d ≤ i ∧ i < len
      · rw [if_pos h1, if_pos (by omega)]
      · rw [if_neg h1]
        by_cases h2 : off ≤ i ∧ i < off + d
        · rw [if_pos h2, if_pos (by omega), show off + (i - off) = i by omega]
        · rw [if_neg h2, if_neg (by omega)]

/-- C20, counterexample: for `len = 2 ^ 63`, delivered as `2 ^ 63 - 1` bytes and then 1 byte
(each delivery at least 1 and within the count requested), `socket_recv_accumulate` returns
`OK` and stores `len` converted to `ssize_t` through `bytes_recvd`: the value is `-2 ^ 63`,
not `len`. -/
theorem C20_counterexample :
    ((∀ d ∈ [2 ^ 63 - 1, 1], 1 ≤ d) ∧ [2 ^ 63 - 1, 1].sum = 2 ^ 63) ∧
    (socket_recv_accumulate (fun i => i) ([2 ^ 63 - 1, 1].map Int.ofNat) (fun _ => 0)
        (2 ^ 63)).map (fun r => (r.ret, r.bytes_recvd, r.calls)) =
      some (.OK, -(2 ^ 63), [(0, 2 ^ 63), (2 ^ 63 - 1, 1)]) ∧
    (-(2 ^ 63) : Int) ≠ ((2 ^ 63 : Nat) : Int) := by
  decide

/-- C20, amended: for every `len` below `2 ^ 63` and every sequence `ds` of delivery sizes, each
at least 1, that add up to `len`, `socket_recv_accumulate` on a socket whose `recv` calls return those
sizes (followed by any further results `rest`) returns `OK`, sets `*bytes_recvd = len`, leaves
`buff[0..len)` equal to the first `len` bytes of the stream in order and the bytes of the buffer
from `len` on untouched; every `recv` call asks for exactly the bytes still missing, at the byte
offset directly after those already received. -/
theorem C20_recv_accumulate_fragmented (stream buff : Nat → Nat) (ds : List Nat)
    (rest : List Int) (len : Nat)
    (hlen : len < 2 ^ 63) (hpos : ∀ d ∈ ds, 1 ≤ d) (hsum : ds.sum = len) :
    ∃ r, socket_recv_accumulate stream (ds.map Int.ofNat ++ rest) buff len = some r ∧
      r.ret = .OK ∧ r.bytes_recvd = (len : Int) ∧
      (∀ i, i < len → r.buff i = stream i) ∧
      (∀ i, len ≤ i → r.buff i = buff i) ∧
      r.calls = expected_requests len ds 0 := by
  have e : len % 2 ^ 64 = len := Nat.mod_eq_of_lt (by omega)
  obtain ⟨r, hr, hret, hrecvd, hcalls, hbuff⟩ :=
    socket_recv_accumulate_loop_spec stream len rest hlen ds 0 len buff hpos hsum (by omega)
  refine ⟨r, ?_, hret, hrecvd, ?_, ?_, hcalls⟩
  · unfold socket_recv_accumulate
    rw [e]
    exact hr
  · intro i hi
    rw [hbuff i, if_pos ⟨Nat.zero_le i, hi⟩]
  · intro i hi
    rw [hbuff i, if_neg (by omega)]

/-- C20 on a stream delivered as 3 + 1 + 2 bytes for `len = 6`. -/
theorem C20_recv_accumulate_fragmented_witness :
    (6 < 2 ^ 63 ∧ (∀ d ∈ [3, 1, 2], 1 ≤ d) ∧ [3, 1, 2].sum = 6) ∧
    ∃ r, socket_recv_accumulate (fun i => 10 + i) ([3, 1, 2].map Int.ofNat ++ [5])
        (fun _ => 0) 6 = some r ∧
      r.ret = .OK ∧ r.bytes_recvd = ((6 : Nat) : Int) ∧
      (∀ i, i < 6 → r.buff i = (fun i => 10 + i) i) ∧
      (∀ i, 6 ≤ i → r.buff i = (fun _ => 0) i) ∧
      r.calls = expected_requests 6 [3, 1, 2] 0 :=
  ⟨⟨by decide, by decide, by decide⟩,
    C20_recv_accumulate_fragmented (fun i => 10 + i) (fun _ => 0) [3, 1, 2] [5] 6
      (by decide) (by decide) (by decide)⟩

/-! ## Sockets: `socket_send_all` -/

theorem range_map_split {α : Type} (f : Nat → α) (a b : Nat) :
    (List.range (a + b)).map f = (List.range a).map f ++ (List.range b).map (fun j => f (a + j)) := by
  rw [List.range_add, List.map_append, List.map_map]
  rfl

theorem socket_send_all_loop_done (buff : Nat → Nat) (len : Nat) (outcomes : List Int) :
    socket_send_all_loop buff len outcomes 0 =
      some { ret := .OK, bytes_sent := to_ssize_t len, calls := [], accepted := [] } := by
  cases outcomes with
  | nil => rfl
  | cons c rest => rfl

theorem socket_send_all_loop_step (buff : Nat → Nat) (len : Nat) (rest : List Int)
    (d bytes_remaining : Nat)
    (hd : 1 ≤ d) (hle : d ≤ bytes_remaining) (hr : bytes_remaining ≤ len) (hlen : len < 2 ^ 64) :
    socket_send_all_loop buff len ((d : Int) :: rest) bytes_remaining =
      (socket_send_all_loop buff len rest (bytes_remaining - d)).map
        (fun r => { r with
                    calls := (len - bytes_remaining, bytes_remaining) :: r.calls
                    accepted :=
                      (List.range d).map (fun j => buff (len - bytes_remaining + j)) ++
                        r.accepted }) := by
  have h1 : bytes_remaining > 0 := by omega
  have h2 : ¬ ((d : Int) ≤ 0) := by omega
  have h3 : (bytes_remaining + 2 ^ 64 - to_size_t (d : Int)) % 2 ^ 64 = bytes_remaining - d := by
    rw [to_size_t_ofNat d (by omega)]
    omega
  have h4 : (len + 2 ^ 64 - bytes_remaining) % 2 ^ 64 = len - bytes_remaining := by omega
  rw [socket_send_all_loop, if_pos h1]
  dsimp only
  rw [if_neg h2, h3, h4, Int.toNat_ofNat]
  cases socket_send_all_loop buff len rest (bytes_remaining - d) with
  | none => rfl
  | some r => rfl

theorem socket_send_all_loop_spec (buff : Nat → Nat) (len : Nat) (rest : List Int)
    (hlen : len < 2 ^ 63) :
    ∀ (ds : List Nat) (bytes_remaining : Nat),
      (∀ d ∈ ds, 1 ≤ d) → ds.sum = bytes_remaining → bytes_remaining ≤ len →
      socket_send_all_loop buff len (ds.map Int.ofNat ++ rest) bytes_remaining =
        some { ret := .OK, bytes_sent := (len : Int)
               calls := expected_requests len ds (len - bytes_remaining)
               accepted :=
                 (List.range bytes_remaining).map (fun j => buff (len - bytes_remaining + j)) } := by
  intro ds
  induction ds with
  | nil =>
    intro bytes_remaining _ hsum _
    have h0 : bytes_remaining = 0 := by
      rw [← hsum]
      rfl
    subst h0
    rw [List.map_nil, List.nil_append, socket_send_all_loop_done, to_ssize_t_eq len hlen]
    rfl
  | cons d ds ih =>
    intro bytes_remaining hpos hsum hle
    have hd : 1 ≤ d := hpos d (List.mem_cons_self d ds)
    have hs : d + ds.sum = bytes_remaining := by
      rw [← hsum, List.sum_cons]
    have hrec := ih (bytes_remaining - d) (fun x hx => hpos x (List.mem_cons_of_mem d hx))
      (by omega) (by omega)
    rw [List.map_cons, List.cons_append]
    show socket_send_all_loop buff len ((d : Int) :: _) bytes_remaining = _
    rw [socket_send_all_loop_step buff len _ d bytes_remaining hd (by omega) hle (by omega),
      hrec]
    simp only [Option.map_some', Option.some.injEq, SendResult.mk.injEq, true_and]
    constructor
    · rw [expected_requests, show len - (len - bytes_remaining) = bytes_remaining by omega,
        show len - bytes_remaining + d = len - (bytes_remaining - d) by omega]
    · have key := range_map_split (fun j => buff (len - bytes_remaining + j)) d
        (bytes_remaining - d)
      rw [show d + (bytes_remaining - d) = bytes_remaining by omega] at key
      rw [key]
      congr 1
      apply List.map_congr_left
      intro j _
      show buff (len - (bytes_remaining - d) + j) = buff (len - bytes_remaining + (d + j))
      rw [show len - (bytes_remaining - d) + j = len - bytes_remaining + (d + j) by omega]

/-- C21, counterexample: for `len = 2 ^ 63`, with `send` results `2 ^ 63 - 1` and 1 (each at
least 1 and at most the bytes remaining), `socket_send_all` returns `OK` and stores `len`
converted to `ssize_t` through `bytes_sent`: the value is `-2 ^ 63`, not `len`. -/
theorem C21_counterexample :
    ((∀ d ∈ [2 ^ 63 - 1, 1], 1 ≤ d) ∧ [2 ^ 63 - 1, 1].sum = 2 ^ 63) ∧
    (socket_send_all (fun i => i) ([2 ^ 63 - 1, 1].map Int.ofNat) (2 ^ 63)).map
        (fun r => (r.ret, r.bytes_sent, r.calls)) =
      some (.OK, -(2 ^ 63), [(0, 2 ^ 63), (2 ^ 63 - 1, 1)]) ∧
    (-(2 ^ 63) : Int) ≠ ((2 ^ 63 : Nat) : Int) := by
  decide

/-- C21, amended: for every `len` below `2 ^ 63` and every sequence `ds` of `send` results, each
at least 1, that add up to `len` (so each is at most the bytes still remaining), `socket_send_all`
returns `OK` with `*bytes_sent = len`; each `send` call is offered `buff + (bytes already
accepted)` with the count of the bytes remaining, and the bytes accepted, in order, are
`buff[0..len)`.  For `len = 0` it returns `OK` without calling `send`, whatever `send` would
return. -/
theorem C21_send_all_completes (buff : Nat → Nat) (ds : List Nat) (rest : List Int) (len : Nat)
    (hlen : len < 2 ^ 63) (hpos : ∀ d ∈ ds, 1 ≤ d) (hsum : ds.sum = len) :
    socket_send_all buff (ds.map Int.ofNat ++ rest) len =
      some { ret := .OK, bytes_sent := (len : Int)
             calls := expected_requests len ds 0
             accepted := (List.range len).map buff } ∧
    ∀ outcomes, socket_send_all buff outcomes 0 =
      some { ret := .OK, bytes_sent := 0, calls := [], accepted := [] } := by
  have e : len % 2 ^ 64 = len := Nat.mod_eq_of_lt (by omega)
  constructor
  · unfold socket_send_all
    rw [e, socket_send_all_loop_spec buff len rest hlen ds len hpos hsum (Nat.le_refl len)]
    simp only [Nat.sub_self, Nat.zero_add]
  · intro outcomes
    unfold socket_send_all
    exact socket_send_all_loop_done buff 0 outcomes

/-- C21 on the sends 3 + 1 + 2 for `len = 6`. -/
theorem C21_send_all_completes_witness :
    (6 < 2 ^ 63 ∧ (∀ d ∈ [3, 1, 2], 1 ≤ d) ∧ [3, 1, 2].sum = 6) ∧
    socket_send_all (fun i => 10 + i) ([3, 1, 2].map Int.ofNat ++ [5]) 6 =
      some { ret := .OK, bytes_sent := ((6 : Nat) : Int)
             calls := expected_requests 6 [3, 1, 2] 0
             accepted := (List.range 6).map (fun i => 10 + i) } :=
  ⟨⟨by decide, by decide, by decide⟩,
    (C21_send_all_completes (fun i => 10 + i) [3, 1, 2] [5] 6
      (by decide) (by decide) (by decide)).1⟩

theorem memchr_zero_recv_store (stream buff : Nat → Nat) (pos off d : Nat) :
    memchr_zero (recv_store stream pos off d buff) off d = true ↔
      ∃ j, j < d ∧ stream (pos + j) = 0 := by
  unfold memchr_zero recv_store
  rw [List.any_eq_true]
  constructor
  · rintro ⟨j, hj, h0⟩
    rw [List.mem_range] at hj
    refine ⟨j, hj, ?_⟩
    rw [if_pos (by omega), show off + j - off = j by omega] at h0
    exact beq_iff_eq.mp h0
  · rintro ⟨j, hj, h0⟩
    refine ⟨j, List.mem_range.mpr hj, ?_⟩
    rw [if_pos (by omega), show off + j - off = j by omega]
    exact beq_iff_eq.mpr h0

theorem socket_recv_until_null_reached_loop_done (stream : Nat → Nat) (max_len : Nat)
    (outcomes : List Int) (pos off : Nat) (buff : Nat → Nat) :
    socket_recv_until_null_reached_loop stream max_len outcomes pos off 0 buff =
      some { ret := .FAILURE, bytes_recvd := to_ssize_t max_len, buff := buff, calls := [] } := by
  cases outcomes with
  | nil => rfl
  | cons c rest => rfl

theorem socket_recv_until_null_reached_loop_found (stream : Nat → Nat) (max_len : Nat)
    (rest : List Int) (d pos off bytes_remaining : Nat) (buff : Nat → Nat)
    (hd : 1 ≤ d) (hle : d ≤ bytes_remaining) (hr : bytes_remaining ≤ max_len)
    (hlen : max_len < 2 ^ 63)
    (hz : memchr_zero (recv_store stream pos off d buff) off d = true) :
    socket_recv_until_null_reached_loop stream max_len ((d : Int) :: rest) pos off
        bytes_remaining buff =
      some { ret := .OK, bytes_recvd := ((max_len - (bytes_remaining - d) : Nat) : Int)
             buff := recv_store stream pos off d buff
             calls := [(off, bytes_remaining)] } := by
  have h1 : bytes_remaining > 0 := by omega
  have h2 : ¬ ((d : Int) ≤ 0) := by omega
  have h3 : (bytes_remaining + 2 ^ 64 - to_size_t (d : Int)) % 2 ^ 64 = bytes_remaining - d := by
    rw [to_size_t_ofNat d (by omega)]
    omega
  have h4 : (max_len + 2 ^ 64 - (bytes_remaining - d)) % 2 ^ 64 =
      max_len - (bytes_remaining - d) := by omega
  rw [socket_recv_until_null_reached_loop, if_pos h1, if_neg h2]
  dsimp only
  rw [h3, h4, Int.toNat_ofNat, to_size_t_ofNat d (by omega), if_pos hz,
    to_ssize_t_eq _ (by omega)]

theorem socket_recv_until_null_reached_loop_step (stream : Nat → Nat) (max_len : Nat)
    (rest : List Int) (d pos off bytes_remaining : Nat) (buff : Nat → Nat)
    (hd : 1 ≤ d) (hle : d ≤ bytes_remaining) (hr : bytes_remaining < 2 ^ 64)
    (hz : memchr_zero (recv_store stream pos off d buff) off d = false) :
    socket_recv_until_null_reached_loop stream max_len ((d : Int) :: rest) pos off
        bytes_remaining buff =
      (socket_recv_until_null_reached_loop stream max_len rest (pos + d) (off + d)
        (bytes_remaining - d) (recv_store stream pos off d buff)).map
        (fun r => { r with calls := (off, bytes_remaining) :: r.calls }) := by
  have h1 : bytes_remaining > 0 := by omega
  have h2 : ¬ ((d : Int) ≤ 0) := by omega
  have h3 : (bytes_remaining + 2 ^ 64 - to_size_t (d : Int)) % 2 ^ 64 = bytes_remaining - d := by
    rw [to_size_t_ofNat d (by omega)]
    omega
  rw [socket_recv_until_null_reached_loop, if_pos h1, if_neg h2]
  dsimp only
  rw [h3, Int.toNat_ofNat, to_size_t_ofNat d (by omega), hz]
  cases socket_recv_until_null_reached_loop stream max_len rest (pos + d) (off + d)
      (bytes_remaining - d) (recv_store stream pos off d buff) with
  | none => rfl
  | some r => rfl

theorem recv_store_apply (stream buff : Nat → Nat) (off d lim : Nat) (i : Nat) :
    (if off + d ≤ i ∧ i < lim then stream i else recv_store stream off off d buff i) =
      if off ≤ i ∧ i < max (off + d) lim then stream i else buff i := by
  unfold recv_store
  by_cases h1 : off + d ≤ i ∧ i < lim
  · rw [if_pos h1, if_pos (by omega)]
  · rw [if_neg h1]
    by_cases h2 : off ≤ i ∧ i < off + d
    · rw [if_pos h2, if_pos (by omega), show off + (i - off) = i by omega]
    · rw [if_neg h2, if_neg (by omega)]

theorem socket_recv_until_null_reached_loop_spec (stream : Nat → Nat) (max_len p : Nat)
    (rest : List Int) (d : Nat) (hlen : max_len < 2 ^ 63)
    (hzero : stream p = 0) (hfirst : ∀ i, i < p → stream i ≠ 0) (hd : 1 ≤ d) :
    ∀ (ds : List Nat) (off bytes_remaining : Nat) (buff : Nat → Nat),
      (∀ x ∈ ds, 1 ≤ x) → off + bytes_remaining = max_len →
      off + ds.sum ≤ p → p < off + ds.sum + d → off + ds.sum + d ≤ max_len →
      ∃ r, socket_recv_until_null_reached_loop stream max_len
          (ds.map Int.ofNat ++ (d : Int) :: rest) off off bytes_remaining buff = some r ∧
        r.ret = .OK ∧ r.bytes_recvd = ((off + ds.sum + d : Nat) : Int) ∧
        r.calls = expected_requests max_len (ds ++ [d]) off ∧
        ∀ i, r.buff i = if off ≤ i ∧ i < off + ds.sum + d then stream i else buff i := by
  intro ds
  induction ds with
  | nil =>
    intro off bytes_remaining buff _ hoff hp1 hp2 hfit
    simp only [List.sum_nil, Nat.add_zero] at hp1 hp2 hfit ⊢
    have hz : memchr_zero (recv_store stream off off d buff) off d = true := by
      rw [memchr_zero_recv_store]
      refine ⟨p - off, by omega, ?_⟩
      rw [show off + (p - off) = p by omega]
      exact hzero
    refine ⟨_, socket_recv_until_null_reached_loop_found stream max_len rest d off off
      bytes_remaining buff hd (by omega) (by omega) hlen hz, rfl, ?_, ?_, ?_⟩
    · show ((max_len - (bytes_remaining - d) : Nat) : Int) = ((off + d : Nat) : Int)
      rw [show max_len - (bytes_remaining - d) = off + d by omega]
    · show [(off, bytes_remaining)] = expected_requests max_len ([] ++ [d]) off
      rw [List.nil_append, expected_requests, expected_requests,
        show max_len - off = bytes_remaining by omega]
    · intro i
      show recv_store stream off off d buff i = _
      unfold recv_store
      by_cases h2 : off ≤ i ∧ i < off + d
      · rw [if_pos h2, if_pos h2, show off + (i - off) = i by omega]
      · rw [if_neg h2, if_neg h2]
  | cons x ds ih =>
    intro off bytes_remaining buff hpos hoff hp1 hp2 hfit
    have hx : 1 ≤ x := hpos x (List.mem_cons_self x ds)
    rw [List.sum_cons] at hp1 hp2 hfit
    have hz : memchr_zero (recv_store stream off off x buff) off x = false := by
      rw [Bool.eq_false_iff]
      intro hcon
      rw [memchr_zero_recv_store] at hcon
      obtain ⟨j, hj, h0⟩ := hcon
      exact hfirst (off + j) (by omega) h0
    obtain ⟨r, hr, hret, hrecvd, hcalls, hbuff⟩ :=
      ih (off + x) (bytes_remaining - x) (recv_store stream off off x buff)
        (fun y hy => hpos y (List.mem_cons_of_mem x hy)) (by omega) (by omega) (by omega)
        (by omega)
    refine ⟨{ r with calls := (off, bytes_remaining) :: r.calls }, ?_, hret, ?_, ?_, ?_⟩
    · rw [List.map_cons, List.cons_append]
      show socket_recv_until_null_reached_loop stream max_len ((x : Int) :: _) off off
        bytes_remaining buff = _
      rw [socket_recv_until_null_reached_loop_step stream max_len _ x off off bytes_remaining
        buff hx (by omega) (by omega) hz, hr]
      rfl
    · show r.bytes_recvd = _
      rw [hrecvd, List.sum_cons, show off + x + ds.sum + d = off + (x + ds.sum) + d by omega]
    · show (off, bytes_remaining) :: r.calls = expected_requests max_len (x :: ds ++ [d]) off
      rw [hcalls, List.cons_append, expected_requests,
        show max_len - off = bytes_remaining by omega]
    · intro i
      show r.buff i = _
      rw [hbuff i, List.sum_cons]
      have := recv_store_apply stream buff off x (off + x + ds.sum + d) i
      rw [show max (off + x) (off + x + ds.sum + d) = off + (x + ds.sum) + d by omega] at this
      exact this

theorem socket_recv_until_null_reached_loop_bound (stream : Nat → Nat) (max_len : Nat)
    (rest : List Int) (hlen : max_len < 2 ^ 63)
    (hno : ∀ i, i < max_len → stream i ≠ 0) :
    ∀ (ds : List Nat) (off bytes_remaining : Nat) (buff : Nat → Nat),
      (∀ x ∈ ds, 1 ≤ x) → ds.sum = bytes_remaining → off + bytes_remaining = max_len →
      ∃ r, socket_recv_until_null_reached_loop stream max_len (ds.map Int.ofNat ++ rest)
          off off bytes_remaining buff = some r ∧
        r.ret = .FAILURE ∧ r.bytes_recvd = (max_len : Int) ∧
        r.calls = expected_requests max_len ds off ∧
        ∀ i, r.buff i = if off ≤ i ∧ i < max_len then stream i else buff i := by
  intro ds
  induction ds with
  | nil =>
    intro off bytes_remaining buff _ hsum hoff
    have h0 : bytes_remaining = 0 := by
      rw [← hsum]
      rfl
    subst h0
    refine ⟨_, socket_recv_until_null_reached_loop_done stream max_len _ off off buff, rfl,
      to_ssize_t_eq max_len hlen, rfl, ?_⟩
    intro i
    have hn : ¬ (off ≤ i ∧ i < max_len) := by omega
    rw [if_neg hn]
  | cons x ds ih =>
    intro off bytes_remaining buff hpos hsum hoff
    have hx : 1 ≤ x := hpos x (List.mem_cons_self x ds)
    rw [List.sum_cons] at hsum
    have hz : memchr_zero (recv_store stream off off x buff) off x = false := by
      rw [Bool.eq_false_iff]
      intro hcon
      rw [memchr_zero_recv_store] at hcon
      obtain ⟨j, hj, h0⟩ := hcon
      exact hno (off + j) (by omega) h0
    obtain ⟨r, hr, hret, hrecvd, hcalls, hbuff⟩ :=
      ih (off + x) (bytes_remaining - x) (recv_store stream off off x buff)
        (fun y hy => hpos y (List.mem_cons_of_mem x hy)) (by omega) (by omega)
    refine ⟨{ r with calls := (off, bytes_remaining) :: r.calls }, ?_, hret, hrecvd, ?_, ?_⟩
    · rw [List.map_cons, List.cons_append]
      show socket_recv_until_null_reached_loop stream max_len ((x : Int) :: _) off off
        bytes_remaining buff = _
      rw [socket_recv_until_null_reached_loop_step stream max_len _ x off off bytes_remaining
        buff hx (by omega) (by omega) hz, hr]
      rfl
    · show (off, bytes_remaining) :: r.calls = expected_requests max_len (x :: ds) off
      rw [hcalls, expected_requests, show max_len - off = bytes_remaining by omega]
    · intro i
      show r.buff i = _
      rw [hbuff i]
      have := recv_store_apply stream buff off x max_len i
      rw [show max (off + x) max_len = max_len by omega] at this
      exact this

/-- C23, counterexample: on a stream whose first zero byte is at position 2, delivered in one
piece of 5 bytes with `max_len = 10`, `socket_recv_until_null_reached` returns `OK` and reports
`*bytes_recvd = 5`, not 3. -/
theorem C23_counterexample :
    (socket_recv_until_null_reached (fun i => if i = 2 then 0 else 7) [5]
      (fun _ => 1) 10).map (fun r => (r.ret, r.bytes_recvd, r.calls)) =
        some (.OK, 5, [(0, 10)]) ∧
    (fun i => if i = 2 then 0 else 7) 2 = 0 ∧
    ∀ i, i < 2 → (fun i => if i = 2 then 0 else 7) i ≠ 0 := by
  decide

/-- C23, amended: for every stream whose first zero byte is at position `p < max_len`
(`max_len < 2 ^ 63`) and every delivery in pieces of size at least 1 within the count requested,
of which the pieces `ds` end at or before `p` and the next piece `d` contains position `p`,
`socket_recv_until_null_reached` returns `OK` and reports in `*bytes_recvd` the bytes consumed
up to the end of the piece that contains the zero byte.  That count is at least `p + 1` and at
most `max_len`, and it is `p + 1` exactly when that piece ends at the zero byte.  The buffer
holds the bytes consumed, in order. -/
theorem C23_delimiter_success (stream buff : Nat → Nat) (ds : List Nat) (d : Nat)
    (rest : List Int) (max_len p : Nat)
    (hlen : max_len < 2 ^ 63) (hzero : stream p = 0) (hfirst : ∀ i, i < p → stream i ≠ 0)
    (hpos : ∀ x ∈ ds, 1 ≤ x) (hbefore : ds.sum ≤ p) (hin : p < ds.sum + d)
    (hfit : ds.sum + d ≤ max_len) :
    ∃ r, socket_recv_until_null_reached stream (ds.map Int.ofNat ++ (d : Int) :: rest)
        buff max_len = some r ∧
      r.ret = .OK ∧ r.bytes_recvd = ((ds.sum + d : Nat) : Int) ∧
      p + 1 ≤ ds.sum + d ∧ ds.sum + d ≤ max_len ∧
      (ds.sum + d = p + 1 → r.bytes_recvd = ((p + 1 : Nat) : Int)) ∧
      (∀ i, i < ds.sum + d → r.buff i = stream i) ∧
      r.calls = expected_requests max_len (ds ++ [d]) 0 := by
  have e : max_len % 2 ^ 64 = max_len := Nat.mod_eq_of_lt (by omega)
  obtain ⟨r, hr, hret, hrecvd, hcalls, hbuff⟩ :=
    socket_recv_until_null_reached_loop_spec stream max_len p rest d hlen hzero hfirst
      (by omega) ds 0 max_len buff hpos (by omega) (by omega) (by omega) (by omega)
  rw [Nat.zero_add] at hrecvd
  refine ⟨r, ?_, hret, hrecvd, by omega, hfit, ?_, ?_, hcalls⟩
  · unfold socket_recv_until_null_reached
    rw [e]
    exact hr
  · intro h
    rw [hrecvd, h]
  · intro i hi
    rw [hbuff i, if_pos ⟨Nat.zero_le i, by omega⟩]

/-- C23 on a stream with its first zero byte at position 2, delivered as 1 + 2 bytes. -/
theorem C23_delimiter_success_witness :
    ((10 < 2 ^ 63 ∧ (fun i => if i = 2 then 0 else 7) 2 = 0 ∧
      (∀ i, i < 2 → (fun i => if i = 2 then 0 else 7) i ≠ 0)) ∧
     ((∀ x ∈ [1], 1 ≤ x) ∧ [1].sum ≤ 2 ∧ 2 < [1].sum + 2 ∧ [1].sum + 2 ≤ 10)) ∧
    ∃ r, socket_recv_until_null_reached (fun i => if i = 2 then 0 else 7)
        ([1].map Int.ofNat ++ ((2 : Nat) : Int) :: []) (fun _ => 1) 10 = some r ∧
      r.ret = .OK ∧ r.bytes_recvd = (([1].sum + 2 : Nat) : Int) ∧
      2 + 1 ≤ [1].sum + 2 ∧ [1].sum + 2 ≤ 10 ∧
      ([1].sum + 2 = 2 + 1 → r.bytes_recvd = ((2 + 1 : Nat) : Int)) ∧
      (∀ i, i < [1].sum + 2 → r.buff i = (fun i => if i = 2 then 0 else 7) i) ∧
      r.calls = expected_requests 10 ([1] ++ [2]) 0 :=
  ⟨⟨⟨by decide, by decide, by decide⟩, ⟨by decide, by decide, by decide, by decide⟩⟩,
    C23_delimiter_success (fun i => if i = 2 then 0 else 7) (fun _ => 1) [1] 2 [] 10 2
      (by decide) (by decide) (by decide) (by decide) (by decide) (by decide) (by decide)⟩

theorem socket_recv_until_null_reached_two_deliveries (stream buff : Nat → Nat)
    (max_len d1 d2 : Nat) (h1 : 1 ≤ d1) (h2 : 1 ≤ d2) (hsum : d1 + d2 = max_len)
    (hlen : max_len < 2 ^ 64) (hno : ∀ i, i < max_len → stream i ≠ 0) :
    (socket_recv_until_null_reached stream [(d1 : Int), (d2 : Int)] buff max_len).map
        (fun r => (r.ret, r.bytes_recvd, r.calls)) =
      some (.FAILURE, to_ssize_t max_len, [(0, max_len), (d1, d2)]) := by
  have e : max_len % 2 ^ 64 = max_len := Nat.mod_eq_of_lt hlen
  have hz1 : memchr_zero (recv_store stream 0 0 d1 buff) 0 d1 = false := by
    rw [Bool.eq_false_iff]
    intro h
    obtain ⟨j, hj, h0⟩ := (memchr_zero_recv_store stream buff 0 0 d1).mp h
    exact hno (0 + j) (by omega) h0
  have hz2 : memchr_zero
      (recv_store stream (0 + d1) (0 + d1) d2 (recv_store stream 0 0 d1 buff)) (0 + d1) d2 =
        false := by
    rw [Bool.eq_false_iff]
    intro h
    obtain ⟨j, hj, h0⟩ := (memchr_zero_recv_store stream _ (0 + d1) (0 + d1) d2).mp h
    exact hno (0 + d1 + j) (by omega) h0
  have e1 : max_len - d1 = d2 := by omega
  unfold socket_recv_until_null_reached
  rw [e, socket_recv_until_null_reached_loop_step stream max_len _ d1 0 0 max_len buff h1
      (by omega) hlen hz1, e1,
    socket_recv_until_null_reached_loop_step stream max_len _ d2 (0 + d1) (0 + d1) d2 _ h2
      (Nat.le_refl d2) (by omega) hz2, Nat.sub_self,
    socket_recv_until_null_reached_loop_done]
  simp

/-- C24, counterexample: for `max_len = 2 ^ 63` and a stream without a zero byte, delivered as
`2 ^ 63 - 1` bytes and then 1 byte without receive errors, `socket_recv_until_null_reached`
returns `FAILURE` after consuming `max_len` bytes and stores `max_len` converted to `ssize_t`
through `bytes_recvd`: the value is `-2 ^ 63`, not `max_len`. -/
theorem C24_counterexample :
    (socket_recv_until_null_reached (fun _ => 1) [((2 ^ 63 - 1 : Nat) : Int), ((1 : Nat) : Int)]
        (fun _ => 0) (2 ^ 63)).map (fun r => (r.ret, r.bytes_recvd, r.calls)) =
      some (.FAILURE, -(2 ^ 63), [(0, 2 ^ 63), (2 ^ 63 - 1, 1)]) ∧
    (-(2 ^ 63) : Int) ≠ ((2 ^ 63 : Nat) : Int) := by
  refine ⟨?_, by decide⟩
  rw [socket_recv_until_null_reached_two_deliveries (fun _ => 1) (fun _ => 0) (2 ^ 63)
    (2 ^ 63 - 1) 1 (by decide) (by decide) (by decide) (by decide)
    (fun _ _ => Nat.one_ne_zero)]
  decide

/-- C24, amended: for every `max_len` below `2 ^ 63`, every stream with no zero byte among its
first `max_len` bytes and every delivery of those bytes in pieces `ds` of size at least 1,
`socket_recv_until_null_reached` returns `FAILURE` after consuming exactly `max_len` bytes and
sets `*bytes_recvd = max_len`; every `recv` call asks for the bytes remaining within `max_len`,
never more; and for `max_len = 0` it fails without calling `recv`, whatever `recv` would
return. -/
theorem C24_delimiter_bound (stream buff : Nat → Nat) (ds : List Nat) (rest : List Int)
    (max_len : Nat)
    (hlen : max_len < 2 ^ 63) (hno : ∀ i, i < max_len → stream i ≠ 0)
    (hpos : ∀ x ∈ ds, 1 ≤ x) (hsum : ds.sum = max_len) :
    (∃ r, socket_recv_until_null_reached stream (ds.map Int.ofNat ++ rest) buff max_len =
        some r ∧
      r.ret = .FAILURE ∧ r.bytes_recvd = (max_len : Int) ∧
      (∀ i, i < max_len → r.buff i = stream i) ∧
      r.calls = expected_requests max_len ds 0 ∧
      (∀ c ∈ r.calls, c.1 + c.2 = max_len)) ∧
    ∀ outcomes, (socket_recv_until_null_reached stream outcomes buff 0).map
      (fun r => (r.ret, r.bytes_recvd, r.calls)) = some (.FAILURE, 0, []) := by
  have e : max_len % 2 ^ 64 = max_len := Nat.mod_eq_of_lt (by omega)
  obtain ⟨r, hr, hret, hrecvd, hcalls, hbuff⟩ :=
    socket_recv_until_null_reached_loop_bound stream max_len rest hlen hno ds 0 max_len buff
      hpos hsum (by omega)
  have hreq : ∀ (l : List Nat) (off : Nat), off + l.sum = max_len →
      ∀ c ∈ expected_requests max_len l off, c.1 + c.2 = max_len := by
    intro l
    induction l with
    | nil =>
      intro off _ c hc
      simp [expected_requests] at hc
    | cons x l ih =>
      intro off hoff c hc
      rw [List.sum_cons] at hoff
      rw [expected_requests, List.mem_cons] at hc
      rcases hc with hc | hc
      · subst hc
        show off + (max_len - off) = max_len
        omega
      · exact ih (off + x) (by omega) c hc
  refine ⟨⟨r, ?_, hret, hrecvd, ?_, hcalls, ?_⟩, ?_⟩
  · unfold socket_recv_until_null_reached
    rw [e]
    exact hr
  · intro i hi
    rw [hbuff i, if_pos ⟨Nat.zero_le i, hi⟩]
  · rw [hcalls]
    exact hreq ds 0 (by omega)
  · intro outcomes
    unfold socket_recv_until_null_reached
    rw [show 0 % 2 ^ 64 = 0 from rfl, socket_recv_until_null_reached_loop_done]
    rfl

/-- C24 on a stream without zero bytes delivered as 1 + 2 + 1 bytes for `max_len = 4`. -/
theorem C24_delimiter_bound_witness :
    (4 < 2 ^ 63 ∧ (∀ i, i < 4 → (fun _ => 7) i ≠ 0) ∧ (∀ x ∈ [1, 2, 1], 1 ≤ x) ∧
      [1, 2, 1].sum = 4) ∧
    ∃ r, socket_recv_until_null_reached (fun _ => 7) ([1, 2, 1].map Int.ofNat ++ [9])
        (fun _ => 1) 4 = some r ∧
      r.ret = .FAILURE ∧ r.bytes_recvd = ((4 : Nat) : Int) ∧
      (∀ i, i < 4 → r.buff i = (fun _ => 7) i) ∧
      r.calls = expected_requests 4 [1, 2, 1] 0 ∧
      (∀ c ∈ r.calls, c.1 + c.2 = 4) :=
  ⟨⟨by decide, by decide, by decide, by decide⟩,
    (C24_delimiter_bound (fun _ => 7) (fun _ => 1) [1, 2, 1] [9] 4
      (by decide) (by decide) (by decide) (by decide)).1⟩

/-! ## Sockets: receive into device memory -/

/-- C25 (code defect): when the first `recv` returns 0 (or -1), `socket_recv_accumulate` returns
`FAILURE`, and `socket_recv_accumulate_h2t_or_mgmt_data` then writes nothing to device memory
but returns `OK`, for every stream, scratch buffer and device address.  When the receive
succeeds (9 bytes delivered as 8 + 1) it returns `OK` after `ceil(9 / 8) = 2` 64-bit writes. -/
theorem C25_receive_failure_returns_ok (stream scratch : Nat → Nat) (rest : List Int)
    (buff : Nat) :
    (socket_recv_accumulate stream (0 :: rest) scratch 8).map (fun r => r.ret) =
      some .FAILURE ∧
    (socket_recv_accumulate_h2t_or_mgmt_data stream (0 :: rest) scratch buff 8).map
      (fun r => (r.ret, r.bytes_recvd, r.calls, r.device)) = some (.OK, 0, [(0, 8)], []) ∧
    (socket_recv_accumulate_h2t_or_mgmt_data stream (-1 :: rest) scratch buff 8).map
      (fun r => (r.ret, r.bytes_recvd, r.calls, r.device)) = some (.OK, -1, [(0, 8)], []) ∧
    (socket_recv_accumulate_h2t_or_mgmt_data (fun i => i + 1) [8, 1] (fun _ => 0) 0x1000 9).map
      (fun r => (r.ret, r.bytes_recvd, r.calls, r.device)) =
        some (.OK, 9, [(0, 9), (8, 1)],
          [.fpga_write_64 0x1000 0x0807060504030201, .fpga_write_64 0x1008 9]) := by
  refine ⟨rfl, rfl, rfl, ?_⟩
  decide

/-! ## Reset and driver parameters -/

theorem and_one_of_testBit (x : Nat) (h : x.testBit 0 = true) : (x % 2 ^ 32) &&& 1 = 1 := by
  apply Nat.eq_of_testBit_eq
  intro i
  rw [Nat.testBit_and, Nat.testBit_mod_two_pow, show (1 : Nat) = 2 ^ 0 from rfl,
    Nat.testBit_two_pow]
  by_cases hi : 0 = i
  · subst hi
    simp [h]
  · simp [hi]

theorem set_loopback_mode_reset_bit (val : Int) (rd : Nat) :
    ∃ w, last_write_32 ST_DBG_IP_CONFIG_RESET_AND_LOOPBACK (set_loopback_mode val rd) = some w ∧
      w &&& ST_DBG_IP_CONFIG_H2T_T2H_RESET_FIELD = 1 := by
  have h1 : ST_DBG_IP_CONFIG_H2T_T2H_RESET_FIELD.testBit 0 = true := by decide
  by_cases hv : val = 1
  · refine ⟨_, by rw [set_loopback_mode, if_pos hv]; rfl, ?_⟩
    apply and_one_of_testBit
    simp only [Nat.testBit_or]
    rw [h1]
    simp
  · refine ⟨_, by rw [set_loopback_mode, if_neg hv]; rfl, ?_⟩
    apply and_one_of_testBit
    simp only [Nat.testBit_or]
    rw [h1]
    simp

theorem init_driver_ok_state (s : Driver) (context : intel_stream_debug_if_driver_context)
    (user_input_h2t_t2h_mem_size : Nat) (mmio_handle : Int)
    (type_version mem_depth desc_depth : Nat)
    (hok : (check_version_and_type type_version).ret = 0) :
    (init_driver s context user_input_h2t_t2h_mem_size mmio_handle
        type_version mem_depth desc_depth).ret = 0 ∧
    (init_driver s context user_input_h2t_t2h_mem_size mmio_handle
        type_version mem_depth desc_depth).state.g_h2t_descriptor_slots_available =
      ((desc_depth % 2 ^ 64) &&& 0xFFFFFFFF) % 2 ^ 16 ∧
    (init_driver s context user_input_h2t_t2h_mem_size mmio_handle
        type_version mem_depth desc_depth).state.g_mgmt_descriptor_slots_available =
      ((desc_depth % 2 ^ 64) >>> 32) % 2 ^ 16 ∧
    (init_driver s context user_input_h2t_t2h_mem_size mmio_handle
        type_version mem_depth desc_depth).state.g_h2t_descriptor_write_idx = 0 ∧
    (init_driver s context user_input_h2t_t2h_mem_size mmio_handle
        type_version mem_depth desc_depth).state.g_h2t_descriptor_read_idx = 0 ∧
    (init_driver s context user_input_h2t_t2h_mem_size mmio_handle
        type_version mem_depth desc_depth).state.g_mgmt_descriptor_write_idx = 0 ∧
    (init_driver s context user_input_h2t_t2h_mem_size mmio_handle
        type_version mem_depth desc_depth).state.g_mgmt_descriptor_read_idx = 0 ∧
    (init_driver s context user_input_h2t_t2h_mem_size mmio_handle
        type_version mem_depth desc_depth).state.g_t2h_sop = 1 ∧
    (init_driver s context user_input_h2t_t2h_mem_size mmio_handle
        type_version mem_depth desc_depth).state.g_mgmt_rsp_sop = 1 ∧
    (init_driver s context user_input_h2t_t2h_mem_size mmio_handle
        type_version mem_depth desc_depth).state.g_h2t_rx_cbuff =
      cbuff_init
        (init_driver s context user_input_h2t_t2h_mem_size mmio_handle
          type_version mem_depth desc_depth).state.g_std_dbg_ip_info.H2T_MEM_BASE_ADDR
        (init_driver s context user_input_h2t_t2h_mem_size mmio_handle
          type_version mem_depth desc_depth).state.g_std_dbg_ip_info.H2T_MEM_SZ ∧
    (init_driver s context user_input_h2t_t2h_mem_size mmio_handle
        type_version mem_depth desc_depth).state.g_mgmt_rx_cbuff =
      cbuff_init
        (init_driver s context user_input_h2t_t2h_mem_size mmio_handle
          type_version mem_depth desc_depth).state.g_std_dbg_ip_info.MGMT_MEM_BASE_ADDR
        (init_driver s context user_input_h2t_t2h_mem_size mmio_handle
          type_version mem_depth desc_depth).state.g_std_dbg_ip_info.MGMT_MEM_SZ ∧
    (init_driver s context user_input_h2t_t2h_mem_size mmio_handle
        type_version mem_depth desc_depth).state.g_h2t_descriptor_chain =
      s.g_h2t_descriptor_chain ∧
    (init_driver s context user_input_h2t_t2h_mem_size mmio_handle
        type_version mem_depth desc_depth).state.g_mgmt_descriptor_chain =
      s.g_mgmt_descriptor_chain := by
  unfold init_driver
  dsimp only
  rw [if_neg (not_not.mpr hok)]
  by_cases hv : (check_version_and_type type_version).version > 0
  · rw [if_pos hv]
    exact ⟨rfl, rfl, rfl, rfl, rfl, rfl, rfl, rfl, rfl, rfl, rfl, rfl, rfl⟩
  · rw [if_neg hv]
    exact ⟨rfl, rfl, rfl, rfl, rfl, rfl, rfl, rfl, rfl, rfl, rfl, rfl, rfl⟩

/-- C26, counterexample: from the driver state after one reserved and pushed 100-byte transfer,
`assert_h2t_t2h_reset()` and `set_loopback_mode` (for 1 and for 0) write the reset bit and
leave the per-channel state as it was: the write index is 1 and 3992 of the 4096 bytes are
available. -/
theorem C26_counterexample :
    (assert_h2t_t2h_reset scenario_100_pushed).trace =
      [.fpga_write_32 ST_DBG_IP_CONFIG_RESET_AND_LOOPBACK 1] ∧
    ¬ (assert_h2t_t2h_reset scenario_100_pushed).state.channels_reset ∧
    ¬ (set_loopback_mode_step scenario_100_pushed 1 0).state.channels_reset ∧
    ¬ (set_loopback_mode_step scenario_100_pushed 0 0).state.channels_reset ∧
    (assert_h2t_t2h_reset scenario_100_pushed).state.g_h2t_descriptor_write_idx = 1 ∧
    (assert_h2t_t2h_reset scenario_100_pushed).state.g_h2t_descriptor_slots_available = 127 ∧
    (assert_h2t_t2h_reset scenario_100_pushed).state.g_h2t_rx_cbuff.space_available = 3992 ∧
    (assert_h2t_t2h_reset scenario_100_pushed).state.g_h2t_rx_cbuff.capacity = 4096 := by
  decide

/-- C26, amended: a successful `init_driver` asserts the H2T/T2H reset bit and leaves the
per-channel state reset: both circular buffers re-initialised to full capacity, the descriptor
read and write indices at 0, the slot counts reloaded from the descriptor-depth register and
both SOP flags at 1.  `assert_h2t_t2h_reset` and `set_loopback_mode` (for either value) write
the register with the reset bit set and leave the driver state unchanged. -/
theorem C26_reset_state (s : Driver) (context : intel_stream_debug_if_driver_context)
    (user_input_h2t_t2h_mem_size : Nat) (mmio_handle : Int)
    (type_version mem_depth desc_depth : Nat) (val : Int) (rd : Nat)
    (hok : (check_version_and_type type_version).ret = 0) :
    ((init_driver s context user_input_h2t_t2h_mem_size mmio_handle
        type_version mem_depth desc_depth).state.channels_reset ∧
      (init_driver s context user_input_h2t_t2h_mem_size mmio_handle
        type_version mem_depth desc_depth).state.g_h2t_descriptor_slots_available =
          ((desc_depth % 2 ^ 64) &&& 0xFFFFFFFF) % 2 ^ 16 ∧
      (init_driver s context user_input_h2t_t2h_mem_size mmio_handle
        type_version mem_depth desc_depth).state.g_mgmt_descriptor_slots_available =
          ((desc_depth % 2 ^ 64) >>> 32) % 2 ^ 16 ∧
      Call.fpga_write_32 ST_DBG_IP_CONFIG_RESET_AND_LOOPBACK ST_DBG_IP_CONFIG_H2T_T2H_RESET_FIELD ∈
        (init_driver s context user_input_h2t_t2h_mem_size mmio_handle
          type_version mem_depth desc_depth).trace) ∧
    ((assert_h2t_t2h_reset s).state = s ∧
      (assert_h2t_t2h_reset s).trace =
        [.fpga_write_32 ST_DBG_IP_CONFIG_RESET_AND_LOOPBACK ST_DBG_IP_CONFIG_H2T_T2H_RESET_FIELD]) ∧
    ((set_loopback_mode_step s val rd).state = s ∧
      ∃ w, last_write_32 ST_DBG_IP_CONFIG_RESET_AND_LOOPBACK
          (set_loopback_mode_step s val rd).trace = some w ∧
        w &&& ST_DBG_IP_CONFIG_H2T_T2H_RESET_FIELD = 1) := by
  obtain ⟨_, h1, h2, h3, h4, h5, h6, h7, h8, h9, h10, _, _⟩ :=
    init_driver_ok_state s context user_input_h2t_t2h_mem_size mmio_handle
      type_version mem_depth desc_depth hok
  refine ⟨⟨?_, h1, h2, ?_⟩, ⟨rfl, rfl⟩, ⟨rfl, set_loopback_mode_reset_bit val rd⟩⟩
  · unfold Driver.channels_reset
    rw [h9, h10]
    exact ⟨rfl, rfl, rfl, rfl, h3, h4, h5, h6, h7, h8⟩
  · by_cases hv : (check_version_and_type type_version).version > 0
    · rw [(init_driver_csr s context user_input_h2t_t2h_mem_size mmio_handle
        type_version mem_depth desc_depth hok hv).2.2]
      decide
    · rw [(init_driver_user s context user_input_h2t_t2h_mem_size mmio_handle
        type_version mem_depth desc_depth hok hv).2.2]
      decide

/-- C26 on a version-0 device with descriptor depth 128 for both channels, from the driver
state after one pushed transfer. -/
theorem C26_reset_state_witness :
    (check_version_and_type 0x5244444D).ret = 0 ∧
    (init_driver scenario_100_pushed blank_context 4096 1
      0x5244444D 0 (128 + 128 * 2 ^ 32)).state.channels_reset ∧
    (assert_h2t_t2h_reset scenario_100_pushed).state = scenario_100_pushed :=
  ⟨by decide,
    (C26_reset_state scenario_100_pushed blank_context 4096 1 0x5244444D 0 (128 + 128 * 2 ^ 32)
      1 0 (by decide)).1.1,
    (C26_reset_state scenario_100_pushed blank_context 4096 1 0x5244444D 0 (128 + 128 * 2 ^ 32)
      1 0 (by decide)).2.1.1⟩

/-- C27, counterexample: `set_driver_param` returns 0 for every parameter name and value, so it
never reports an error; for instance for the name "BOGUS", which is neither of the supported
names. -/
theorem C27_counterexample :
    (strncmp_eq "BOGUS".toList example_names.HW_LOOPBACK_PARAM
        example_names.HW_LOOPBACK_PARAM_LEN = false ∧
      strncmp_eq "BOGUS".toList example_names.MGMT_SUPPORT_PARAM
        example_names.MGMT_SUPPORT_PARAM_LEN = false ∧
      (set_driver_param example_names "BOGUS".toList "1".toList 0).ret = 0) ∧
    ∀ (c : ParamNames) (param val : List Char) (rd : Nat),
      (set_driver_param c param val rd).ret = 0 := by
  refine ⟨by decide, ?_⟩
  intro c param val rd
  unfold set_driver_param
  split
  · split <;> rfl
  · rfl

/-- C27, amended: for every parameter name that is neither the loopback nor the
management-support name, `set_driver_param` returns 0, as it does on success, and makes no
register access, and `get_driver_param` returns `NULL` without a register access. -/
theorem C27_unsupported_param (c : ParamNames) (param val : List Char) (rd : Nat)
    (h1 : strncmp_eq param c.HW_LOOPBACK_PARAM c.HW_LOOPBACK_PARAM_LEN = false)
    (h2 : strncmp_eq param c.MGMT_SUPPORT_PARAM c.MGMT_SUPPORT_PARAM_LEN = false) :
    set_driver_param c param val rd = { ret := 0, trace := [] } ∧
    get_driver_param c param rd = { ret := none, trace := [] } := by
  unfold set_driver_param get_driver_param
  rw [h1, h2]
  exact ⟨rfl, rfl⟩

/-- C27 for the name "BOGUS". -/
theorem C27_unsupported_param_witness :
    (strncmp_eq "BOGUS".toList example_names.HW_LOOPBACK_PARAM
        example_names.HW_LOOPBACK_PARAM_LEN = false ∧
      strncmp_eq "BOGUS".toList example_names.MGMT_SUPPORT_PARAM
        example_names.MGMT_SUPPORT_PARAM_LEN = false) ∧
    set_driver_param example_names "BOGUS".toList "1".toList 3 = { ret := 0, trace := [] } ∧
    get_driver_param example_names "BOGUS".toList 3 = { ret := none, trace := [] } :=
  ⟨⟨by decide, by decide⟩,
    C27_unsupported_param example_names "BOGUS".toList "1".toList 3 (by decide) (by decide)⟩

/-! ## Zero-length reservation and reclaim without progress -/

theorem GET_ALIGNED_SZ_zero : GET_ALIGNED_SZ 0 = 0 := by decide

theorem get_h2t_buffer_same (s : Driver) (sz : Nat) :
    get_h2t_buffer s s.g_h2t_descriptor_slots_available sz =
      some { state := (h2t_reserve s sz).state
             ret := (h2t_reserve s sz).ret
             trace := .fpga_read_32 ST_DBG_IP_H2T_AVAILABLE_SLOTS :: (h2t_reserve s sz).trace } := by
  unfold get_h2t_buffer
  rw [h2t_reclaim_same]
  rfl

/-- C28, counterexample: from the freshly initialised driver (128 slots cached, the hardware
counter reading 128) `get_h2t_buffer(0)` returns the write position `0x1000` but advances the
write index from 0 to 1; and with no slot cached (hardware counter 0) it returns 0, the value
of a failed reservation. -/
theorem C28_counterexample :
    (fresh_driver 4096).g_h2t_descriptor_slots_available = 128 ∧
    (fresh_driver 4096).g_h2t_descriptor_write_idx = 0 ∧
    (get_h2t_buffer (fresh_driver 4096) 128 0).map
      (fun b => (b.ret, b.state.g_h2t_descriptor_write_idx, b.trace)) =
        some (0x1000, 1, [.fpga_read_32 ST_DBG_IP_H2T_AVAILABLE_SLOTS, .cbuff_alloc .h2t 0]) ∧
    (get_h2t_buffer { fresh_driver 4096 with g_h2t_descriptor_slots_available := 0 } 0 0).map
      (fun b => (b.ret, b.trace)) = some (0, [.fpga_read_32 ST_DBG_IP_H2T_AVAILABLE_SLOTS]) := by
  decide

/-- C28, amended: in every driver state in which the hardware counter equals the cached count,
`get_h2t_buffer(0)` does no reclamation.  If the cached count is above 0 it returns the
allocator's current write position (base plus write cursor, modulo `2 ^ 32`) and leaves the
cached slot count, the read index and `space_available` unchanged, but it takes a chain
position: it stores 0 in the chain entry at `write_idx % 128` and increments the write index
(modulo `2 ^ 16`).  If the cached count is 0 it returns 0 and changes nothing. -/
theorem C28_zero_length_reservation (s : Driver) :
    (0 < s.g_h2t_descriptor_slots_available →
      ∃ b, get_h2t_buffer s s.g_h2t_descriptor_slots_available 0 = some b ∧
        b.ret = (s.g_h2t_rx_cbuff.base + s.g_h2t_rx_cbuff.write_cursor) % 2 ^ 32 ∧
        b.trace = [.fpga_read_32 ST_DBG_IP_H2T_AVAILABLE_SLOTS, .cbuff_alloc .h2t 0] ∧
        b.state.g_h2t_descriptor_slots_available = s.g_h2t_descriptor_slots_available ∧
        b.state.g_h2t_descriptor_read_idx = s.g_h2t_descriptor_read_idx ∧
        b.state.g_h2t_rx_cbuff.space_available = s.g_h2t_rx_cbuff.space_available ∧
        b.state.g_h2t_descriptor_write_idx = (s.g_h2t_descriptor_write_idx + 1) % 2 ^ 16 ∧
        b.state.g_h2t_descriptor_chain =
          Function.update s.g_h2t_descriptor_chain (s.g_h2t_descriptor_write_idx % 128) 0) ∧
    (s.g_h2t_descriptor_slots_available = 0 →
      get_h2t_buffer s s.g_h2t_descriptor_slots_available 0 =
        some { state := s, ret := 0, trace := [.fpga_read_32 ST_DBG_IP_H2T_AVAILABLE_SLOTS] }) := by
  constructor
  · intro hpos
    have h2 : GET_ALIGNED_SZ 0 ≤ s.g_h2t_rx_cbuff.space_available := by
      rw [GET_ALIGNED_SZ_zero]
      exact Nat.zero_le _
    refine ⟨_, get_h2t_buffer_same s 0, ?_⟩
    rw [h2t_reserve_ok s 0 hpos h2, GET_ALIGNED_SZ_zero]
    exact ⟨rfl, rfl, rfl, rfl, rfl, rfl, rfl⟩
  · intro h0
    rw [get_h2t_buffer_same s 0, h2t_reserve_fail s 0 (Or.inl h0)]

/-- C28 at the freshly initialised driver of the scenario with memory size 4096. -/
theorem C28_zero_length_reservation_witness :
    0 < (fresh_driver 4096).g_h2t_descriptor_slots_available ∧
    ∃ b, get_h2t_buffer (fresh_driver 4096)
        (fresh_driver 4096).g_h2t_descriptor_slots_available 0 = some b ∧
      b.ret = ((fresh_driver 4096).g_h2t_rx_cbuff.base +
        (fresh_driver 4096).g_h2t_rx_cbuff.write_cursor) % 2 ^ 32 ∧
      b.trace = [.fpga_read_32 ST_DBG_IP_H2T_AVAILABLE_SLOTS, .cbuff_alloc .h2t 0] ∧
      b.state.g_h2t_descriptor_slots_available =
        (fresh_driver 4096).g_h2t_descriptor_slots_available ∧
      b.state.g_h2t_descriptor_read_idx = (fresh_driver 4096).g_h2t_descriptor_read_idx ∧
      b.state.g_h2t_rx_cbuff.space_available =
        (fresh_driver 4096).g_h2t_rx_cbuff.space_available ∧
      b.state.g_h2t_descriptor_write_idx =
        ((fresh_driver 4096).g_h2t_descriptor_write_idx + 1) % 2 ^ 16 ∧
      b.state.g_h2t_descriptor_chain =
        Function.update (fresh_driver 4096).g_h2t_descriptor_chain
          ((fresh_driver 4096).g_h2t_descriptor_write_idx % 128) 0 :=
  ⟨by decide, (C28_zero_length_reservation (fresh_driver 4096)).1 (by decide)⟩

theorem mgmt_reclaim_same (s : Driver) :
    mgmt_reclaim s s.g_mgmt_descriptor_slots_available =
      some { state := s, trace := [.fpga_read_32 ST_DBG_IP_MGMT_AVAILABLE_SLOTS] } := by
  have h : ¬ freed_descriptor_slots s.g_mgmt_descriptor_slots_available
      s.g_mgmt_descriptor_slots_available > 0 := by
    unfold freed_descriptor_slots
    omega
  unfold mgmt_reclaim
  dsimp only
  rw [if_neg h]

theorem freed_descriptor_slots_lt (hw cached : Nat) (hc : cached < 2 ^ 16) (h : hw < cached) :
    freed_descriptor_slots hw cached = 2 ^ 32 - (cached - hw) := by
  unfold freed_descriptor_slots
  omega

theorem h2t_reclaim_some (s : Driver) (hw : Nat) (r : Step)
    (hf : freed_descriptor_slots hw s.g_h2t_descriptor_slots_available > 0)
    (hr : h2t_reclaim s hw = some r) :
    r.state.g_h2t_descriptor_slots_available =
      (s.g_h2t_descriptor_slots_available +
        freed_descriptor_slots hw s.g_h2t_descriptor_slots_available) % 2 ^ 16 ∧
    ∃ bytes_freed, r.trace =
      [.fpga_read_32 ST_DBG_IP_H2T_AVAILABLE_SLOTS, .cbuff_free .h2t bytes_freed] := by
  unfold h2t_reclaim at hr
  dsimp only at hr
  rw [if_pos hf] at hr
  cases hb : bytes_freed_loop s.g_h2t_descriptor_chain s.g_h2t_descriptor_read_idx
      (freed_descriptor_slots hw s.g_h2t_descriptor_slots_available) 256 0 0 with
  | none =>
    rw [hb] at hr
    exact absurd hr (by simp)
  | some b =>
    rw [hb] at hr
    have e := Option.some.inj hr
    subst e
    exact ⟨rfl, b, rfl⟩

theorem mgmt_reclaim_some (s : Driver) (hw : Nat) (r : Step)
    (hf : freed_descriptor_slots hw s.g_mgmt_descriptor_slots_available > 0)
    (hr : mgmt_reclaim s hw = some r) :
    r.state.g_mgmt_descriptor_slots_available =
      (s.g_mgmt_descriptor_slots_available +
        freed_descriptor_slots hw s.g_mgmt_descriptor_slots_available) % 2 ^ 16 ∧
    ∃ bytes_freed, r.trace =
      [.fpga_read_32 ST_DBG_IP_MGMT_AVAILABLE_SLOTS, .cbuff_free .mgmt bytes_freed] := by
  unfold mgmt_reclaim at hr
  dsimp only at hr
  rw [if_pos hf] at hr
  cases hb : bytes_freed_loop s.g_mgmt_descriptor_chain s.g_mgmt_descriptor_read_idx
      (freed_descriptor_slots hw s.g_mgmt_descriptor_slots_available) 256 0 0 with
  | none =>
    rw [hb] at hr
    exact absurd hr (by simp)
  | some b =>
    rw [hb] at hr
    have e := Option.some.inj hr
    subst e
    exact ⟨rfl, b, rfl⟩

set_option maxRecDepth 20000 in
theorem h2t_reclaim_below_cached :
    (h2t_reclaim scenario_100_reserved 0).map
      (fun r => (r.state.g_h2t_descriptor_slots_available,
        r.state.g_h2t_rx_cbuff.space_available, r.trace)) =
      some (0, 4096, [.fpga_read_32 ST_DBG_IP_H2T_AVAILABLE_SLOTS, .cbuff_free .h2t 104]) := by
  decide

set_option maxRecDepth 20000 in
theorem mgmt_reclaim_below_cached :
    (mgmt_reclaim scenario_100_reserved 0).map
      (fun r => (r.state.g_mgmt_descriptor_slots_available, r.trace)) =
      some (0, [.fpga_read_32 ST_DBG_IP_MGMT_AVAILABLE_SLOTS, .cbuff_free .mgmt 0]) := by
  decide

/-- C29, counterexample: with 128 slots cached and the hardware counter reading 0, the
difference in `uint32_t` arithmetic is `0xFFFFFF80`, so the reclaim step of `get_h2t_buffer`
runs: from the state with one 104-byte reservation it sets the cached count to 0 and calls the
allocator's free with 104 bytes; the reclaim step of `get_mgmt_buffer` likewise sets the cached
count to 0 and calls free. -/
theorem C29_counterexample :
    scenario_100_reserved.g_h2t_descriptor_slots_available = 128 ∧
    scenario_100_reserved.g_h2t_rx_cbuff.space_available = 3992 ∧
    freed_descriptor_slots 0 128 = 0xFFFFFF80 ∧
    (h2t_reclaim scenario_100_reserved 0).map
      (fun r => (r.state.g_h2t_descriptor_slots_available,
        r.state.g_h2t_rx_cbuff.space_available, r.trace)) =
      some (0, 4096, [.fpga_read_32 ST_DBG_IP_H2T_AVAILABLE_SLOTS, .cbuff_free .h2t 104]) ∧
    scenario_100_reserved.g_mgmt_descriptor_slots_available = 128 ∧
    (mgmt_reclaim scenario_100_reserved 0).map
      (fun r => (r.state.g_mgmt_descriptor_slots_available, r.trace)) =
      some (0, [.fpga_read_32 ST_DBG_IP_MGMT_AVAILABLE_SLOTS, .cbuff_free .mgmt 0]) :=
  ⟨by decide, by decide, by decide, h2t_reclaim_below_cached, by decide,
    mgmt_reclaim_below_cached⟩

/-- C29, amended: for every driver state and every 32-bit hardware slot-counter value `hw`
equal to the cached slot count, the reclaim steps of `get_h2t_buffer` and `get_mgmt_buffer` do
nothing but read the counter: the state is unchanged and the allocator's free is not called.
For `hw` below the cached count the difference, taken in `uint32_t`, is
`2 ^ 32 - (cached - hw) > 0`; the reclaim step then runs, and whenever it completes, the cached
count has become `hw` and free has been called. -/
theorem C29_no_reclaim_without_progress (s : Driver) (hw : Nat) (hs : s.inRange)
    (hhw : hw < 2 ^ 32) :
    (hw = s.g_h2t_descriptor_slots_available →
      h2t_reclaim s hw =
        some { state := s, trace := [.fpga_read_32 ST_DBG_IP_H2T_AVAILABLE_SLOTS] }) ∧
    (hw = s.g_mgmt_descriptor_slots_available →
      mgmt_reclaim s hw =
        some { state := s, trace := [.fpga_read_32 ST_DBG_IP_MGMT_AVAILABLE_SLOTS] }) ∧
    (hw < s.g_h2t_descriptor_slots_available →
      freed_descriptor_slots hw s.g_h2t_descriptor_slots_available =
        2 ^ 32 - (s.g_h2t_descriptor_slots_available - hw) ∧
      ∀ r, h2t_reclaim s hw = some r →
        r.state.g_h2t_descriptor_slots_available = hw ∧
        ∃ bytes_freed, r.trace =
          [.fpga_read_32 ST_DBG_IP_H2T_AVAILABLE_SLOTS, .cbuff_free .h2t bytes_freed]) ∧
    (hw < s.g_mgmt_descriptor_slots_available →
      freed_descriptor_slots hw s.g_mgmt_descriptor_slots_available =
        2 ^ 32 - (s.g_mgmt_descriptor_slots_available - hw) ∧
      ∀ r, mgmt_reclaim s hw = some r →
        r.state.g_mgmt_descriptor_slots_available = hw ∧
        ∃ bytes_freed, r.trace =
          [.fpga_read_32 ST_DBG_IP_MGMT_AVAILABLE_SLOTS, .cbuff_free .mgmt bytes_freed]) := by
  have c1 : s.g_h2t_descriptor_slots_available < 2 ^ 16 := hs.1
  have c2 : s.g_mgmt_descriptor_slots_available < 2 ^ 16 := hs.2.1
  refine ⟨?_, ?_, ?_, ?_⟩
  · intro h
    rw [h]
    exact h2t_reclaim_same s
  · intro h
    rw [h]
    exact mgmt_reclaim_same s
  · intro hlt
    have hf := freed_descriptor_slots_lt hw _ c1 hlt
    refine ⟨hf, ?_⟩
    intro r hr
    obtain ⟨e1, e2⟩ := h2t_reclaim_some s hw r (by rw [hf]; omega) hr
    refine ⟨?_, e2⟩
    rw [e1, hf]
    omega
  · intro hlt
    have hf := freed_descriptor_slots_lt hw _ c2 hlt
    refine ⟨hf, ?_⟩
    intro r hr
    obtain ⟨e1, e2⟩ := mgmt_reclaim_some s hw r (by rw [hf]; omega) hr
    refine ⟨?_, e2⟩
    rw [e1, hf]
    omega

/-- C29 at the freshly initialised driver with the hardware counter reading 128. -/
theorem C29_no_reclaim_without_progress_witness :
    ((fresh_driver 4096).inRange ∧ 128 < 2 ^ 32 ∧
      128 = (fresh_driver 4096).g_h2t_descriptor_slots_available) ∧
    h2t_reclaim (fresh_driver 4096) 128 =
      some { state := fresh_driver 4096
             trace := [.fpga_read_32 ST_DBG_IP_H2T_AVAILABLE_SLOTS] } :=
  ⟨⟨by decide, by decide, by decide⟩,
    (C29_no_reclaim_without_progress (fresh_driver 4096) 128 (by decide) (by decide)).1
      (by decide)⟩

/-! ## Bounded descriptor queue -/

theorem inRange_after_reclaim (s : Driver) (hs : s.inRange) (x y : Nat) (cb : CIRCLE_BUFF) :
    ({ s with
        g_h2t_descriptor_slots_available := x % 2 ^ 16
        g_h2t_descriptor_read_idx := y % 2 ^ 16
        g_h2t_rx_cbuff := cb } : Driver).inRange := by
  obtain ⟨_, h2, h3, _, h5, h6, h7, h8, h9, h10⟩ := hs
  exact ⟨Nat.mod_lt _ (by decide), h2, h3, Nat.mod_lt _ (by decide), h5, h6, h7, h8, h9, h10⟩

theorem inRange_after_reserve (s : Driver) (hs : s.inRange) (k v w : Nat) (cb : CIRCLE_BUFF) :
    ({ s with
        g_h2t_descriptor_chain := Function.update s.g_h2t_descriptor_chain k (v % 2 ^ 16)
        g_h2t_descriptor_write_idx := w % 2 ^ 16
        g_h2t_rx_cbuff := cb } : Driver).inRange := by
  obtain ⟨h1, h2, _, h4, h5, h6, h7, h8, h9, h10⟩ := hs
  refine ⟨h1, h2, Nat.mod_lt _ (by decide), h4, h5, h6, h7, h8, ?_, h10⟩
  intro i hi
  show Function.update s.g_h2t_descriptor_chain k (v % 2 ^ 16) i < 2 ^ 16
  by_cases hik : i = k
  · rw [hik, Function.update_same]
    exact Nat.mod_lt _ (by decide)
  · rw [Function.update_noteq hik]
    exact h9 i hi

theorem inRange_after_push (s : Driver) (hs : s.inRange) (x : Nat) :
    ({ s with g_h2t_descriptor_slots_available := x % 2 ^ 16 } : Driver).inRange := by
  obtain ⟨_, h2, h3, h4, h5, h6, h7, h8, h9, h10⟩ := hs
  exact ⟨Nat.mod_lt _ (by decide), h2, h3, h4, h5, h6, h7, h8, h9, h10⟩

theorem h2t_reclaim_fields (s : Driver) (hw : Nat) (hs : s.inRange)
    (h128 : freed_descriptor_slots hw s.g_h2t_descriptor_slots_available ≤ 128) :
    ∃ r, h2t_reclaim s hw = some r ∧ r.state.inRange ∧
      r.state.g_h2t_descriptor_slots_available =
        (s.g_h2t_descriptor_slots_available +
          freed_descriptor_slots hw s.g_h2t_descriptor_slots_available) % 2 ^ 16 ∧
      r.state.g_h2t_descriptor_read_idx % 128 =
        (s.g_h2t_descriptor_read_idx +
          freed_descriptor_slots hw s.g_h2t_descriptor_slots_available) % 128 ∧
      r.state.g_h2t_descriptor_write_idx = s.g_h2t_descriptor_write_idx ∧
      r.trace.any Call.isAlloc = false := by
  by_cases h0 : freed_descriptor_slots hw s.g_h2t_descriptor_slots_available = 0
  · have hn : ¬ freed_descriptor_slots hw s.g_h2t_descriptor_slots_available > 0 := by omega
    have hc := hs.1
    refine ⟨{ state := s, trace := [.fpga_read_32 ST_DBG_IP_H2T_AVAILABLE_SLOTS] }, ?_, hs,
      ?_, ?_, rfl, rfl⟩
    · unfold h2t_reclaim
      dsimp only
      rw [if_neg hn]
    · show s.g_h2t_descriptor_slots_available = _
      rw [h0]
      omega
    · show s.g_h2t_descriptor_read_idx % 128 = _
      rw [h0]
      rfl
  · refine ⟨_, h2t_reclaim_eq s hw hs (by omega) h128, ?_, rfl, ?_, rfl, rfl⟩
    · exact inRange_after_reclaim s hs _ _ _
    · show ((((s.g_h2t_descriptor_read_idx +
          freed_descriptor_slots hw s.g_h2t_descriptor_slots_available) % 2 ^ 32) %
            MAX_H2T_DESCRIPTOR_DEPTH) % 2 ^ 16) % 128 = _
      have hr := hs.2.2.2.1
      unfold MAX_H2T_DESCRIPTOR_DEPTH
      omega
theorem h2t_reserve_fields (s : Driver) (sz : Nat) (hs : s.inRange) :
    (h2t_reserve s sz).state.inRange ∧
    (h2t_reserve s sz).state.g_h2t_descriptor_slots_available =
      s.g_h2t_descriptor_slots_available ∧
    (h2t_reserve s sz).state.g_h2t_descriptor_read_idx = s.g_h2t_descriptor_read_idx ∧
    (((h2t_reserve s sz).trace.any Call.isAlloc = true ∧
        0 < s.g_h2t_descriptor_slots_available ∧
        (h2t_reserve s sz).state.g_h2t_descriptor_write_idx =
          (s.g_h2t_descriptor_write_idx + 1) % 2 ^ 16) ∨
      ((h2t_reserve s sz).trace.any Call.isAlloc = false ∧
        (h2t_reserve s sz).state.g_h2t_descriptor_write_idx =
          s.g_h2t_descriptor_write_idx)) := by
  by_cases h : s.g_h2t_descriptor_slots_available = 0 ∨
      s.g_h2t_rx_cbuff.space_available < GET_ALIGNED_SZ sz
  · rw [h2t_reserve_fail s sz h]
    exact ⟨hs, rfl, rfl, Or.inr ⟨rfl, rfl⟩⟩
  · have h1 : 0 < s.g_h2t_descriptor_slots_available := by omega
    have h2 : GET_ALIGNED_SZ sz ≤ s.g_h2t_rx_cbuff.space_available := by omega
    rw [h2t_reserve_ok s sz h1 h2]
    exact ⟨inRange_after_reserve s hs _ _ _ _, rfl, rfl, Or.inl ⟨rfl, h1, rfl⟩⟩

theorem get_h2t_buffer_fields (s : Driver) (hw sz : Nat) (hs : s.inRange)
    (h128 : freed_descriptor_slots hw s.g_h2t_descriptor_slots_available ≤ 128) :
    ∃ b, get_h2t_buffer s hw sz = some b ∧ b.state.inRange ∧
      b.state.g_h2t_descriptor_slots_available =
        (s.g_h2t_descriptor_slots_available +
          freed_descriptor_slots hw s.g_h2t_descriptor_slots_available) % 2 ^ 16 ∧
      b.state.g_h2t_descriptor_read_idx % 128 =
        (s.g_h2t_descriptor_read_idx +
          freed_descriptor_slots hw s.g_h2t_descriptor_slots_available) % 128 ∧
      ((b.reserved = true ∧ 0 < b.state.g_h2t_descriptor_slots_available ∧
          b.state.g_h2t_descriptor_write_idx = (s.g_h2t_descriptor_write_idx + 1) % 2 ^ 16) ∨
        (b.reserved = false ∧
          b.state.g_h2t_descriptor_write_idx = s.g_h2t_descriptor_write_idx)) := by
  obtain ⟨r, hr, hin, hslots, hread, hwrite, htr⟩ := h2t_reclaim_fields s hw hs h128
  obtain ⟨e1, e2, e3, e4⟩ := h2t_reserve_fields r.state sz hin
  refine ⟨{ state := (h2t_reserve r.state sz).state
            ret := (h2t_reserve r.state sz).ret
            trace := r.trace ++ (h2t_reserve r.state sz).trace }, ?_, e1, ?_, ?_, ?_⟩
  · unfold get_h2t_buffer
    rw [hr]
  · show (h2t_reserve r.state sz).state.g_h2t_descriptor_slots_available = _
    rw [e2, hslots]
  · show (h2t_reserve r.state sz).state.g_h2t_descriptor_read_idx % 128 = _
    rw [e3, hread]
  · have hany : ∀ t : List Call, (r.trace ++ t).any Call.isAlloc = t.any Call.isAlloc := by
      intro t
      rw [List.any_append, htr, Bool.false_or]
    rcases e4 with ⟨a1, a2, a3⟩ | ⟨a1, a3⟩
    · left
      refine ⟨?_, ?_, ?_⟩
      · show (r.trace ++ (h2t_reserve r.state sz).trace).any Call.isAlloc = true
        rw [hany, a1]
      · show 0 < (h2t_reserve r.state sz).state.g_h2t_descriptor_slots_available
        rw [e2]
        exact a2
      · show (h2t_reserve r.state sz).state.g_h2t_descriptor_write_idx = _
        rw [a3, hwrite]
    · right
      refine ⟨?_, ?_⟩
      · show (r.trace ++ (h2t_reserve r.state sz).trace).any Call.isAlloc = false
        rw [hany, a1]
      · show (h2t_reserve r.state sz).state.g_h2t_descriptor_write_idx = _
        rw [a3, hwrite]
theorem idx_after_reserve (bw br yw yr q f : Nat) (h1 : bw = (yw + 1) % 2 ^ 16)
    (h2 : yw % 128 = (yr + q) % 128) (h3 : br % 128 = (yr + (q - f)) % 128) (hf : f ≤ q) :
    bw % 128 = (br + (q - (q - f) + 1)) % 128 := by
  have e1 : bw % 128 = (yw + 1) % 128 := by omega
  have e2 : q - (q - f) = f := by omega
  rw [e1, e2]
  omega

theorem idx_after_reclaim (bw br yw yr q f : Nat) (h1 : bw = yw)
    (h2 : yw % 128 = (yr + q) % 128) (h3 : br % 128 = (yr + (q - f)) % 128) (hf : f ≤ q) :
    bw % 128 = (br + (q - (q - f))) % 128 := by
  have e2 : q - (q - f) = f := by omega
  rw [h1, e2]
  omega

theorem not_mem_live_positions (w r queued : Nat) (hq : queued < 128)
    (hw : w % 128 = (r + queued) % 128) :
    ¬ (w % MAX_H2T_DESCRIPTOR_DEPTH ∈ live_positions r queued) := by
  unfold live_positions MAX_H2T_DESCRIPTOR_DEPTH
  rw [List.mem_map]
  rintro ⟨j, hj, hEq⟩
  rw [List.mem_range] at hj
  omega

theorem H2TSystem.consistent_mk (d : Driver) (depth in_flight queued : Nat) (o : Bool)
    (h1 : d.inRange) (h2 : depth ≤ 128) (h3 : in_flight ≤ queued)
    (h4 : queued + d.g_h2t_descriptor_slots_available = depth)
    (h5 : d.g_h2t_descriptor_write_idx % 128 = (d.g_h2t_descriptor_read_idx + queued) % 128)
    (h6 : o = false) :
    ({ driver := d, depth := depth, in_flight := in_flight, queued := queued
       overwritten := o } : H2TSystem).consistent := by
  unfold H2TSystem.consistent MAX_H2T_DESCRIPTOR_DEPTH
  exact ⟨h1, h2, h3, h4, h5, h6⟩

theorem push_h2t_data_state (m : PacketDecl) (s : Driver) (header : H2T_PACKET_HEADER)
    (payload : Nat) :
    (push_h2t_data m s header payload).state =
      { s with
        g_h2t_descriptor_slots_available :=
          (s.g_h2t_descriptor_slots_available + 2 ^ 16 - 1) % 2 ^ 16 } := by
  unfold push_h2t_data
  dsimp only

theorem push_h2t_data_fields (m : PacketDecl) (s : Driver) (header : H2T_PACKET_HEADER)
    (payload : Nat) (hs : s.inRange) :
    (push_h2t_data m s header payload).state.inRange ∧
    (push_h2t_data m s header payload).state.g_h2t_descriptor_slots_available =
      (s.g_h2t_descriptor_slots_available + 2 ^ 16 - 1) % 2 ^ 16 ∧
    (push_h2t_data m s header payload).state.g_h2t_descriptor_write_idx =
      s.g_h2t_descriptor_write_idx ∧
    (push_h2t_data m s header payload).state.g_h2t_descriptor_read_idx =
      s.g_h2t_descriptor_read_idx := by
  rw [push_h2t_data_state]
  refine ⟨inRange_after_push s hs _, ?_, ?_, ?_⟩ <;> dsimp only

theorem H2TSystem.step_consistent (m : PacketDecl) (y : H2TSystem) (e : H2TEvent)
    (hy : y.consistent) :
    ∃ y', y.step m e = some y' ∧ y'.consistent ∧ y'.depth = y.depth := by
  obtain ⟨hin, hD, hfl, hsum, hidx, hov⟩ := hy
  unfold MAX_H2T_DESCRIPTOR_DEPTH at hD hidx
  cases e with
  | complete k =>
    refine ⟨_, rfl, ?_, rfl⟩
    exact H2TSystem.consistent_mk _ _ _ _ _ hin hD (by omega) hsum hidx hov
  | transfer sz header =>
    have hc : y.driver.g_h2t_descriptor_slots_available < 2 ^ 16 := hin.1
    have hF : freed_descriptor_slots (y.depth - y.in_flight)
        y.driver.g_h2t_descriptor_slots_available = y.queued - y.in_flight := by
      unfold freed_descriptor_slots
      omega
    obtain ⟨b, hb, hbin, hslots, hread, hres⟩ :=
      get_h2t_buffer_fields y.driver (y.depth - y.in_flight) sz hin (by rw [hF]; omega)
    rw [hF] at hslots hread
    have hq : y.queued - (y.queued - y.in_flight) = y.in_flight := by omega
    have hstep : y.step m (.transfer sz header) =
        if b.reserved then
          some
            { driver := (push_h2t_data m b.state header b.ret).state
              depth := y.depth
              in_flight := y.in_flight + 1
              queued := y.in_flight + 1
              overwritten :=
                y.overwritten ||
                  decide (y.driver.g_h2t_descriptor_write_idx % MAX_H2T_DESCRIPTOR_DEPTH ∈
                    live_positions b.state.g_h2t_descriptor_read_idx y.in_flight) }
        else
          some { y with driver := b.state, queued := y.in_flight } := by
      unfold H2TSystem.step
      dsimp only
      rw [hb, hF, hq]
    rw [hstep]
    obtain ⟨p1, p2, p3, p4⟩ := push_h2t_data_fields m b.state header b.ret hbin
    have hbslots : b.state.g_h2t_descriptor_slots_available = y.depth - y.in_flight := by
      rw [hslots]
      omega
    rcases hres with ⟨a1, a2, a3⟩ | ⟨a1, a3⟩
    · have hnot : (y.overwritten ||
          decide (y.driver.g_h2t_descriptor_write_idx % MAX_H2T_DESCRIPTOR_DEPTH ∈
            live_positions b.state.g_h2t_descriptor_read_idx y.in_flight)) = false := by
        rw [hov, Bool.false_or, decide_eq_false_iff_not]
        apply not_mem_live_positions
        · omega
        · have := idx_after_reclaim y.driver.g_h2t_descriptor_write_idx
            b.state.g_h2t_descriptor_read_idx y.driver.g_h2t_descriptor_write_idx
            y.driver.g_h2t_descriptor_read_idx y.queued y.in_flight rfl hidx hread hfl
          rw [hq] at this
          exact this
      rw [a1, if_pos rfl]
      refine ⟨_, rfl, ?_, rfl⟩
      apply H2TSystem.consistent_mk _ _ _ _ _ p1 hD (Nat.le_refl _) ?_ ?_ hnot
      · rw [p2]
        omega
      · rw [p3, p4]
        have := idx_after_reserve b.state.g_h2t_descriptor_write_idx
          b.state.g_h2t_descriptor_read_idx y.driver.g_h2t_descriptor_write_idx
          y.driver.g_h2t_descriptor_read_idx y.queued y.in_flight a3 hidx hread hfl
        rw [hq] at this
        exact this
    · rw [a1, if_neg (by decide)]
      refine ⟨_, rfl, ?_, rfl⟩
      apply H2TSystem.consistent_mk _ _ _ _ _ hbin hD (Nat.le_refl _) ?_ ?_ hov
      · rw [hbslots]
        omega
      · have := idx_after_reclaim b.state.g_h2t_descriptor_write_idx
          b.state.g_h2t_descriptor_read_idx y.driver.g_h2t_descriptor_write_idx
          y.driver.g_h2t_descriptor_read_idx y.queued y.in_flight a3 hidx hread hfl
        rw [hq] at this
        exact this

theorem H2TSystem.run_consistent (m : PacketDecl) (events : List H2TEvent) :
    ∀ y : H2TSystem, y.consistent →
      ∃ y', H2TSystem.run m y events = some y' ∧ y'.consistent ∧ y'.depth = y.depth := by
  induction events with
  | nil =>
    intro y hy
    exact ⟨y, rfl, hy, rfl⟩
  | cons e es ih =>
    intro y hy
    obtain ⟨y1, h1, c1, d1⟩ := H2TSystem.step_consistent m y e hy
    obtain ⟨y2, h2, c2, d2⟩ := ih y1 c1
    refine ⟨y2, ?_, c2, by rw [d2, d1]⟩
    rw [H2TSystem.run, h1]
    exact h2

theorem init_driver_inRange (s : Driver) (context : intel_stream_debug_if_driver_context)
    (user_input_h2t_t2h_mem_size : Nat) (mmio_handle : Int)
    (type_version mem_depth desc_depth : Nat) (hs : s.inRange)
    (hok : (check_version_and_type type_version).ret = 0) :
    (init_driver s context user_input_h2t_t2h_mem_size mmio_handle
      type_version mem_depth desc_depth).state.inRange := by
  obtain ⟨_, h1, h2, h3, h4, h5, h6, h7, h8, _, _, h11, h12⟩ :=
    init_driver_ok_state s context user_input_h2t_t2h_mem_size mmio_handle
      type_version mem_depth desc_depth hok
  unfold Driver.inRange
  rw [h1, h2, h3, h4, h5, h6, h7, h8, h11, h12]
  exact ⟨Nat.mod_lt _ (by decide), Nat.mod_lt _ (by decide), by decide, by decide, by decide,
    by decide, by decide, by decide, hs.2.2.2.2.2.2.2.2.1, hs.2.2.2.2.2.2.2.2.2⟩

/-- C30: let the driver be initialised by a successful `init_driver` from a state whose variables
are within their C types, with a hardware H2T descriptor depth (the low 32 bits of the
descriptor-depth register) of at most 128.  In every run in which each `get_h2t_buffer` that
makes a reservation is followed by exactly one `push_h2t_data` before the next call, and in
which the slot counter reads the depth minus the descriptors in flight, every call of
`get_h2t_buffer` has a result (no chain access is outside the array), and in the state reached
the number of chain entries enqueued and not yet reclaimed is at most 128, it makes up the depth
together with the cached slot count, the write position is that many positions after the read
position modulo 128, and no reservation has stored into the chain position of an entry that was
not yet reclaimed. -/
theorem C30_bounded_queue (m : PacketDecl) (s : Driver)
    (context : intel_stream_debug_if_driver_context)
    (user_input_h2t_t2h_mem_size : Nat) (mmio_handle : Int)
    (type_version mem_depth desc_depth : Nat) (events : List H2TEvent)
    (hs : s.inRange) (hok : (check_version_and_type type_version).ret = 0)
    (hdepth : (desc_depth % 2 ^ 64) &&& 0xFFFFFFFF ≤ 128) :
    ∃ y, H2TSystem.run m
        (H2TSystem.start (init_driver s context user_input_h2t_t2h_mem_size mmio_handle
          type_version mem_depth desc_depth).state) events = some y ∧
      y.depth = (desc_depth % 2 ^ 64) &&& 0xFFFFFFFF ∧
      y.queued ≤ 128 ∧
      y.in_flight ≤ y.queued ∧
      y.queued + y.driver.g_h2t_descriptor_slots_available = y.depth ∧
      y.driver.g_h2t_descriptor_write_idx % 128 =
        (y.driver.g_h2t_descriptor_read_idx + y.queued) % 128 ∧
      y.overwritten = false := by
  obtain ⟨_, h1, _, h3, h4, _⟩ :=
    init_driver_ok_state s context user_input_h2t_t2h_mem_size mmio_handle
      type_version mem_depth desc_depth hok
  have hin := init_driver_inRange s context user_input_h2t_t2h_mem_size mmio_handle
    type_version mem_depth desc_depth hs hok
  have hslots : (init_driver s context user_input_h2t_t2h_mem_size mmio_handle
      type_version mem_depth desc_depth).state.g_h2t_descriptor_slots_available =
        (desc_depth % 2 ^ 64) &&& 0xFFFFFFFF := by
    rw [h1]
    omega
  have hstart : (H2TSystem.start (init_driver s context user_input_h2t_t2h_mem_size mmio_handle
      type_version mem_depth desc_depth).state).consistent := by
    unfold H2TSystem.start
    apply H2TSystem.consistent_mk _ _ _ _ _ hin ?_ (Nat.le_refl _) (Nat.zero_add _) ?_ rfl
    · rw [hslots]
      exact hdepth
    · rw [h3, h4]
  obtain ⟨y, hrun, hcons, hd⟩ := H2TSystem.run_consistent m events _ hstart
  obtain ⟨_, c2, c3, c4, c5, c6⟩ := hcons
  unfold MAX_H2T_DESCRIPTOR_DEPTH at c2 c5
  refine ⟨y, hrun, ?_, ?_, c3, c4, c5, c6⟩
  · rw [hd]
    exact hslots
  · omega

/-- C30 on the freshly initialised driver (depth 128, memory size 4096) and a run of three
transfers, two completions and a fourth transfer. -/
theorem C30_bounded_queue_witness :
    ((Driver.start 0).inRange ∧ (check_version_and_type 0x5244444D).ret = 0 ∧
      ((128 + 128 * 2 ^ 32) % 2 ^ 64) &&& 0xFFFFFFFF ≤ 128) ∧
    ∃ y, H2TSystem.run example_decl
        (H2TSystem.start (init_driver (Driver.start 0) blank_context 4096 1
          0x5244444D 0 (128 + 128 * 2 ^ 32)).state) example_run = some y ∧
      y.depth = ((128 + 128 * 2 ^ 32) % 2 ^ 64) &&& 0xFFFFFFFF ∧
      y.queued ≤ 128 ∧
      y.in_flight ≤ y.queued ∧
      y.queued + y.driver.g_h2t_descriptor_slots_available = y.depth ∧
      y.driver.g_h2t_descriptor_write_idx % 128 =
        (y.driver.g_h2t_descriptor_read_idx + y.queued) % 128 ∧
      y.overwritten = false :=
  ⟨⟨by decide, by decide, by decide⟩,
    C30_bounded_queue example_decl (Driver.start 0) blank_context 4096 1 0x5244444D 0
      (128 + 128 * 2 ^ 32) example_run (by decide) (by decide) (by decide)⟩

/-! ## Post-state of `init_driver`, pull decoding -/

theorem desc_depth_low (desc_depth : Nat) (h : desc_depth < 2 ^ 64) :
    ((desc_depth % 2 ^ 64) &&& 0xFFFFFFFF) % 2 ^ 16 = (desc_depth % 2 ^ 32) % 2 ^ 16 := by
  have e : (2 : Nat) ^ 32 - 1 = 0xFFFFFFFF := by decide
  rw [← e, Nat.and_pow_two_sub_one_eq_mod, Nat.mod_eq_of_lt h]

theorem desc_depth_high (desc_depth : Nat) (h : desc_depth < 2 ^ 64) :
    ((desc_depth % 2 ^ 64) >>> 32) % 2 ^ 16 = (desc_depth / 2 ^ 32) % 2 ^ 16 := by
  rw [Nat.shiftRight_eq_div_pow, Nat.mod_eq_of_lt h]

theorem init_driver_ok_trace (s : Driver) (context : intel_stream_debug_if_driver_context)
    (user_input_h2t_t2h_mem_size : Nat) (mmio_handle : Int)
    (type_version mem_depth desc_depth : Nat)
    (hok : (check_version_and_type type_version).ret = 0) :
    (init_driver s context user_input_h2t_t2h_mem_size mmio_handle
        type_version mem_depth desc_depth).context.std_dbg_ip_info =
      (init_driver s context user_input_h2t_t2h_mem_size mmio_handle
        type_version mem_depth desc_depth).state.g_std_dbg_ip_info ∧
    ∃ reads : List Call,
      (init_driver s context user_input_h2t_t2h_mem_size mmio_handle
        type_version mem_depth desc_depth).trace =
        reads ++ [.fpga_write_32 ST_DBG_IP_CONFIG_RESET_AND_LOOPBACK
          ST_DBG_IP_CONFIG_H2T_T2H_RESET_FIELD] ∧
      ∀ c ∈ reads, ∃ offset, c = .fpga_read_64 offset := by
  by_cases hv : (check_version_and_type type_version).version > 0
  · obtain ⟨e1, e2, e3⟩ := init_driver_csr s context user_input_h2t_t2h_mem_size mmio_handle
      type_version mem_depth desc_depth hok hv
    rw [e1, e2, e3]
    refine ⟨rfl, [.fpga_read_64 ST_DBG_IP_CONFIG_TYPE, .fpga_read_64 ST_DBG_IP_CONFIG_H2T_T2H_MEM,
      .fpga_read_64 ST_DBG_IP_CONFIG_H2T_T2H_DESC_DEPTH], rfl, ?_⟩
    intro c hc
    simp only [List.mem_cons, List.mem_singleton, List.not_mem_nil, or_false] at hc
    rcases hc with hc | hc | hc <;> exact ⟨_, hc⟩
  · obtain ⟨e1, e2, e3⟩ := init_driver_user s context user_input_h2t_t2h_mem_size mmio_handle
      type_version mem_depth desc_depth hok hv
    rw [e1, e2, e3]
    refine ⟨rfl, [.fpga_read_64 ST_DBG_IP_CONFIG_TYPE,
      .fpga_read_64 ST_DBG_IP_CONFIG_H2T_T2H_DESC_DEPTH], rfl, ?_⟩
    intro c hc
    simp only [List.mem_cons, List.mem_singleton, List.not_mem_nil, or_false] at hc
    rcases hc with hc | hc <;> exact ⟨_, hc⟩

/-- C31: a successful `init_driver`, from any prior driver state, returns 0; both SOP flags are
1; the H2T and MGMT read and write indices are 0; the H2T cached slot count is the low 32 bits
and the MGMT cached slot count the high 32 bits of the 64-bit descriptor-depth register, each
reduced to 16 bits; both circular buffers are initialised with the base and size of their region
in the computed layout; the context receives a copy of that layout; and the trace consists of
64-bit reads followed by one write, of the reset field `0x1` to the reset-and-loopback
register. -/
theorem C31_init_post_state (s : Driver) (context : intel_stream_debug_if_driver_context)
    (user_input_h2t_t2h_mem_size : Nat) (mmio_handle : Int)
    (type_version mem_depth desc_depth : Nat)
    (hok : (check_version_and_type type_version).ret = 0) (hdesc : desc_depth < 2 ^ 64) :
    (init_driver s context user_input_h2t_t2h_mem_size mmio_handle
        type_version mem_depth desc_depth).ret = 0 ∧
    ((init_driver s context user_input_h2t_t2h_mem_size mmio_handle
        type_version mem_depth desc_depth).state.g_t2h_sop = 1 ∧
      (init_driver s context user_input_h2t_t2h_mem_size mmio_handle
        type_version mem_depth desc_depth).state.g_mgmt_rsp_sop = 1) ∧
    ((init_driver s context user_input_h2t_t2h_mem_size mmio_handle
        type_version mem_depth desc_depth).state.g_h2t_descriptor_write_idx = 0 ∧
      (init_driver s context user_input_h2t_t2h_mem_size mmio_handle
        type_version mem_depth desc_depth).state.g_h2t_descriptor_read_idx = 0 ∧
      (init_driver s context user_input_h2t_t2h_mem_size mmio_handle
        type_version mem_depth desc_depth).state.g_mgmt_descriptor_write_idx = 0 ∧
      (init_driver s context user_input_h2t_t2h_mem_size mmio_handle
        type_version mem_depth desc_depth).state.g_mgmt_descriptor_read_idx = 0) ∧
    ((init_driver s context user_input_h2t_t2h_mem_size mmio_handle
        type_version mem_depth desc_depth).state.g_h2t_descriptor_slots_available =
          (desc_depth % 2 ^ 32) % 2 ^ 16 ∧
      (init_driver s context user_input_h2t_t2h_mem_size mmio_handle
        type_version mem_depth desc_depth).state.g_mgmt_descriptor_slots_available =
          (desc_depth / 2 ^ 32) % 2 ^ 16) ∧
    ((init_driver s context user_input_h2t_t2h_mem_size mmio_handle
        type_version mem_depth desc_depth).state.g_h2t_rx_cbuff =
      cbuff_init
        (init_driver s context user_input_h2t_t2h_mem_size mmio_handle
          type_version mem_depth desc_depth).state.g_std_dbg_ip_info.H2T_MEM_BASE_ADDR
        (init_driver s context user_input_h2t_t2h_mem_size mmio_handle
          type_version mem_depth desc_depth).state.g_std_dbg_ip_info.H2T_MEM_SZ ∧
      (init_driver s context user_input_h2t_t2h_mem_size mmio_handle
        type_version mem_depth desc_depth).state.g_mgmt_rx_cbuff =
      cbuff_init
        (init_driver s context user_input_h2t_t2h_mem_size mmio_handle
          type_version mem_depth desc_depth).state.g_std_dbg_ip_info.MGMT_MEM_BASE_ADDR
        (init_driver s context user_input_h2t_t2h_mem_size mmio_handle
          type_version mem_depth desc_depth).state.g_std_dbg_ip_info.MGMT_MEM_SZ) ∧
    (init_driver s context user_input_h2t_t2h_mem_size mmio_handle
        type_version mem_depth desc_depth).context.std_dbg_ip_info =
      (init_driver s context user_input_h2t_t2h_mem_size mmio_handle
        type_version mem_depth desc_depth).state.g_std_dbg_ip_info ∧
    ∃ reads : List Call,
      (init_driver s context user_input_h2t_t2h_mem_size mmio_handle
        type_version mem_depth desc_depth).trace =
        reads ++ [.fpga_write_32 ST_DBG_IP_CONFIG_RESET_AND_LOOPBACK
          ST_DBG_IP_CONFIG_H2T_T2H_RESET_FIELD] ∧
      ∀ c ∈ reads, ∃ offset, c = .fpga_read_64 offset := by
  obtain ⟨h0, h1, h2, h3, h4, h5, h6, h7, h8, h9, h10, _, _⟩ :=
    init_driver_ok_state s context user_input_h2t_t2h_mem_size mmio_handle
      type_version mem_depth desc_depth hok
  obtain ⟨t1, t2⟩ := init_driver_ok_trace s context user_input_h2t_t2h_mem_size mmio_handle
      type_version mem_depth desc_depth hok
  rw [desc_depth_low desc_depth hdesc] at h1
  rw [desc_depth_high desc_depth hdesc] at h2
  exact ⟨h0, ⟨h7, h8⟩, ⟨h3, h4, h5, h6⟩, ⟨h1, h2⟩, ⟨h9, h10⟩, t1, t2⟩

/-- C31 on a version-0 device with descriptor depth 128 for both channels, from the driver state
after one pushed transfer. -/
theorem C31_init_post_state_witness :
    ((check_version_and_type 0x5244444D).ret = 0 ∧ 128 + 128 * 2 ^ 32 < 2 ^ 64) ∧
    (init_driver scenario_100_pushed blank_context 4096 1
      0x5244444D 0 (128 + 128 * 2 ^ 32)).ret = 0 ∧
    (init_driver scenario_100_pushed blank_context 4096 1
      0x5244444D 0 (128 + 128 * 2 ^ 32)).state.g_h2t_descriptor_slots_available =
        ((128 + 128 * 2 ^ 32) % 2 ^ 32) % 2 ^ 16 :=
  ⟨⟨by decide, by decide⟩,
    (C31_init_post_state scenario_100_pushed blank_context 4096 1 0x5244444D 0
      (128 + 128 * 2 ^ 32) (by decide) (by decide)).1,
    (C31_init_post_state scenario_100_pushed blank_context 4096 1 0x5244444D 0
      (128 + 128 * 2 ^ 32) (by decide) (by decide)).2.2.2.1.1⟩

theorem connid_channel_decode (conn_id channel : Nat) (h1 : conn_id < 2 ^ 8)
    (h2 : channel < 2 ^ 16) :
    (((conn_id ||| (channel <<< 32)) % 2 ^ 64) % 2 ^ 64) % 2 ^ 8 = conn_id ∧
    ((((conn_id ||| (channel <<< 32)) % 2 ^ 64) % 2 ^ 64) >>> 32) % 2 ^ 16 = channel := by
  have e : conn_id ||| (channel <<< 32) = channel * 2 ^ 32 + conn_id := by
    rw [Nat.lor_comm, Nat.shiftLeft_eq, Nat.mul_comm]
    exact (Nat.mul_add_lt_is_or (by omega) channel).symm
  rw [e, Nat.shiftRight_eq_div_pow]
  constructor <;> omega

/-- C32, counterexample: the how-long word `0x10001` reports the length 65537 in its low 31 bits,
and `get_t2h_data` sets `DATA_LEN_BYTES` to 1; the how-long word `0x1_00010000` reports the
nonzero length 65536, and `get_t2h_data` sets `DATA_LEN_BYTES` to 0 and leaves `*payload` and the
other header fields as they were. -/
theorem C32_counterexample :
    0x10001 % 2 ^ 31 = 65537 ∧
    (get_t2h_data example_decl (fresh_driver 4096) ⟨0, 0, 0, 0⟩ 7 0x10001 0).header.DATA_LEN_BYTES
      = 1 ∧
    0x100010000 % 2 ^ 31 = 65536 ∧
    (get_t2h_data example_decl (fresh_driver 4096) ⟨9, 9, 9, 9⟩ 7 0x100010000 0x50003).header =
      ⟨0, 9, 9, 9⟩ ∧
    (get_t2h_data example_decl (fresh_driver 4096) ⟨9, 9, 9, 9⟩ 7 0x100010000 0x50003).payload
      = 7 := by
  decide

/-- C32, amended: for every how-long word `w` whose length field, the low 31 bits, is nonzero
modulo `2 ^ 16`, `get_t2h_data` sets `*payload` to (high 32 bits of `w` + T2H region base)
modulo `2 ^ 32`, `DATA_LEN_BYTES` to the length modulo `2 ^ 16` (the length itself when it is
below 65536), `CONN_ID` to the low 8 bits of the connection register `c` and `CHANNEL` to the
low 16 bits of the high 32-bit half of `c`; `get_mgmt_rsp_data` does the same with the MGMT-RSP
base and takes `CHANNEL` from the 32-bit channel-advance register `ch`, reduced to the width of
the field.  A header with a nonzero length whose fields are within their types, pushed by
`push_h2t_data` and decoded from the two words written, has the same `DATA_LEN_BYTES`,
`CONN_ID` and `CHANNEL`. -/
theorem C32_pull_decoding (m : PacketDecl) (s : Driver) (header : H2T_PACKET_HEADER)
    (mgmt_header : MGMT_PACKET_HEADER) (payload w c ch : Nat)
    (hw : w < 2 ^ 64) (hc : c < 2 ^ 64) (hch : ch < 2 ^ 32)
    (hlen : (w % 2 ^ 31) % 2 ^ 16 ≠ 0) :
    ((get_t2h_data m s header payload w c).payload =
        (w / 2 ^ 32 + s.g_std_dbg_ip_info.T2H_MEM_BASE_ADDR) % 2 ^ 32 ∧
      (get_t2h_data m s header payload w c).header.DATA_LEN_BYTES = (w % 2 ^ 31) % 2 ^ 16 ∧
      (w % 2 ^ 31 < 2 ^ 16 →
        (get_t2h_data m s header payload w c).header.DATA_LEN_BYTES = w % 2 ^ 31) ∧
      (get_t2h_data m s header payload w c).header.CONN_ID = c % 2 ^ 8 ∧
      (get_t2h_data m s header payload w c).header.CHANNEL = (c / 2 ^ 32) % 2 ^ 16) ∧
    ((get_mgmt_rsp_data m s mgmt_header payload w ch).payload =
        (w / 2 ^ 32 + s.g_std_dbg_ip_info.MGMT_RSP_MEM_BASE_ADDR) % 2 ^ 32 ∧
      (get_mgmt_rsp_data m s mgmt_header payload w ch).header.DATA_LEN_BYTES =
        (w % 2 ^ 31) % 2 ^ 16 ∧
      (get_mgmt_rsp_data m s mgmt_header payload w ch).header.CHANNEL =
        ch % 2 ^ m.MGMT_CHANNEL_BITS ∧
      (m.MGMT_CHANNEL_BITS = 32 →
        (get_mgmt_rsp_data m s mgmt_header payload w ch).header.CHANNEL = ch)) ∧
    (∀ (pushed : H2T_PACKET_HEADER) (s_push : Driver) (buffer W C : Nat),
      pushed.inRange → pushed.DATA_LEN_BYTES ≠ 0 →
      (push_h2t_data m s_push pushed buffer).trace =
        [.fpga_write_64 ST_DBG_IP_H2T_HOW_LONG W, .fpga_write_64 ST_DBG_IP_H2T_CONNECTION_ID C] →
      (get_t2h_data m s header payload W C).header.DATA_LEN_BYTES = pushed.DATA_LEN_BYTES ∧
      (get_t2h_data m s header payload W C).header.CONN_ID = pushed.CONN_ID ∧
      (get_t2h_data m s header payload W C).header.CHANNEL = pushed.CHANNEL) := by
  have hl : pulled_len w ≠ 0 := by
    rw [pulled_len_eq]
    omega
  have e1 : ((w % 2 ^ 64) >>> 32) % 2 ^ 32 = w / 2 ^ 32 := by
    rw [Nat.shiftRight_eq_div_pow]
    omega
  have e2 : ((c % 2 ^ 64) >>> 32) % 2 ^ 16 = (c / 2 ^ 32) % 2 ^ 16 := by
    rw [Nat.shiftRight_eq_div_pow, Nat.mod_eq_of_lt hc]
  have e3 : (c % 2 ^ 64) % 2 ^ 8 = c % 2 ^ 8 := by omega
  have e4 : pulled_len w = (w % 2 ^ 31) % 2 ^ 16 := by
    rw [pulled_len_eq]
    omega
  refine ⟨?_, ?_, ?_⟩
  · rw [get_t2h_data_data m s header payload w c hl]
    dsimp only
    rw [e1, e2, e3, e4]
    refine ⟨rfl, rfl, ?_, rfl, rfl⟩
    intro h
    exact Nat.mod_eq_of_lt h
  · rw [get_mgmt_rsp_data_data m s mgmt_header payload w ch hl]
    dsimp only
    rw [e1, e4, Nat.mod_eq_of_lt hch]
    refine ⟨rfl, rfl, rfl, ?_⟩
    intro h
    rw [h]
    exact Nat.mod_eq_of_lt hch
  · intro pushed s_push buffer W C hr hne htrace
    obtain ⟨r1, r2, r3⟩ := hr
    unfold push_h2t_data at htrace
    dsimp only at htrace
    have hW := Call.fpga_write_64.inj (List.cons.inj htrace).1
    have hC := Call.fpga_write_64.inj (List.cons.inj (List.cons.inj htrace).2).1
    have hpl : pulled_len W ≠ 0 := by
      rw [← hW.2, pulled_len_word _ _ _ r1]
      exact hne
    rw [get_t2h_data_data m s header payload W C hpl]
    dsimp only
    rw [← hW.2, ← hC.2, pulled_len_word _ _ _ r1]
    exact ⟨rfl, (connid_channel_decode _ _ r2 r3).1, (connid_channel_decode _ _ r2 r3).2⟩

/-- C32 for the how-long word `0x20_00000064` (length 100, offset `0x20`) and the connection
register `0x5_00000003`. -/
theorem C32_pull_decoding_witness :
    (0x2000000064 < 2 ^ 64 ∧ 0x500000003 < 2 ^ 64 ∧ 9 < 2 ^ 32 ∧
      (0x2000000064 % 2 ^ 31) % 2 ^ 16 ≠ 0) ∧
    (get_t2h_data example_decl (fresh_driver 4096) ⟨0, 0, 0, 0⟩ 0
        0x2000000064 0x500000003).payload =
      (0x2000000064 / 2 ^ 32 + (fresh_driver 4096).g_std_dbg_ip_info.T2H_MEM_BASE_ADDR) % 2 ^ 32 ∧
    (get_t2h_data example_decl (fresh_driver 4096) ⟨0, 0, 0, 0⟩ 0
        0x2000000064 0x500000003).header = ⟨100, 2, 3, 5⟩ :=
  ⟨⟨by decide, by decide, by decide, by decide⟩,
    (C32_pull_decoding example_decl (fresh_driver 4096) ⟨0, 0, 0, 0⟩ ⟨0, 0, 0⟩ 0
      0x2000000064 0x500000003 9 (by decide) (by decide) (by decide) (by decide)).1.1,
    by decide⟩

/-! ## Channel symmetry -/

theorem Driver.swap_channels_swap (s : Driver) : s.swap_channels.swap_channels = s := rfl

theorem Driver.swap_channels_mk (info : ST_DBG_IP_DESIGN_INFO) (handle : Int) (hs ms : Nat)
    (hc mc : Nat → Nat) (hw hr mw mr ts mrs : Nat) (hcb mcb : CIRCLE_BUFF) (once : Bool) :
    (Driver.mk info handle hs ms hc mc hw hr mw mr ts mrs hcb mcb once).swap_channels =
      Driver.mk info handle ms hs mc hc mw mr hw hr ts mrs mcb hcb once := rfl

theorem Driver.swap_channels_fields (s : Driver) :
    s.swap_channels.g_std_dbg_ip_info = s.g_std_dbg_ip_info ∧
    s.swap_channels.g_mmio_handle = s.g_mmio_handle ∧
    s.swap_channels.g_h2t_descriptor_slots_available = s.g_mgmt_descriptor_slots_available ∧
    s.swap_channels.g_mgmt_descriptor_slots_available = s.g_h2t_descriptor_slots_available ∧
    s.swap_channels.g_h2t_descriptor_chain = s.g_mgmt_descriptor_chain ∧
    s.swap_channels.g_mgmt_descriptor_chain = s.g_h2t_descriptor_chain ∧
    s.swap_channels.g_h2t_descriptor_write_idx = s.g_mgmt_descriptor_write_idx ∧
    s.swap_channels.g_h2t_descriptor_read_idx = s.g_mgmt_descriptor_read_idx ∧
    s.swap_channels.g_mgmt_descriptor_write_idx = s.g_h2t_descriptor_write_idx ∧
    s.swap_channels.g_mgmt_descriptor_read_idx = s.g_h2t_descriptor_read_idx ∧
    s.swap_channels.g_t2h_sop = s.g_t2h_sop ∧
    s.swap_channels.g_mgmt_rsp_sop = s.g_mgmt_rsp_sop ∧
    s.swap_channels.g_h2t_rx_cbuff = s.g_mgmt_rx_cbuff ∧
    s.swap_channels.g_mgmt_rx_cbuff = s.g_h2t_rx_cbuff ∧
    s.swap_channels.has_init_once = s.has_init_once :=
  ⟨rfl, rfl, rfl, rfl, rfl, rfl, rfl, rfl, rfl, rfl, rfl, rfl, rfl, rfl, rfl⟩

theorem mgmt_reserve_swap (s : Driver) (sz : Nat) :
    mgmt_reserve s sz = (h2t_reserve s.swap_channels sz).swap_channels := by
  obtain ⟨f1, f2, f3, f4, f5, f6, f7, f8, f9, f10, f11, f12, f13, f14, f15⟩ :=
    Driver.swap_channels_fields s
  have e4 : MAX_MGMT_DESCRIPTOR_DEPTH = MAX_H2T_DESCRIPTOR_DEPTH := rfl
  unfold mgmt_reserve h2t_reserve
  dsimp only
  rw [f3, f13, f5, f7, e4]
  by_cases h1 : s.g_mgmt_descriptor_slots_available > 0
  · rw [if_pos h1, if_pos h1]
    by_cases h2 : s.g_mgmt_rx_cbuff.space_available ≥ GET_ALIGNED_SZ sz
    · rw [if_pos h2, if_pos h2]
      generalize cbuff_alloc s.g_mgmt_rx_cbuff (GET_ALIGNED_SZ sz) = r
      generalize GET_ALIGNED_SZ sz = a
      unfold BufferResult.swap_channels
      dsimp only
      rw [Driver.swap_channels_mk, f1, f2, f4, f6, f8, f9, f10, f11, f12, f14, f15]
      rfl
    · rw [if_neg h2, if_neg h2]
      rfl
  · rw [if_neg h1, if_neg h1]
    rfl

theorem mgmt_reclaim_swap (s : Driver) (hw : Nat) :
    mgmt_reclaim s hw =
      (h2t_reclaim s.swap_channels hw).map
        (fun r => { state := r.state.swap_channels, trace := r.trace.map Call.swap_channels }) := by
  have e1 : s.swap_channels.g_h2t_descriptor_slots_available =
      s.g_mgmt_descriptor_slots_available := rfl
  have e2 : s.swap_channels.g_h2t_descriptor_chain = s.g_mgmt_descriptor_chain := rfl
  have e3 : s.swap_channels.g_h2t_descriptor_read_idx = s.g_mgmt_descriptor_read_idx := rfl
  have e4 : MAX_MGMT_DESCRIPTOR_DEPTH = MAX_H2T_DESCRIPTOR_DEPTH := rfl
  unfold mgmt_reclaim h2t_reclaim
  dsimp only
  rw [e1, e2, e3, e4]
  by_cases hf : freed_descriptor_slots hw s.g_mgmt_descriptor_slots_available > 0
  · rw [if_pos hf, if_pos hf]
    cases bytes_freed_loop s.g_mgmt_descriptor_chain s.g_mgmt_descriptor_read_idx
        (freed_descriptor_slots hw s.g_mgmt_descriptor_slots_available) 256 0 0 with
    | none => rfl
    | some b => rfl
  · rw [if_neg hf, if_neg hf]
    rfl

theorem get_mgmt_buffer_swap (s : Driver) (hw sz : Nat) :
    get_mgmt_buffer s hw sz =
      (get_h2t_buffer s.swap_channels hw sz).map BufferResult.swap_channels := by
  unfold get_mgmt_buffer get_h2t_buffer
  rw [mgmt_reclaim_swap]
  cases h2t_reclaim s.swap_channels hw with
  | none => rfl
  | some r =>
    rw [Option.map_some']
    dsimp only
    rw [Option.map_some', mgmt_reserve_swap, Driver.swap_channels_swap]
    unfold BufferResult.swap_channels
    dsimp only
    rw [List.map_append]

theorem Call.swap_channels_involutive (c : Call) : c.swap_channels.swap_channels = c := by
  cases c with
  | fpga_read_32 offset =>
    unfold Call.swap_channels
    dsimp only
    by_cases h1 : offset = ST_DBG_IP_H2T_AVAILABLE_SLOTS
    · rw [if_pos h1, if_neg (by decide), if_pos rfl, h1]
    · rw [if_neg h1]
      by_cases h2 : offset = ST_DBG_IP_MGMT_AVAILABLE_SLOTS
      · rw [if_pos h2, if_pos rfl, h2]
      · rw [if_neg h2, if_neg h1, if_neg h2]
  | fpga_read_64 offset => rfl
  | fpga_write_32 offset value => rfl
  | fpga_write_64 offset value => rfl
  | cbuff_free buf sz => cases buf <;> rfl
  | cbuff_alloc buf sz => cases buf <;> rfl

theorem BufferResult.swap_channels_twice (b : BufferResult) :
    b.swap_channels.swap_channels = b := by
  cases b with
  | mk state ret trace =>
    unfold BufferResult.swap_channels
    dsimp only
    rw [Driver.swap_channels_swap, List.map_map]
    have h : Call.swap_channels ∘ Call.swap_channels = id := by
      funext c
      exact Call.swap_channels_involutive c
    rw [h, List.map_id]

theorem h2t_reclaim_other (s : Driver) (hw : Nat) (r : Step) (h : h2t_reclaim s hw = some r) :
    r.state.g_mgmt_descriptor_slots_available = s.g_mgmt_descriptor_slots_available ∧
    r.state.g_mgmt_descriptor_chain = s.g_mgmt_descriptor_chain ∧
    r.state.g_mgmt_descriptor_write_idx = s.g_mgmt_descriptor_write_idx ∧
    r.state.g_mgmt_descriptor_read_idx = s.g_mgmt_descriptor_read_idx ∧
    r.state.g_mgmt_rx_cbuff = s.g_mgmt_rx_cbuff := by
  unfold h2t_reclaim at h
  dsimp only at h
  by_cases hf : freed_descriptor_slots hw s.g_h2t_descriptor_slots_available > 0
  · rw [if_pos hf] at h
    cases hb : bytes_freed_loop s.g_h2t_descriptor_chain s.g_h2t_descriptor_read_idx
        (freed_descriptor_slots hw s.g_h2t_descriptor_slots_available) 256 0 0 with
    | none =>
      rw [hb] at h
      exact absurd h (by simp)
    | some b =>
      rw [hb] at h
      have e := Option.some.inj h
      subst e
      refine ⟨?_, ?_, ?_, ?_, ?_⟩ <;> dsimp only
  · rw [if_neg hf] at h
    have e := Option.some.inj h
    subst e
    exact ⟨rfl, rfl, rfl, rfl, rfl⟩

theorem h2t_reserve_other (s : Driver) (sz : Nat) :
    (h2t_reserve s sz).state.g_mgmt_descriptor_slots_available =
      s.g_mgmt_descriptor_slots_available ∧
    (h2t_reserve s sz).state.g_mgmt_descriptor_chain = s.g_mgmt_descriptor_chain ∧
    (h2t_reserve s sz).state.g_mgmt_descriptor_write_idx = s.g_mgmt_descriptor_write_idx ∧
    (h2t_reserve s sz).state.g_mgmt_descriptor_read_idx = s.g_mgmt_descriptor_read_idx ∧
    (h2t_reserve s sz).state.g_mgmt_rx_cbuff = s.g_mgmt_rx_cbuff := by
  by_cases h : s.g_h2t_descriptor_slots_available = 0 ∨
      s.g_h2t_rx_cbuff.space_available < GET_ALIGNED_SZ sz
  · rw [h2t_reserve_fail s sz h]
    exact ⟨rfl, rfl, rfl, rfl, rfl⟩
  · have h1 : 0 < s.g_h2t_descriptor_slots_available := by omega
    have h2 : GET_ALIGNED_SZ sz ≤ s.g_h2t_rx_cbuff.space_available := by omega
    rw [h2t_reserve_ok s sz h1 h2]
    refine ⟨?_, ?_, ?_, ?_, ?_⟩ <;> dsimp only

theorem get_h2t_buffer_other (s : Driver) (hw sz : Nat) (b : BufferResult)
    (h : get_h2t_buffer s hw sz = some b) :
    b.state.g_mgmt_descriptor_slots_available = s.g_mgmt_descriptor_slots_available ∧
    b.state.g_mgmt_descriptor_chain = s.g_mgmt_descriptor_chain ∧
    b.state.g_mgmt_descriptor_write_idx = s.g_mgmt_descriptor_write_idx ∧
    b.state.g_mgmt_descriptor_read_idx = s.g_mgmt_descriptor_read_idx ∧
    b.state.g_mgmt_rx_cbuff = s.g_mgmt_rx_cbuff := by
  unfold get_h2t_buffer at h
  cases hr : h2t_reclaim s hw with
  | none =>
    rw [hr] at h
    exact absurd h (by simp)
  | some r =>
    rw [hr] at h
    dsimp only at h
    have e := Option.some.inj h
    subst e
    obtain ⟨a1, a2, a3, a4, a5⟩ := h2t_reclaim_other s hw r hr
    obtain ⟨c1, c2, c3, c4, c5⟩ := h2t_reserve_other r.state sz
    dsimp only
    rw [c1, c2, c3, c4, c5]
    exact ⟨a1, a2, a3, a4, a5⟩

theorem get_mgmt_buffer_other (s : Driver) (hw sz : Nat) (b : BufferResult)
    (h : get_mgmt_buffer s hw sz = some b) :
    b.state.g_h2t_descriptor_slots_available = s.g_h2t_descriptor_slots_available ∧
    b.state.g_h2t_descriptor_chain = s.g_h2t_descriptor_chain ∧
    b.state.g_h2t_descriptor_write_idx = s.g_h2t_descriptor_write_idx ∧
    b.state.g_h2t_descriptor_read_idx = s.g_h2t_descriptor_read_idx ∧
    b.state.g_h2t_rx_cbuff = s.g_h2t_rx_cbuff := by
  rw [get_mgmt_buffer_swap] at h
  cases hb : get_h2t_buffer s.swap_channels hw sz with
  | none =>
    rw [hb] at h
    exact absurd h (by simp)
  | some c =>
    rw [hb, Option.map_some'] at h
    have e := Option.some.inj h
    subst e
    obtain ⟨a1, a2, a3, a4, a5⟩ := get_h2t_buffer_other s.swap_channels hw sz c hb
    obtain ⟨_, _, f3, f4, f5, f6, f7, f8, f9, f10, _, _, f13, f14, _⟩ :=
      Driver.swap_channels_fields s
    obtain ⟨_, _, g3, g4, g5, g6, g7, g8, g9, g10, _, _, g13, g14, _⟩ :=
      Driver.swap_channels_fields c.state
    unfold BufferResult.swap_channels
    dsimp only
    rw [g3, g5, g7, g8, g13, a1, a2, a3, a4, a5, f4, f6, f9, f10, f14]
    exact ⟨rfl, rfl, rfl, rfl, rfl⟩

/-- C34: channel symmetry. With `swap_channels` the renaming that exchanges the MGMT slot count,
chain, read and write indices and circular buffer with the H2T ones (and, on traces, register
0x300 with 0x100 and the two circular buffers), for every state `s`, hardware slot value `hw`
and size `sz`: `get_mgmt_buffer` on `s` is `get_h2t_buffer` on the renamed state with the
result renamed back (same return value, corresponding post-state and trace), and the other way
round; a returning `get_h2t_buffer` leaves the five MGMT fields as they were, and a returning
`get_mgmt_buffer` leaves the five H2T fields as they were. -/
theorem C34_channel_symmetry (s : Driver) (hw sz : Nat) :
    get_mgmt_buffer s hw sz =
      (get_h2t_buffer s.swap_channels hw sz).map BufferResult.swap_channels ∧
    get_h2t_buffer s hw sz =
      (get_mgmt_buffer s.swap_channels hw sz).map BufferResult.swap_channels ∧
    (∀ b, get_mgmt_buffer s hw sz = some b →
      ∃ c, get_h2t_buffer s.swap_channels hw sz = some c ∧ b.ret = c.ret ∧
        b.state = c.state.swap_channels ∧ b.trace = c.trace.map Call.swap_channels) ∧
    (∀ b, get_h2t_buffer s hw sz = some b →
      b.state.g_mgmt_descriptor_slots_available = s.g_mgmt_descriptor_slots_available ∧
      b.state.g_mgmt_descriptor_chain = s.g_mgmt_descriptor_chain ∧
      b.state.g_mgmt_descriptor_write_idx = s.g_mgmt_descriptor_write_idx ∧
      b.state.g_mgmt_descriptor_read_idx = s.g_mgmt_descriptor_read_idx ∧
      b.state.g_mgmt_rx_cbuff = s.g_mgmt_rx_cbuff) ∧
    (∀ b, get_mgmt_buffer s hw sz = some b →
      b.state.g_h2t_descriptor_slots_available = s.g_h2t_descriptor_slots_available ∧
      b.state.g_h2t_descriptor_chain = s.g_h2t_descriptor_chain ∧
      b.state.g_h2t_descriptor_write_idx = s.g_h2t_descriptor_write_idx ∧
      b.state.g_h2t_descriptor_read_idx = s.g_h2t_descriptor_read_idx ∧
      b.state.g_h2t_rx_cbuff = s.g_h2t_rx_cbuff) := by
  refine ⟨get_mgmt_buffer_swap s hw sz, ?_, ?_, get_h2t_buffer_other s hw sz,
    get_mgmt_buffer_other s hw sz⟩
  · rw [get_mgmt_buffer_swap, Driver.swap_channels_swap, Option.map_map]
    have h : BufferResult.swap_channels ∘ BufferResult.swap_channels = id := by
      funext b
      exact BufferResult.swap_channels_twice b
    rw [h, Option.map_id]
    rfl
  · intro b hb
    rw [get_mgmt_buffer_swap] at hb
    cases hc : get_h2t_buffer s.swap_channels hw sz with
    | none =>
      rw [hc] at hb
      exact absurd hb (by simp)
    | some c =>
      rw [hc, Option.map_some'] at hb
      have e := Option.some.inj hb
      subst e
      exact ⟨c, rfl, rfl, rfl, rfl⟩

/-! ## Write-index wraparound -/

theorem h2t_reserve_position (s : Driver) (sz : Nat)
    (h1 : 0 < s.g_h2t_descriptor_slots_available)
    (h2 : GET_ALIGNED_SZ sz ≤ s.g_h2t_rx_cbuff.space_available) :
    (h2t_reserve s sz).state.g_h2t_descriptor_chain =
      Function.update s.g_h2t_descriptor_chain (s.g_h2t_descriptor_write_idx % 128)
        (GET_ALIGNED_SZ sz % 2 ^ 16) ∧
    (h2t_reserve s sz).state.g_h2t_descriptor_write_idx =
      (s.g_h2t_descriptor_write_idx + 1) % 2 ^ 16 ∧
    (h2t_reserve s sz).state.g_h2t_descriptor_slots_available =
      s.g_h2t_descriptor_slots_available ∧
    (h2t_reserve s sz).state.g_h2t_descriptor_read_idx = s.g_h2t_descriptor_read_idx := by
  rw [h2t_reserve_ok s sz h1 h2]
  refine ⟨?_, ?_, ?_, ?_⟩ <;> dsimp only
  rfl

theorem write_idx_position (w k : Nat) :
    ((w + k) % 2 ^ 16) % 128 = (w % 128 + k) % 128 := by
  omega

theorem h2t_reclaim_read_idx (s : Driver) (hw : Nat) (r : Step)
    (h : h2t_reclaim s hw = some r) (hr : s.g_h2t_descriptor_read_idx < 128) :
    r.state.g_h2t_descriptor_read_idx < 128 := by
  unfold h2t_reclaim at h
  dsimp only at h
  by_cases hf : freed_descriptor_slots hw s.g_h2t_descriptor_slots_available > 0
  · rw [if_pos hf] at h
    cases hb : bytes_freed_loop s.g_h2t_descriptor_chain s.g_h2t_descriptor_read_idx
        (freed_descriptor_slots hw s.g_h2t_descriptor_slots_available) 256 0 0 with
    | none =>
      rw [hb] at h
      exact absurd h (by simp)
    | some b =>
      rw [hb] at h
      have e := Option.some.inj h
      subst e
      dsimp only
      unfold MAX_H2T_DESCRIPTOR_DEPTH
      omega
  · rw [if_neg hf] at h
    have e := Option.some.inj h
    subst e
    exact hr

/-- C35: write-index wraparound.  For every state `s` with a free slot and room for the rounded
size (so that the reservation succeeds), with `w` the value of `g_h2t_descriptor_write_idx`:
`h2t_reserve` stores the rounded size at chain position `w % 128` and nowhere else, and sets
the index to `(w + 1) % 65536` without reducing it modulo 128 (from `w = 65535` the new index
is 0); the position the next reservation uses, `((w + 1) % 65536) % 128`, is
`(w % 128 + 1) % 128`, and a second successful reservation stores its size exactly there; more
generally the position after `k` increments is `(w % 128 + k) % 128`.  On the read side,
`h2t_reclaim` keeps `g_h2t_descriptor_read_idx` below 128 once it is. -/
theorem C35_write_index_wrap (s : Driver) (sz : Nat)
    (h1 : 0 < s.g_h2t_descriptor_slots_available)
    (h2 : GET_ALIGNED_SZ sz ≤ s.g_h2t_rx_cbuff.space_available) :
    (h2t_reserve s sz).state.g_h2t_descriptor_chain =
      Function.update s.g_h2t_descriptor_chain (s.g_h2t_descriptor_write_idx % 128)
        (GET_ALIGNED_SZ sz % 2 ^ 16) ∧
    (h2t_reserve s sz).state.g_h2t_descriptor_write_idx =
      (s.g_h2t_descriptor_write_idx + 1) % 2 ^ 16 ∧
    (s.g_h2t_descriptor_write_idx = 65535 →
      (h2t_reserve s sz).state.g_h2t_descriptor_write_idx = 0) ∧
    (h2t_reserve s sz).state.g_h2t_descriptor_write_idx % 128 =
      (s.g_h2t_descriptor_write_idx % 128 + 1) % 128 ∧
    (∀ sz2, GET_ALIGNED_SZ sz2 ≤ (h2t_reserve s sz).state.g_h2t_rx_cbuff.space_available →
      (h2t_reserve (h2t_reserve s sz).state sz2).state.g_h2t_descriptor_chain =
        Function.update (h2t_reserve s sz).state.g_h2t_descriptor_chain
          ((s.g_h2t_descriptor_write_idx % 128 + 1) % 128) (GET_ALIGNED_SZ sz2 % 2 ^ 16) ∧
      (h2t_reserve (h2t_reserve s sz).state sz2).state.g_h2t_descriptor_write_idx % 128 =
        (s.g_h2t_descriptor_write_idx % 128 + 2) % 128) ∧
    (∀ k, ((s.g_h2t_descriptor_write_idx + k) % 2 ^ 16) % 128 =
      (s.g_h2t_descriptor_write_idx % 128 + k) % 128) ∧
    (∀ hw r, h2t_reclaim s hw = some r → s.g_h2t_descriptor_read_idx < 128 →
      r.state.g_h2t_descriptor_read_idx < 128) := by
  obtain ⟨e1, e2, e3, e4⟩ := h2t_reserve_position s sz h1 h2
  have e5 : (h2t_reserve s sz).state.g_h2t_descriptor_write_idx % 128 =
      (s.g_h2t_descriptor_write_idx % 128 + 1) % 128 := by
    rw [e2]
    exact write_idx_position _ 1
  refine ⟨e1, e2, ?_, e5, ?_, fun k => write_idx_position _ k,
    fun hw r h hr => h2t_reclaim_read_idx s hw r h hr⟩
  · intro hw
    rw [e2, hw]
    norm_num
  · intro sz2 h3
    have h1b : 0 < (h2t_reserve s sz).state.g_h2t_descriptor_slots_available := by
      rw [e3]
      exact h1
    obtain ⟨f1, f2, _, _⟩ := h2t_reserve_position (h2t_reserve s sz).state sz2 h1b h3
    refine ⟨?_, ?_⟩
    · rw [f1, e5]
    · rw [f2, write_idx_position, e5]
      omega

/-- C35 at the state whose write index holds 65535, with a request of 100 bytes: the size is
stored at position 127 and the index returns to 0. -/
theorem C35_write_index_wrap_witness :
    state_write_idx_65535.g_h2t_descriptor_write_idx = 65535 ∧
    (h2t_reserve state_write_idx_65535 100).state.g_h2t_descriptor_write_idx = 0 ∧
    (h2t_reserve state_write_idx_65535 100).state.g_h2t_descriptor_chain 127 = 104 :=
  ⟨rfl,
   (C35_write_index_wrap state_write_idx_65535 100 (by decide) (by decide)).2.2.1 rfl,
   by
    rw [(C35_write_index_wrap state_write_idx_65535 100 (by decide) (by decide)).1]
    decide⟩

/-! ## Interrupt enable and the bits of the configuration register -/

theorem bitnot32_testBit (x i : Nat) :
    (bitnot32 x).testBit i = (decide (i < 32) && !x.testBit i) := by
  unfold bitnot32
  rw [Nat.testBit_xor, Nat.testBit_two_pow_sub_one, Nat.testBit_mod_two_pow]
  by_cases h : i < 32 <;> simp [h]

theorem bitnot32_lt (x : Nat) : bitnot32 x < 2 ^ 32 := by
  unfold bitnot32
  exact Nat.xor_lt_two_pow (by omega) (Nat.mod_lt _ (by decide))

theorem enable_interrupts_one (rd : Nat) :
    enable_interrupts 1 rd =
      [.fpga_read_32 ST_DBG_IP_CONFIG_RESET_AND_LOOPBACK,
       .fpga_write_32 ST_DBG_IP_CONFIG_RESET_AND_LOOPBACK (rd % 2 ^ 32 ||| 4)] := by
  have h : (rd % 2 ^ 32 ||| 4) % 2 ^ 32 = rd % 2 ^ 32 ||| 4 :=
    Nat.mod_eq_of_lt (Nat.or_lt_two_pow (Nat.mod_lt _ (by decide)) (by decide))
  unfold enable_interrupts
  dsimp only
  rw [if_pos rfl]
  unfold ST_DBG_IP_CONFIG_ENABLE_INT_FIELD
  rw [h]

theorem enable_interrupts_other (val : Int) (hv : val ≠ 1) (rd : Nat) :
    enable_interrupts val rd =
      [.fpga_read_32 ST_DBG_IP_CONFIG_RESET_AND_LOOPBACK,
       .fpga_write_32 ST_DBG_IP_CONFIG_RESET_AND_LOOPBACK (rd % 2 ^ 32 &&& 0xFFFFFFFB)] := by
  have hb : bitnot32 ST_DBG_IP_CONFIG_ENABLE_INT_FIELD = 0xFFFFFFFB := by decide
  have h : (rd % 2 ^ 32 &&& 0xFFFFFFFB) % 2 ^ 32 = rd % 2 ^ 32 &&& 0xFFFFFFFB :=
    Nat.mod_eq_of_lt (Nat.and_lt_two_pow _ (by decide))
  unfold enable_interrupts
  dsimp only
  rw [if_neg hv, hb, h]

theorem or_four_testBit (x i : Nat) :
    (x ||| 4).testBit i = (x.testBit i || decide (i = 2)) := by
  rw [Nat.testBit_or, show (4 : Nat) = 2 ^ 2 from rfl, Nat.testBit_two_pow]
  by_cases h : i = 2
  · subst h
    simp
  · have h2 : ¬ 2 = i := fun e => h e.symm
    simp [h, h2]

theorem and_not_four_testBit (x i : Nat) :
    (x % 2 ^ 32 &&& 0xFFFFFFFB).testBit i = ((x % 2 ^ 32).testBit i && !decide (i = 2)) := by
  have hb : (0xFFFFFFFB : Nat) = bitnot32 4 := by decide
  rw [Nat.testBit_and, hb, bitnot32_testBit, Nat.testBit_mod_two_pow,
    show (4 : Nat) = 2 ^ 2 from rfl, Nat.testBit_two_pow]
  by_cases h32 : i < 32
  · by_cases h : i = 2
    · subst h
      simp
    · have h2 : ¬ 2 = i := fun e => h e.symm
      simp [h, h2, h32]
  · simp [h32]

/-- C37: `enable_interrupts` changes only the interrupt-enable bit.  For every argument `val`
and every value `rd` read from the reset-and-loopback register, the function reads that
register once and writes one value `w` to it: `rd | 0x4` when `val = 1` and `rd & 0xFFFFFFFB`
otherwise, so bit 2 of `w` is set exactly when `val = 1` and every other bit of `w` is the bit
of `rd`; over a register that reads back the value written, a second call with the same
argument reads `w` and writes `w` again. -/
theorem C37_enable_interrupts_frame (val : Int) (rd : Nat) :
    ∃ w, enable_interrupts val rd =
        [.fpga_read_32 ST_DBG_IP_CONFIG_RESET_AND_LOOPBACK,
         .fpga_write_32 ST_DBG_IP_CONFIG_RESET_AND_LOOPBACK w] ∧
      w = (if val = 1 then rd % 2 ^ 32 ||| 4 else rd % 2 ^ 32 &&& 0xFFFFFFFB) ∧
      w.testBit 2 = decide (val = 1) ∧
      (∀ i, w.testBit i = if i = 2 then decide (val = 1) else (rd % 2 ^ 32).testBit i) ∧
      enable_interrupts val w =
        [.fpga_read_32 ST_DBG_IP_CONFIG_RESET_AND_LOOPBACK,
         .fpga_write_32 ST_DBG_IP_CONFIG_RESET_AND_LOOPBACK w] := by
  by_cases hv : val = 1
  · subst hv
    have hbit : ∀ i, (rd % 2 ^ 32 ||| 4).testBit i =
        if i = 2 then decide ((1 : Int) = 1) else (rd % 2 ^ 32).testBit i := by
      intro i
      rw [or_four_testBit]
      by_cases h : i = 2
      · rw [if_pos h]
        simp [h]
      · rw [if_neg h]
        simp [h]
    have hlt : rd % 2 ^ 32 ||| 4 < 2 ^ 32 :=
      Nat.or_lt_two_pow (Nat.mod_lt _ (by decide)) (by decide)
    refine ⟨rd % 2 ^ 32 ||| 4, enable_interrupts_one rd, ?_, ?_, hbit, ?_⟩
    · rw [if_pos rfl]
    · rw [hbit 2, if_pos rfl]
    · rw [enable_interrupts_one, Nat.mod_eq_of_lt hlt, Nat.or_assoc, Nat.or_self]
  · have hbit : ∀ i, (rd % 2 ^ 32 &&& 0xFFFFFFFB).testBit i =
        if i = 2 then decide (val = 1) else (rd % 2 ^ 32).testBit i := by
      intro i
      rw [and_not_four_testBit]
      by_cases h : i = 2
      · rw [if_pos h]
        simp [h, hv]
      · rw [if_neg h]
        simp [h]
    have hlt : rd % 2 ^ 32 &&& 0xFFFFFFFB < 2 ^ 32 := Nat.and_lt_two_pow _ (by decide)
    refine ⟨rd % 2 ^ 32 &&& 0xFFFFFFFB, enable_interrupts_other val hv rd, ?_, ?_, hbit, ?_⟩
    · rw [if_neg hv]
    · rw [hbit 2, if_pos rfl]
    · rw [enable_interrupts_other val hv, Nat.mod_eq_of_lt hlt, Nat.and_assoc, Nat.and_self]

theorem testBit_0x1 (i : Nat) : (0x1 : Nat).testBit i = decide (0 = i) := by
  show ((2 : Nat) ^ 0).testBit i = _
  rw [Nat.testBit_two_pow]

theorem testBit_0x2 (i : Nat) : (0x2 : Nat).testBit i = decide (1 = i) := by
  show ((2 : Nat) ^ 1).testBit i = _
  rw [Nat.testBit_two_pow]

theorem testBit_0x10 (i : Nat) : (0x10 : Nat).testBit i = decide (4 = i) := by
  show ((2 : Nat) ^ 4).testBit i = _
  rw [Nat.testBit_two_pow]

theorem testBit_0x20 (i : Nat) : (0x20 : Nat).testBit i = decide (5 = i) := by
  show ((2 : Nat) ^ 5).testBit i = _
  rw [Nat.testBit_two_pow]

theorem set_loopback_mode_one_bits (rd i : Nat) :
    ((rd % 2 ^ 32 ||| ST_DBG_IP_CONFIG_H2T_T2H_LOOPBACK_FIELD |||
        ST_DBG_IP_CONFIG_H2T_T2H_RESET_FIELD |||
        ST_DBG_IP_CONFIG_MGMT_AND_RSP_RESET_FIELD |||
        ST_DBG_IP_CONFIG_MGMT_AND_RSP_LOOPBACK_FIELD) % 2 ^ 32).testBit i =
      (decide (i < 32) &&
        ((rd % 2 ^ 32).testBit i || decide (1 = i) || decide (0 = i) || decide (4 = i) ||
          decide (5 = i))) := by
  unfold ST_DBG_IP_CONFIG_H2T_T2H_LOOPBACK_FIELD ST_DBG_IP_CONFIG_H2T_T2H_RESET_FIELD
    ST_DBG_IP_CONFIG_MGMT_AND_RSP_RESET_FIELD ST_DBG_IP_CONFIG_MGMT_AND_RSP_LOOPBACK_FIELD
  rw [Nat.testBit_mod_two_pow, Nat.testBit_or, Nat.testBit_or, Nat.testBit_or, Nat.testBit_or,
    testBit_0x1, testBit_0x2, testBit_0x10, testBit_0x20]

theorem set_loopback_mode_other_bits (rd i : Nat) :
    (((rd % 2 ^ 32 &&& bitnot32 ST_DBG_IP_CONFIG_H2T_T2H_LOOPBACK_FIELD) |||
        ST_DBG_IP_CONFIG_H2T_T2H_RESET_FIELD |||
        bitnot32 ST_DBG_IP_CONFIG_MGMT_AND_RSP_RESET_FIELD |||
        ST_DBG_IP_CONFIG_MGMT_AND_RSP_LOOPBACK_FIELD) % 2 ^ 32).testBit i =
      (decide (i < 32) &&
        (((rd % 2 ^ 32).testBit i && (decide (i < 32) && !decide (1 = i))) || decide (0 = i) ||
          (decide (i < 32) && !decide (4 = i)) || decide (5 = i))) := by
  unfold ST_DBG_IP_CONFIG_H2T_T2H_LOOPBACK_FIELD ST_DBG_IP_CONFIG_H2T_T2H_RESET_FIELD
    ST_DBG_IP_CONFIG_MGMT_AND_RSP_RESET_FIELD ST_DBG_IP_CONFIG_MGMT_AND_RSP_LOOPBACK_FIELD
  rw [Nat.testBit_mod_two_pow, Nat.testBit_or, Nat.testBit_or, Nat.testBit_or, Nat.testBit_and,
    bitnot32_testBit, bitnot32_testBit, testBit_0x1, testBit_0x2, testBit_0x10, testBit_0x20]

/-- C36 (code defect, the statement C11 shows): `set_loopback_mode` reads the
reset-and-loopback register once and writes one value `w` to it.  With argument 1 every bit of
`w` other than bits 0, 1, 4 and 5 (the mask 0x33) is the bit of the value `rd` read.  With any
other argument every bit of `w` below 32 other than bit 4 is set, whatever `rd` is: the
complement of the MGMT reset field is OR-ed in.  So the interrupt-enable bit 0x4 and every
other bit outside the mask are overwritten with 1; from `rd = 0`, where bit 2 is clear,
`set_loopback_mode(0)` writes `0xFFFFFFEF`, where bit 2 is set. -/
theorem C36_loopback_overwrites_bits (val : Int) (rd : Nat) :
    (∃ w, set_loopback_mode val rd =
        [.fpga_read_32 ST_DBG_IP_CONFIG_RESET_AND_LOOPBACK,
         .fpga_write_32 ST_DBG_IP_CONFIG_RESET_AND_LOOPBACK w] ∧
      (if val = 1 then
        ∀ i, i ≠ 0 → i ≠ 1 → i ≠ 4 → i ≠ 5 → w.testBit i = (rd % 2 ^ 32).testBit i
      else
        ∀ i, i < 32 → i ≠ 4 → w.testBit i = true)) ∧
    set_loopback_mode 0 0 =
      [.fpga_read_32 ST_DBG_IP_CONFIG_RESET_AND_LOOPBACK,
       .fpga_write_32 ST_DBG_IP_CONFIG_RESET_AND_LOOPBACK 0xFFFFFFEF] ∧
    (0 : Nat).testBit 2 = false ∧
    (0xFFFFFFEF : Nat).testBit 2 = true ∧
    (0xFFFFFFEF : Nat) &&& ST_DBG_IP_CONFIG_ENABLE_INT_FIELD ≠
      0 &&& ST_DBG_IP_CONFIG_ENABLE_INT_FIELD := by
  refine ⟨?_, by decide, by decide, by decide, by decide⟩
  by_cases hv : val = 1
  · refine ⟨(rd % 2 ^ 32 ||| ST_DBG_IP_CONFIG_H2T_T2H_LOOPBACK_FIELD |||
        ST_DBG_IP_CONFIG_H2T_T2H_RESET_FIELD |||
        ST_DBG_IP_CONFIG_MGMT_AND_RSP_RESET_FIELD |||
        ST_DBG_IP_CONFIG_MGMT_AND_RSP_LOOPBACK_FIELD) % 2 ^ 32, ?_, ?_⟩
    · unfold set_loopback_mode
      dsimp only
      rw [if_pos hv]
    · rw [if_pos hv]
      intro i h0 h1 h4 h5
      rw [set_loopback_mode_one_bits, Nat.testBit_mod_two_pow]
      have e0 : ¬ 0 = i := fun e => h0 e.symm
      have e1 : ¬ 1 = i := fun e => h1 e.symm
      have e4 : ¬ 4 = i := fun e => h4 e.symm
      have e5 : ¬ 5 = i := fun e => h5 e.symm
      simp [e0, e1, e4, e5]
  · refine ⟨((rd % 2 ^ 32 &&& bitnot32 ST_DBG_IP_CONFIG_H2T_T2H_LOOPBACK_FIELD) |||
        ST_DBG_IP_CONFIG_H2T_T2H_RESET_FIELD |||
        bitnot32 ST_DBG_IP_CONFIG_MGMT_AND_RSP_RESET_FIELD |||
        ST_DBG_IP_CONFIG_MGMT_AND_RSP_LOOPBACK_FIELD) % 2 ^ 32, ?_, ?_⟩
    · unfold set_loopback_mode
      dsimp only
      rw [if_neg hv]
    · rw [if_neg hv]
      intro i h32 h4
      rw [set_loopback_mode_other_bits]
      have e4 : ¬ 4 = i := fun e => h4 e.symm
      simp [h32, e4]

/-! ## Bridge round trip over a device memory -/

theorem device_after_append (l1 : List Access64) :
    ∀ (mem : Int → Nat) (l2 : List Access64),
      device_after mem (l1 ++ l2) = device_after (device_after mem l1) l2 := by
  induction l1 with
  | nil =>
    intro mem l2
    rfl
  | cons c t ih =>
    intro mem l2
    cases c with
    | fpga_read_64 fpga_buff => exact ih mem l2
    | fpga_write_64 fpga_buff value => exact ih (Function.update mem fpga_buff value) l2

theorem device_after_reads (mem : Int → Nat) (g : Nat → Int) (n : Nat) :
    device_after mem ((List.range n).map (fun (k : Nat) => Access64.fpga_read_64 (g k))) = mem := by
  induction n with
  | zero => rfl
  | succ n ih =>
    rw [List.range_succ, List.map_append, device_after_append, ih]
    rfl

theorem device_after_writes_succ (mem : Int → Nat) (a : Int) (f : Nat → Nat) (n : Nat) :
    device_after mem ((List.range (n + 1)).map
        (fun (k : Nat) => Access64.fpga_write_64 (a + 8 * (k : Int)) (f k))) =
      Function.update
        (device_after mem ((List.range n).map
          (fun (k : Nat) => Access64.fpga_write_64 (a + 8 * (k : Int)) (f k))))
        (a + 8 * (n : Int)) (f n) := by
  rw [List.range_succ, List.map_append, device_after_append]
  rfl

theorem device_after_writes_at (mem : Int → Nat) (a : Int) (f : Nat → Nat) (n : Nat) :
    ∀ j, j < n →
      device_after mem ((List.range n).map
        (fun (k : Nat) => Access64.fpga_write_64 (a + 8 * (k : Int)) (f k))) (a + 8 * (j : Int)) =
        f j := by
  induction n with
  | zero =>
    intro j hj
    omega
  | succ n ih =>
    intro j hj
    rw [device_after_writes_succ]
    by_cases h : j = n
    · subst h
      exact Function.update_same _ _ _
    · have hne : a + 8 * (j : Int) ≠ a + 8 * (n : Int) := by omega
      rw [Function.update_noteq hne]
      exact ih j (by omega)

theorem device_after_writes_outside (mem : Int → Nat) (a : Int) (f : Nat → Nat) (n : Nat)
    (x : Int) (hx : x < a ∨ a + 8 * (n : Int) ≤ x) :
    device_after mem ((List.range n).map
      (fun (k : Nat) => Access64.fpga_write_64 (a + 8 * (k : Int)) (f k))) x = mem x := by
  induction n with
  | zero => rfl
  | succ n ih =>
    rw [device_after_writes_succ]
    have hne : x ≠ a + 8 * (n : Int) := by
      push_cast at hx
      omega
    rw [Function.update_noteq hne]
    exact ih (by push_cast at hx; omega)

theorem memcpy64_fpga2host_mem_loop_spec (mem : Int → Nat) :
    ∀ (n : Nat) (fpga_buff : Int), fpga_buff + 8 * (n : Int) ≤ 2 ^ 31 - 1 →
      memcpy64_fpga2host_mem_loop mem n fpga_buff =
        some { host_buff := (List.range n).map
                 (fun (k : Nat) => mem (fpga_buff + 8 * (k : Int)) % 2 ^ 64)
               trace := (List.range n).map
                 (fun (k : Nat) => .fpga_read_64 (fpga_buff + 8 * (k : Int))) } := by
  intro n
  induction n with
  | zero =>
    intro fpga_buff _
    rfl
  | succ n ih =>
    intro fpga_buff h
    have h8 : fpga_buff + 8 ≤ 2 ^ 31 - 1 := by
      push_cast at h
      omega
    have hrec : fpga_buff + 8 + 8 * (n : Int) ≤ 2 ^ 31 - 1 := by
      push_cast at h
      omega
    unfold memcpy64_fpga2host_mem_loop int32_add_8
    rw [if_pos h8]
    dsimp only
    rw [ih (fpga_buff + 8) hrec]
    dsimp only
    have f1 : (fun (k : Nat) => mem (fpga_buff + 8 + 8 * (k : Int)) % 2 ^ 64) =
        (fun (k : Nat) => mem (fpga_buff + 8 * (k : Int)) % 2 ^ 64) ∘ Nat.succ := by
      funext k
      show _ = mem (fpga_buff + 8 * ((k + 1 : Nat) : Int)) % 2 ^ 64
      rw [show fpga_buff + 8 + 8 * (k : Int) = fpga_buff + 8 * ((k + 1 : Nat) : Int) by
        push_cast; ring]
    have f2 : (fun (k : Nat) => Access64.fpga_read_64 (fpga_buff + 8 + 8 * (k : Int))) =
        (fun (k : Nat) => Access64.fpga_read_64 (fpga_buff + 8 * (k : Int))) ∘ Nat.succ := by
      funext k
      show _ = Access64.fpga_read_64 (fpga_buff + 8 * ((k + 1 : Nat) : Int))
      rw [show fpga_buff + 8 + 8 * (k : Int) = fpga_buff + 8 * ((k + 1 : Nat) : Int) by
        push_cast; ring]
    rw [f1, f2, List.range_succ_eq_map, List.map_cons, List.map_cons, List.map_map,
      List.map_map]
    simp

/-- C33, counterexample: for `len = 2 ^ 64 - 1` the word count `(len + 7) / 8` wraps to 0, so
`memcpy64_host2fpga` writes nothing and `memcpy64_fpga2host` reads nothing, although
`ceil(len / 8)` is `2 ^ 61`; and for the device address `2 ^ 31 - 8` with `len = 8` the
statement `fpga_buff += 8` after the only transfer overflows `int32_t`, so neither function
has a defined result. -/
theorem C33_counterexample :
    memcpy64_host2fpga (fun i => i + 1) 0 (2 ^ 64 - 1) = some [] ∧
    memcpy64_fpga2host_mem (fun _ => 0) 0 (2 ^ 64 - 1) =
      some { host_buff := [], trace := [] } ∧
    (2 ^ 64 - 1 + 7) / 8 = 2 ^ 61 ∧
    memcpy64_host2fpga (fun i => i + 1) (2 ^ 31 - 8) 8 = none ∧
    memcpy64_fpga2host_mem (fun _ => 0) (2 ^ 31 - 8) 8 = none := by
  decide

/-- C33, amended: bridge round trip.  Over a device memory in which a 64-bit read of an address
returns the value last written to it, for every `len ≤ 2 ^ 64 - 8`, every device address `a`
for which `a + 8 * ceil(len / 8)` does not overflow `int32_t`, every host buffer `src` and
every prior memory `mem`: `memcpy64_host2fpga(src, a, len)` followed by
`memcpy64_fpga2host(a, dst, len)` both complete, the words stored through `dst` are the
`ceil(len / 8)` words `src[0]`, `src[1]`, ... in order, every access is at an address from `a`
on whose 8 bytes end at or before `a + 8 * ceil(len / 8)`, and the memory at every address
outside that range is what it was. -/
theorem C33_bridge_round_trip (src : Nat → Nat) (mem : Int → Nat) (a : Int) (len : Nat)
    (hlen : len ≤ 2 ^ 64 - 8)
    (hno : a + 8 * (((len + 7) / 8 : Nat) : Int) ≤ 2 ^ 31 - 1) :
    ∃ t r, memcpy64_host2fpga src a len = some t ∧
      memcpy64_fpga2host_mem (device_after mem t) a len = some r ∧
      r.host_buff = (List.range ((len + 7) / 8)).map (fun i => src i % 2 ^ 64) ∧
      (∀ c, c ∈ t ++ r.trace →
        a ≤ c.address ∧ c.address + 8 ≤ a + 8 * (((len + 7) / 8 : Nat) : Int)) ∧
      (∀ x, x < a ∨ a + 8 * (((len + 7) / 8 : Nat) : Int) ≤ x →
        device_after mem (t ++ r.trace) x = mem x) := by
  have ht : ((len % 2 ^ 64 + 7) % 2 ^ 64) / 8 = (len + 7) / 8 := by omega
  have e1 := memcpy64_host2fpga_loop_spec src ((len + 7) / 8) 0 a hno
  simp only [Nat.zero_add] at e1
  refine ⟨(List.range ((len + 7) / 8)).map
      (fun (k : Nat) => Access64.fpga_write_64 (a + 8 * (k : Int)) (src k % 2 ^ 64)),
    { host_buff := (List.range ((len + 7) / 8)).map
        (fun (k : Nat) => device_after mem ((List.range ((len + 7) / 8)).map
          (fun (k : Nat) => Access64.fpga_write_64 (a + 8 * (k : Int)) (src k % 2 ^ 64)))
          (a + 8 * (k : Int)) % 2 ^ 64)
      trace := (List.range ((len + 7) / 8)).map
        (fun (k : Nat) => Access64.fpga_read_64 (a + 8 * (k : Int))) }, ?_, ?_, ?_, ?_, ?_⟩
  · unfold memcpy64_host2fpga
    dsimp only
    rw [ht]
    exact e1
  · unfold memcpy64_fpga2host_mem
    dsimp only
    rw [ht]
    exact memcpy64_fpga2host_mem_loop_spec _ ((len + 7) / 8) a hno
  · dsimp only
    apply List.map_congr_left
    intro k hk
    rw [List.mem_range] at hk
    rw [device_after_writes_at mem a (fun k => src k % 2 ^ 64) ((len + 7) / 8) k hk]
    exact Nat.mod_mod _ _
  · intro c hc
    rw [List.mem_append, List.mem_map, List.mem_map] at hc
    rcases hc with ⟨k, hk, e⟩ | ⟨k, hk, e⟩
    · rw [List.mem_range] at hk
      subst e
      show a ≤ a + 8 * (k : Int) ∧ a + 8 * (k : Int) + 8 ≤ _
      omega
    · rw [List.mem_range] at hk
      subst e
      show a ≤ a + 8 * (k : Int) ∧ a + 8 * (k : Int) + 8 ≤ _
      omega
  · intro x hx
    rw [device_after_append, device_after_reads]
    exact device_after_writes_outside mem a (fun k => src k % 2 ^ 64) ((len + 7) / 8) x hx

/-- C33 at device address `0x1000` with `len = 17` over a memory of zeros: three words are
written and read back. -/
theorem C33_bridge_round_trip_witness :
    ((17 : Nat) ≤ 2 ^ 64 - 8 ∧ (0x1000 : Int) + 8 * (((17 + 7) / 8 : Nat) : Int) ≤ 2 ^ 31 - 1) ∧
    (∃ t r, memcpy64_host2fpga (fun i => 100 + i) 0x1000 17 = some t ∧
      memcpy64_fpga2host_mem (device_after (fun _ => 0) t) 0x1000 17 = some r ∧
      r.host_buff = (List.range ((17 + 7) / 8)).map (fun i => (fun i => 100 + i) i % 2 ^ 64) ∧
      (∀ c, c ∈ t ++ r.trace →
        0x1000 ≤ c.address ∧ c.address + 8 ≤ 0x1000 + 8 * (((17 + 7) / 8 : Nat) : Int)) ∧
      (∀ x, x < 0x1000 ∨ 0x1000 + 8 * (((17 + 7) / 8 : Nat) : Int) ≤ x →
        device_after (fun _ => 0) (t ++ r.trace) x = (fun _ => 0) x)) ∧
    (memcpy64_fpga2host_mem
        (device_after (fun _ => 0)
          [.fpga_write_64 0x1000 100, .fpga_write_64 0x1008 101, .fpga_write_64 0x1010 102])
        0x1000 17).map Fpga2Host.host_buff = some [100, 101, 102] :=
  ⟨⟨by decide, by decide⟩,
    C33_bridge_round_trip (fun i => 100 + i) (fun _ => 0) 0x1000 17 (by decide) (by decide),
    by decide⟩

/-! ## Command line: numeric reading of `parse_integer_arg` -/

theorem isdigit_iff (c : Char) : isdigit c = true ↔ 48 ≤ c.toNat ∧ c.toNat ≤ 57 := by
  unfold isdigit
  exact decide_eq_true_iff

theorem digit_value_of_isdigit (c : Char) (h : isdigit c = true) :
    digit_value c = c.toNat - 48 ∧ digit_value c < 10 := by
  rw [isdigit_iff] at h
  unfold digit_value
  rw [if_pos h]
  omega

theorem digit_value_of_isxdigit (c : Char) (h : isxdigit c = true) : digit_value c < 16 := by
  unfold isxdigit at h
  rw [Bool.or_eq_true, Bool.or_eq_true, isdigit_iff, decide_eq_true_iff,
    decide_eq_true_iff] at h
  unfold digit_value
  split_ifs <;> omega

theorem isspace_of_isdigit (c : Char) (h : isdigit c = true) : isspace c = false := by
  rw [isdigit_iff] at h
  unfold isspace
  rw [decide_eq_false_iff_not]
  omega

theorem ne_sign_of_isdigit (c : Char) (h : isdigit c = true) : c ≠ '-' ∧ c ≠ '+' := by
  refine ⟨?_, ?_⟩
  · intro e
    subst e
    exact absurd h (by decide)
  · intro e
    subst e
    exact absurd h (by decide)

theorem strtol_digits_eq (b : Nat) (s : List Char) :
    ∀ acc, (∀ c, c ∈ s → digit_value c < b) →
      strtol_digits b s acc = acc * b ^ s.length + numeral_value b s := by
  induction s with
  | nil =>
    intro acc _
    simp [strtol_digits, numeral_value]
  | cons c t ih =>
    intro acc h
    have hc : digit_value c < b := h c (List.mem_cons_self c t)
    have ht : ∀ d, d ∈ t → digit_value d < b := fun d hd => h d (List.mem_cons_of_mem c hd)
    unfold strtol_digits
    rw [if_pos hc, ih _ ht]
    unfold numeral_value
    rw [List.reverse_cons, List.map_append, Nat.ofDigits_append, List.length_map,
      List.length_reverse, List.map_singleton, Nat.ofDigits_singleton, List.length_cons]
    ring

theorem strtol_result_ok (m : Nat) (h : (m : Int) ≤ LONG_MAX) :
    strtol_result false m = { value := (m : Int), sets_ERANGE := false } := by
  unfold strtol_result
  rw [if_neg (by decide), if_neg (by omega)]

theorem strtol_result_big (m : Nat) (h : LONG_MAX < (m : Int)) :
    strtol_result false m = { value := LONG_MAX, sets_ERANGE := true } := by
  unfold strtol_result
  rw [if_neg (by decide), if_pos h]

theorem strtol_of_digit (c : Char) (t : List Char) (h : isdigit c = true) :
    strtol (c :: t) = strtol_result false (strtol_magnitude (c :: t)) := by
  obtain ⟨h1, h2⟩ := ne_sign_of_isdigit c h
  unfold strtol
  rw [List.dropWhile_cons_of_neg (by rw [isspace_of_isdigit c h]; decide)]
  dsimp only
  rw [if_neg h1, if_neg h2]

theorem strtol_decimal (s : List Char) (hall : s.all isdigit = true)
    (hhead : s.head? ≠ some '0') :
    strtol s = strtol_result false (numeral_value 10 s) := by
  rw [List.all_eq_true] at hall
  cases s with
  | nil => rfl
  | cons c t =>
    have hc : c ≠ '0' := by
      intro e
      apply hhead
      rw [e]
      rfl
    have h0x : strtol_has_0x (c :: t) = false := by
      cases t with
      | nil => rfl
      | cons c1 t1 =>
        cases t1 with
        | nil => rfl
        | cons c2 t2 =>
          unfold strtol_has_0x
          simp [hc]
    rw [strtol_of_digit c t (hall c (List.mem_cons_self c t))]
    unfold strtol_magnitude
    rw [h0x, if_neg (by decide), if_neg hhead,
      strtol_digits_eq 10 (c :: t) 0 (fun d hd => (digit_value_of_isdigit d (hall d hd)).2)]
    simp

theorem strtol_hex (x : Char) (ds : List Char) (hx : x = 'x' ∨ x = 'X')
    (hall : ds.all isxdigit = true) :
    strtol ('0' :: x :: ds) = strtol_result false (numeral_value 16 ds) := by
  rw [List.all_eq_true] at hall
  rw [strtol_of_digit '0' (x :: ds) (by decide)]
  cases ds with
  | nil =>
    rcases hx with e | e <;> subst e <;> decide
  | cons d t =>
    have hd : isxdigit d = true := hall d (List.mem_cons_self d t)
    have h0x : strtol_has_0x ('0' :: x :: d :: t) = true := by
      unfold strtol_has_0x
      rcases hx with e | e <;> subst e <;> simp [hd]
    unfold strtol_magnitude
    rw [h0x, if_pos rfl]
    show strtol_result false (strtol_digits 16 (d :: t) 0) = _
    rw [strtol_digits_eq 16 (d :: t) 0 (fun c hc => digit_value_of_isxdigit c (hall c hc))]
    simp

theorem starts_with_0x_of_digits (s : List Char) (hall : s.all isdigit = true) :
    starts_with_0x s = false := by
  rw [List.all_eq_true] at hall
  cases s with
  | nil => rfl
  | cons c0 t =>
    cases t with
    | nil => rfl
    | cons c1 t1 =>
      have h1 : isdigit c1 = true :=
        hall c1 (List.mem_cons_of_mem c0 (List.mem_cons_self c1 t1))
      have e1 : c1 ≠ 'x' := by
        intro e
        subst e
        exact absurd h1 (by decide)
      have e2 : c1 ≠ 'X' := by
        intro e
        subst e
        exact absurd h1 (by decide)
      unfold starts_with_0x
      simp [e1, e2]

theorem starts_with_0x_form (s : List Char) (h : starts_with_0x s = true) :
    ∃ x ds, s = '0' :: x :: ds ∧ (x = 'x' ∨ x = 'X') := by
  cases s with
  | nil => exact absurd h (by decide)
  | cons c0 t =>
    cases t with
    | nil =>
      unfold starts_with_0x at h
      exact absurd h (by simp)
    | cons c1 t1 =>
      unfold starts_with_0x at h
      simp only [Bool.and_eq_true, Bool.or_eq_true, decide_eq_true_eq] at h
      exact ⟨c1, t1, by rw [h.1], h.2⟩

theorem starts_with_0x_cons (x : Char) (ds : List Char) (hx : x = 'x' ∨ x = 'X') :
    starts_with_0x ('0' :: x :: ds) = true := by
  unfold starts_with_0x
  rcases hx with e | e <;> subst e <;> rfl

theorem is_all_digit_of_digits (s : List Char) (hall : s.all isdigit = true) :
    is_all_digit s = true := by
  unfold is_all_digit
  rw [starts_with_0x_of_digits s hall, if_neg (by decide)]
  exact hall

theorem is_all_digit_hex (x : Char) (ds : List Char) (hx : x = 'x' ∨ x = 'X') :
    is_all_digit ('0' :: x :: ds) = ds.all isxdigit := by
  unfold is_all_digit
  rw [starts_with_0x_cons x ds hx, if_pos rfl]
  rfl

theorem is_all_digit_other (s : List Char) (h1 : s.all isdigit = false)
    (h2 : ∀ x ds, s = '0' :: x :: ds → (x = 'x' ∨ x = 'X') → ds.all isxdigit = false) :
    is_all_digit s = false := by
  by_cases hs : starts_with_0x s = true
  · obtain ⟨x, ds, e, hx⟩ := starts_with_0x_form s hs
    subst e
    rw [is_all_digit_hex x ds hx]
    exact h2 x ds rfl hx
  · unfold is_all_digit
    rw [if_neg hs]
    exact h1

theorem parse_integer_arg_all (optarg : List Char) (e : Bool)
    (h : is_all_digit optarg = true) :
    parse_integer_arg optarg e =
      if (e || (strtol optarg).sets_ERANGE) = true then { ret := 0, errno_ERANGE := true }
      else { ret := to_ssize_t (to_size_t (strtol optarg).value), errno_ERANGE := false } := by
  unfold parse_integer_arg
  rw [if_pos h]

theorem parse_integer_arg_not_all (optarg : List Char) (e : Bool)
    (h : is_all_digit optarg = false) :
    parse_integer_arg optarg e = { ret := 0, errno_ERANGE := e } := by
  unfold parse_integer_arg
  rw [if_neg (by rw [h]; decide)]

theorem long_cast_round_trip (m : Nat) (h : (m : Int) ≤ LONG_MAX) :
    to_ssize_t (to_size_t (m : Int)) = (m : Int) := by
  unfold LONG_MAX at h
  rw [to_size_t_ofNat m (by omega), to_ssize_t_eq m (by omega)]

theorem parse_integer_arg_value (optarg : List Char) (m : Nat)
    (hall : is_all_digit optarg = true) (hs : strtol optarg = strtol_result false m) :
    ((m : Int) ≤ LONG_MAX →
      parse_integer_arg optarg false = { ret := (m : Int), errno_ERANGE := false }) ∧
    (LONG_MAX < (m : Int) →
      parse_integer_arg optarg false = { ret := 0, errno_ERANGE := true }) ∧
    parse_integer_arg optarg true = { ret := 0, errno_ERANGE := true } := by
  refine ⟨?_, ?_, ?_⟩
  · intro h
    rw [parse_integer_arg_all optarg false hall, hs, strtol_result_ok m h]
    dsimp only
    rw [if_neg (by decide), long_cast_round_trip m h]
  · intro h
    rw [parse_integer_arg_all optarg false hall, hs, strtol_result_big m h]
    dsimp only
    rw [if_pos (by decide)]
  · rw [parse_integer_arg_all optarg true hall, if_pos (by simp)]

theorem to_ssize_t_range (n : Nat) : -(2 ^ 63) ≤ to_ssize_t n ∧ to_ssize_t n < 2 ^ 63 := by
  unfold to_ssize_t
  split_ifs <;> omega

theorem parse_integer_arg_range (optarg : List Char) (e : Bool) :
    -(2 ^ 63) ≤ (parse_integer_arg optarg e).ret ∧ (parse_integer_arg optarg e).ret < 2 ^ 63 := by
  by_cases h : is_all_digit optarg = true
  · rw [parse_integer_arg_all optarg e h]
    by_cases h2 : (e || (strtol optarg).sets_ERANGE) = true
    · rw [if_pos h2]
      show -(2 ^ 63) ≤ (0 : Int) ∧ (0 : Int) < 2 ^ 63
      exact ⟨by decide, by decide⟩
    · rw [if_neg h2]
      exact to_ssize_t_range _
  · rw [parse_integer_arg_not_all optarg e (by simpa using h)]
    show -(2 ^ 63) ≤ (0 : Int) ∧ (0 : Int) < 2 ^ 63
    exact ⟨by decide, by decide⟩

theorem parse_cmd_args_case_m_spec (optarg : List Char) (e : Bool) :
    ((parse_integer_arg optarg e).ret = 0 →
      parse_cmd_args_case_m optarg e =
        { h2t_t2h_mem_size := 0, ret := some (-3),
          errno_ERANGE := (parse_integer_arg optarg e).errno_ERANGE }) ∧
    ((parse_integer_arg optarg e).ret ≠ 0 →
      parse_cmd_args_case_m optarg e =
        { h2t_t2h_mem_size := to_size_t (parse_integer_arg optarg e).ret, ret := none,
          errno_ERANGE := (parse_integer_arg optarg e).errno_ERANGE }) := by
  obtain ⟨hlo, hhi⟩ := parse_integer_arg_range optarg e
  refine ⟨?_, ?_⟩
  · intro h
    unfold parse_cmd_args_case_m
    dsimp only
    rw [h]
    rfl
  · intro h
    have hz : to_size_t (parse_integer_arg optarg e).ret ≠ 0 := by
      unfold to_size_t
      omega
    unfold parse_cmd_args_case_m
    dsimp only
    rw [if_neg hz]

theorem strtol_octal (t : List Char) (h : ∀ c, c ∈ t → 48 ≤ c.toNat ∧ c.toNat ≤ 55) :
    strtol ('0' :: t) = strtol_result false (numeral_value 8 ('0' :: t)) := by
  have h0x : strtol_has_0x ('0' :: t) = false := by
    cases t with
    | nil => rfl
    | cons c1 t1 =>
      cases t1 with
      | nil => rfl
      | cons c2 t2 =>
        have h1 := h c1 (List.mem_cons_self c1 _)
        have e1 : c1 ≠ 'x' := by
          intro e
          subst e
          exact absurd h1.2 (by decide)
        have e2 : c1 ≠ 'X' := by
          intro e
          subst e
          exact absurd h1.2 (by decide)
        unfold strtol_has_0x
        simp [e1, e2]
  have hd : ∀ c, c ∈ '0' :: t → digit_value c < 8 := by
    intro c hc
    rw [List.mem_cons] at hc
    rcases hc with e | hc
    · subst e
      decide
    · have hr := h c hc
      unfold digit_value
      rw [if_pos ⟨hr.1, by omega⟩]
      omega
  rw [strtol_of_digit '0' t (by decide)]
  unfold strtol_magnitude
  have hh : ('0' :: t).head? = some '0' := rfl
  rw [h0x, if_neg (by decide), if_pos hh, strtol_digits_eq 8 ('0' :: t) 0 hd]
  simp

theorem strtol_digits_takeWhile (b : Nat) (s : List Char) :
    ∀ acc, strtol_digits b s acc =
      strtol_digits b (s.takeWhile (fun c => decide (digit_value c < b))) acc := by
  induction s with
  | nil =>
    intro acc
    rfl
  | cons c t ih =>
    intro acc
    by_cases h : digit_value c < b
    · rw [List.takeWhile_cons_of_pos (by simpa using h)]
      simp only [strtol_digits, if_pos h]
      exact ih _
    · rw [List.takeWhile_cons_of_neg (by simpa using h)]
      simp only [strtol_digits, if_neg h]

theorem strtol_leading_zero (t : List Char) (hall : ('0' :: t).all isdigit = true) :
    strtol ('0' :: t) =
      strtol_result false
        (numeral_value 8 (('0' :: t).takeWhile (fun c => decide (digit_value c < 8)))) := by
  have h0x : strtol_has_0x ('0' :: t) = false := by
    rw [List.all_eq_true] at hall
    cases t with
    | nil => rfl
    | cons c1 t1 =>
      cases t1 with
      | nil => rfl
      | cons c2 t2 =>
        have h1 : isdigit c1 = true :=
          hall c1 (List.mem_cons_of_mem _ (List.mem_cons_self c1 _))
        have e1 : c1 ≠ 'x' := by
          intro e
          subst e
          exact absurd h1 (by decide)
        have e2 : c1 ≠ 'X' := by
          intro e
          subst e
          exact absurd h1 (by decide)
        unfold strtol_has_0x
        simp [e1, e2]
  have hd : ∀ c, c ∈ ('0' :: t).takeWhile (fun c => decide (digit_value c < 8)) →
      digit_value c < 8 := by
    intro c hc
    have h := List.mem_takeWhile_imp hc
    simpa using h
  have hh : ('0' :: t).head? = some '0' := rfl
  rw [strtol_of_digit '0' t (by decide)]
  unfold strtol_magnitude
  rw [h0x, if_neg (by decide), if_pos hh, strtol_digits_takeWhile 8 ('0' :: t) 0,
    strtol_digits_eq 8 _ 0 hd]
  simp

/-- C38, counterexample: `"010"` consists only of decimal digits and its decimal value 10 fits
in a `long`, but `parse_integer_arg` returns 8 (`strtol` with base 0 reads a leading `0` as
octal), and `"09"` gives 0, not 9; `"0x8000000000000000"` is `0x` followed only by hexadecimal
digits, but the value returned is 0, not `2 ^ 63`; and `"4096"` gives 0 when `errno` is still
`ERANGE` from an earlier call, as it is after `parse_integer_arg` on
`"99999999999999999999"`, so that `--h2t-t2h-mem-size=4096` is rejected with -3. -/
theorem C38_counterexample :
    ("010".toList.all isdigit = true ∧ (numeral_value 10 "010".toList : Int) = 10 ∧
      (10 : Int) ≤ LONG_MAX ∧ (parse_integer_arg "010".toList false).ret = 8) ∧
    ("09".toList.all isdigit = true ∧ (numeral_value 10 "09".toList : Int) = 9 ∧
      (parse_integer_arg "09".toList false).ret = 0) ∧
    ("8000000000000000".toList.all isxdigit = true ∧
      numeral_value 16 "8000000000000000".toList = 2 ^ 63 ∧
      (parse_integer_arg "0x8000000000000000".toList false).ret = 0) ∧
    ((parse_integer_arg "99999999999999999999".toList false).errno_ERANGE = true ∧
      (parse_integer_arg "4096".toList true).ret = 0 ∧
      (parse_cmd_args_case_m "4096".toList true).ret = some (-3)) := by
  decide

/-- C38, amended: `parse_integer_arg` numeric reading, with `errno` not `ERANGE` at the call.
(1) For an argument consisting only of decimal digits that does not start with `0`, or is
`"0"`, whose decimal value is at most `LONG_MAX`, the function returns that decimal value.
(2) For an argument that starts with `0` followed only by the digits `0` to `7`, it returns
the octal value.  (3) For every argument consisting only of decimal digits that starts with
`0`, it returns the octal value of the longest leading run of digits `0` to `7` (so `"0789"`
gives 7 and `"04096"` gives 32).  (4) For an argument `0x` or `0X` followed only by
hexadecimal digits whose hexadecimal value is at most `LONG_MAX`, it returns the hexadecimal
value.  In these forms a value above `LONG_MAX` gives 0 and leaves `errno` at `ERANGE`.
(5) For an argument that is neither all decimal digits nor `0x` or `0X` followed only by
hexadecimal digits it returns 0, whatever `errno` is.  (6) The `case 'm'` block of
`parse_cmd_args` returns -3 exactly when the value returned is 0. -/
theorem C38_parse_integer_arg (optarg : List Char) :
    (optarg.all isdigit = true → (optarg.head? ≠ some '0' ∨ optarg = ['0']) →
      ((numeral_value 10 optarg : Int) ≤ LONG_MAX →
        parse_integer_arg optarg false =
          { ret := (numeral_value 10 optarg : Int), errno_ERANGE := false }) ∧
      (LONG_MAX < (numeral_value 10 optarg : Int) →
        parse_integer_arg optarg false = { ret := 0, errno_ERANGE := true })) ∧
    (∀ t, optarg = '0' :: t → (∀ c, c ∈ t → 48 ≤ c.toNat ∧ c.toNat ≤ 55) →
      ((numeral_value 8 optarg : Int) ≤ LONG_MAX →
        parse_integer_arg optarg false =
          { ret := (numeral_value 8 optarg : Int), errno_ERANGE := false }) ∧
      (LONG_MAX < (numeral_value 8 optarg : Int) →
        parse_integer_arg optarg false = { ret := 0, errno_ERANGE := true })) ∧
    (∀ t, optarg = '0' :: t → optarg.all isdigit = true →
      ((numeral_value 8 (optarg.takeWhile (fun c => decide (digit_value c < 8))) : Int) ≤
          LONG_MAX →
        parse_integer_arg optarg false =
          { ret := (numeral_value 8
              (optarg.takeWhile (fun c => decide (digit_value c < 8))) : Int),
            errno_ERANGE := false }) ∧
      (LONG_MAX <
          (numeral_value 8 (optarg.takeWhile (fun c => decide (digit_value c < 8))) : Int) →
        parse_integer_arg optarg false = { ret := 0, errno_ERANGE := true })) ∧
    (∀ x ds, optarg = '0' :: x :: ds → (x = 'x' ∨ x = 'X') → ds.all isxdigit = true →
      ((numeral_value 16 ds : Int) ≤ LONG_MAX →
        parse_integer_arg optarg false =
          { ret := (numeral_value 16 ds : Int), errno_ERANGE := false }) ∧
      (LONG_MAX < (numeral_value 16 ds : Int) →
        parse_integer_arg optarg false = { ret := 0, errno_ERANGE := true })) ∧
    (optarg.all isdigit = false →
      (∀ x ds, optarg = '0' :: x :: ds → (x = 'x' ∨ x = 'X') → ds.all isxdigit = false) →
      ∀ e, parse_integer_arg optarg e = { ret := 0, errno_ERANGE := e }) ∧
    (∀ e, (parse_integer_arg optarg e).ret = 0 ↔
      (parse_cmd_args_case_m optarg e).ret = some (-3)) := by
  refine ⟨?_, ?_, ?_, ?_, ?_, ?_⟩
  · intro hall hhead
    have hs : strtol optarg = strtol_result false (numeral_value 10 optarg) := by
      rcases hhead with h | h
      · exact strtol_decimal optarg hall h
      · subst h
        decide
    have hv := parse_integer_arg_value optarg (numeral_value 10 optarg)
      (is_all_digit_of_digits optarg hall) hs
    exact ⟨hv.1, hv.2.1⟩
  · intro t e h
    subst e
    have hall : ('0' :: t).all isdigit = true := by
      rw [List.all_eq_true]
      intro c hc
      rw [List.mem_cons] at hc
      rcases hc with e | hc
      · subst e
        decide
      · rw [isdigit_iff]
        have hr := h c hc
        omega
    have hv := parse_integer_arg_value ('0' :: t) (numeral_value 8 ('0' :: t))
      (is_all_digit_of_digits _ hall) (strtol_octal t h)
    exact ⟨hv.1, hv.2.1⟩
  · intro t e hall
    subst e
    have hv := parse_integer_arg_value ('0' :: t)
      (numeral_value 8 (('0' :: t).takeWhile (fun c => decide (digit_value c < 8))))
      (is_all_digit_of_digits _ hall) (strtol_leading_zero t hall)
    exact ⟨hv.1, hv.2.1⟩
  · intro x ds e hx hall
    subst e
    have hv := parse_integer_arg_value ('0' :: x :: ds) (numeral_value 16 ds)
      (by rw [is_all_digit_hex x ds hx]; exact hall) (strtol_hex x ds hx hall)
    exact ⟨hv.1, hv.2.1⟩
  · intro h1 h2 e
    exact parse_integer_arg_not_all optarg e (is_all_digit_other optarg h1 h2)
  · intro e
    obtain ⟨c1, c2⟩ := parse_cmd_args_case_m_spec optarg e
    constructor
    · intro h
      rw [c1 h]
    · intro h
      by_contra hne
      rw [c2 hne] at h
      exact Option.noConfusion h

/-- C38 at `"4096"`, at `"0x1000"`, at `"12a"`, at `"017"` and at `"0789"`: the values
returned are 4096, 4096, 0, 15 and 7. -/
theorem C38_parse_integer_arg_witness :
    ("4096".toList.all isdigit = true ∧ "4096".toList.head? ≠ some '0' ∧
      (numeral_value 10 "4096".toList : Int) ≤ LONG_MAX ∧ numeral_value 10 "4096".toList = 4096) ∧
    parse_integer_arg "4096".toList false =
      { ret := (numeral_value 10 "4096".toList : Int), errno_ERANGE := false } ∧
    parse_integer_arg ['0', 'x', '1', '0', '0', '0'] false =
      { ret := (numeral_value 16 ['1', '0', '0', '0'] : Int), errno_ERANGE := false } ∧
    numeral_value 16 ['1', '0', '0', '0'] = 4096 ∧
    parse_integer_arg ['1', '2', 'a'] false = { ret := 0, errno_ERANGE := false } ∧
    parse_integer_arg ['0', '1', '7'] false =
      { ret := (numeral_value 8 ['0', '1', '7'] : Int), errno_ERANGE := false } ∧
    numeral_value 8 ['0', '1', '7'] = 15 ∧
    parse_integer_arg ['0', '7', '8', '9'] false =
      { ret := (numeral_value 8
          (['0', '7', '8', '9'].takeWhile (fun c => decide (digit_value c < 8))) : Int),
        errno_ERANGE := false } ∧
    numeral_value 8 (['0', '7', '8', '9'].takeWhile (fun c => decide (digit_value c < 8))) = 7 ∧
    (parse_cmd_args_case_m ['1', '2', 'a'] false).ret = some (-3) :=
  ⟨⟨by decide, by decide, by decide, by decide⟩,
    ((C38_parse_integer_arg "4096".toList).1 (by decide) (Or.inl (by decide))).1 (by decide),
    ((C38_parse_integer_arg ['0', 'x', '1', '0', '0', '0']).2.2.2.1 'x' ['1', '0', '0', '0'] rfl
      (Or.inl rfl) (by decide)).1 (by decide),
    by decide,
    (C38_parse_integer_arg ['1', '2', 'a']).2.2.2.2.1 (by decide)
      (fun x ds h _ => absurd (List.cons.inj h).1 (by decide)) false,
    ((C38_parse_integer_arg ['0', '1', '7']).2.1 ['1', '7'] rfl
      (by decide)).1 (by decide),
    by decide,
    ((C38_parse_integer_arg ['0', '7', '8', '9']).2.2.1 ['7', '8', '9'] rfl
      (by decide)).1 (by decide),
    by decide,
    ((C38_parse_integer_arg ['1', '2', 'a']).2.2.2.2.2 false).1 (by decide)⟩

end StDbg
